import Mathlib

/-!
# prova: error classification, optional-patch fields and transactional services

A shallow embedding of the Go packages `app`, `common`, `http` and `postgres`
of the repository, followed by theorems about them.

Conventions of the embedding:

* a Go `string` or `[]byte` is a list of bytes (`GoString`), each byte a natural
  number below 256; Go source literals are UTF-8 encoded by `str`;
* a Go `error` interface value is `Option GoError`, `none` standing for `nil`;
* functions that read the call stack (`stack.Caller`) take the caller they
  would observe as an argument;
* standard-library collaborators whose behaviour is not fixed by the
  repository (`mail.ParseAddress`, the SQL driver, the clock, bcrypt) are
  arguments of the functions that use them, gathered in `Env` for the package
  `postgres`;
* a run of the package `postgres` threads a trace: the calls that reached the
  driver and the invocations of `Commit` and `Rollback` on a handle, oldest
  first; the driver answers as a function of the trace so far;
* `encoding/json` is modelled at the level of bytes for the type `string`;
  whether its object decoder goes on after a member whose `UnmarshalJSON`
  returned an error differs between the decoders of the library and is the
  argument `goesOn` of `decodeObject`;
* a storage failure is a failure of a query or an exec, or of scanning or
  iterating the rows of an answer (`stmtFails`);
* the text of a statement is read by small functions (`wordAfter`,
  `insertBinding`, `selectItems`) for the table it names, the values its
  columns receive and the items it selects; `query.FormatLimitPage`, which is
  not among the sources, is a field of `Env`.
-/

namespace Prova

deriving instance DecidableEq for Except

/-! ## Go strings -/

/-- A Go `string` (or `[]byte`): a sequence of bytes, each below 256. -/
abbrev GoString := List Nat

/-- The rune `utf8.RuneError` (U+FFFD). -/
def RuneError : Nat := 0xFFFD

/-- The function `utf8.AppendRune`: the UTF-8 encoding of a rune; surrogates and
out-of-range values are encoded as `utf8.RuneError`. -/
def encodeRune (r : Nat) : GoString :=
  if r ≤ 0x7F then [r]
  else if r ≤ 0x7FF then [0xC0 + r / 64, 0x80 + r % 64]
  else if 0x10FFFF < r ∨ (0xD800 ≤ r ∧ r ≤ 0xDFFF) then [0xEF, 0xBF, 0xBD]
  else if r ≤ 0xFFFF then [0xE0 + r / 4096, 0x80 + r / 64 % 64, 0x80 + r % 64]
  else [0xF0 + r / 262144, 0x80 + r / 4096 % 64, 0x80 + r / 64 % 64, 0x80 + r % 64]

/-- The bytes of a Go string literal written in (UTF-8) source text. -/
def str (s : String) : GoString :=
  (s.data.map (fun c => encodeRune c.toNat)).flatten

/-- The function `strings.HasPrefix`. -/
def hasPrefix : GoString → GoString → Bool
  | _, [] => true
  | [], _ :: _ => false
  | b :: s, p :: ps => b == p && hasPrefix s ps

/-- The function `strings.Contains`: `substr` occurs in `s` at some byte offset. -/
def stringsContains (s substr : GoString) : Bool :=
  match s with
  | [] => hasPrefix [] substr
  | b :: rest => hasPrefix (b :: rest) substr || stringsContains rest substr

/-! ## Package `app`: errors -/

def ECANCELED : GoString := str "canceled"
def ECONFLICT : GoString := str "conflict"
def EINTERNAL : GoString := str "internal"
def EINVALID : GoString := str "invalid"
def ENOTFOUND : GoString := str "not_found"
def ENOTIMPLEMENTED : GoString := str "not_implemented"
def EUNAUTHORIZED : GoString := str "unauthorized"
def EUNKNOWN : GoString := str "unknown"
def EFORBIDDEN : GoString := str "forbidden"
def EEXISTS : GoString := str "exists"
def ENOTINJECTED : GoString := str "not_injected"
def EUNAVAILABLE : GoString := str "unavailable"
def ENOTAUTHENTICATED : GoString := str "not_authenticated"
def ESHOULDLOGOUT : GoString := str "should_logout"
def EMAILALREADYINUSE : GoString := str "email_already_in_use"
def EINTERNAL_INVALID : GoString := str "internal_invalid"

/-- The struct `app.Error`. -/
structure Error where
  Code : GoString
  Message : GoString
  OriginFile : GoString
  OriginFn : GoString
deriving DecidableEq, Repr

/-- A non-nil Go `error` value: an `*app.Error`, an error of another type with
no `Unwrap` method, or an error of another type that wraps an inner error.
The `text` of the last two is what their `Error()` method returns. -/
inductive GoError where
  | app (e : Error)
  | plain (text : GoString)
  | wrap (text : GoString) (inner : GoError)
deriving DecidableEq, Repr

/-- The method `(*Error).Error`, and `Error()` of the other error types. -/
def GoError.Error : GoError → GoString
  | .app e => str "code=" ++ e.Code ++ str " message=" ++ e.Message
  | .plain text => text
  | .wrap text _ => text

/-- The call `errors.As(err, &e)` with `e` of type `*app.Error`: the first
`*app.Error` in the unwrap chain of `err`. -/
def errorsAs : GoError → Option Error
  | .app e => some e
  | .plain _ => none
  | .wrap _ inner => errorsAs inner

/-- The function `app.ErrorCode`. -/
def ErrorCode (err : Option GoError) : GoString :=
  match err with
  | none => str ""
  | some g =>
    match errorsAs g with
    | some e => e.Code
    | none => EINTERNAL

/-- The function `app.ErrorLogEntries`: alternating keys and values. -/
def ErrorLogEntries (err : Option GoError) : List GoString :=
  match err with
  | none => []
  | some g =>
    match errorsAs g with
    | some e => [str "code", e.Code, str "origin_file", e.OriginFile, str "origin_fn", e.OriginFn]
    | none => [str "code", EINTERNAL]

/-- The function `app.ErrorMessage`. -/
def ErrorMessage (err : Option GoError) : GoString :=
  match err with
  | none => str ""
  | some g =>
    match errorsAs g with
    | some e => e.Message
    | none => g.Error

/-- A call-stack frame as `stack.Caller` reports it: `file` is `fmt.Sprint(caller)`
and `fn` is `fmt.Sprintf("%+n", caller)`. -/
structure Caller where
  file : GoString
  fn : GoString
deriving DecidableEq, Repr

/-- The text of `context.Canceled.Error()`. -/
def contextCanceledText : GoString := str "context canceled"

/-- The function `app.Errorf`. `message` is the value of
`fmt.Sprintf(format, args...)` and `caller` the frame `stack.Caller(1)`. -/
def Errorf (caller : Caller) (code message : GoString) : Error :=
  let code := if code ≠ ECANCELED ∧ stringsContains message contextCanceledText = true
    then ECANCELED else code
  { Code := code, Message := message, OriginFile := caller.file, OriginFn := caller.fn }

/-! ## Package `app`: logging -/

/-- Severity of a log15 record. -/
inductive Lvl where
  | Error
  | Warn
  | Info
deriving DecidableEq, Repr

/-- One call on a `log.Logger`: the method called, the message and the context. -/
structure LogRecord where
  lvl : Lvl
  msg : GoString
  ctx : List GoString
deriving DecidableEq, Repr

/-- The function `app.LogErr`. The logger is the list of calls it has received,
oldest first; `stackCaller` is `stack.Caller`. -/
def LogErr (stackCaller : Int → Caller) (logger : List LogRecord) (err : Option GoError)
    (addSkip : List Int) : List LogRecord :=
  let skip : Int := match addSkip with
    | [] => 1
    | a :: _ => 1 + a
  let caller := stackCaller skip
  let msg := ErrorMessage err
  let errEntries := ErrorLogEntries err
  let ctxs := errEntries ++ [str "log_file", caller.file, str "log_fn", caller.fn]
  let code := ErrorCode err
  if code = EINTERNAL ∨ code = EINTERNAL_INVALID ∨ code = EUNKNOWN ∨ code = ECONFLICT
      ∨ code = ENOTINJECTED then
    logger ++ [{ lvl := Lvl.Error, msg := msg, ctx := ctxs }]
  else if code = ENOTIMPLEMENTED ∨ code = ECANCELED ∨ code = EFORBIDDEN then
    logger ++ [{ lvl := Lvl.Warn, msg := msg, ctx := ctxs }]
  else
    logger ++ [{ lvl := Lvl.Info, msg := msg, ctx := ctxs }]

/-! ## Package `http`: error projections -/

def GenericErrorMessage : GoString := str "An error occurred"

/-- The map `http.codes`, as its list of entries. -/
def codes : List (GoString × Nat) :=
  [ (ECONFLICT, 409),
    (EFORBIDDEN, 403),
    (EINVALID, 400),
    (ENOTFOUND, 404),
    (ENOTIMPLEMENTED, 501),
    (EUNAUTHORIZED, 401),
    (ENOTAUTHENTICATED, 401),
    (ESHOULDLOGOUT, 401),
    (EINTERNAL, 500),
    (EUNAVAILABLE, 503) ]

/-- Indexing a Go map literal with distinct keys: `v, ok := m[key]`. -/
def mapIndex : List (GoString × Nat) → GoString → Option Nat
  | [], _ => none
  | (k, v) :: rest, key => if key = k then some v else mapIndex rest key

/-- The function `http.MessageFromErr`. -/
def MessageFromErr (err : Option GoError) : GoString :=
  let appErrMessage := ErrorMessage err
  let appErrCode := ErrorCode err
  if appErrMessage = str "" ∨ appErrCode = EINTERNAL ∨ appErrCode = EUNKNOWN then
    GenericErrorMessage
  else
    appErrMessage

/-- The function `http.StatusCodeFromErr`. -/
def StatusCodeFromErr (err : Option GoError) : Nat :=
  let appErrCode := ErrorCode err
  match mapIndex codes appErrCode with
  | some code => code
  | none => 500

/-! ## Package `encoding/json`, as far as `common.Patch` uses it -/

/-- The function `utf8.DecodeRune` (and `utf8.DecodeRuneInString`): the first rune
of `p` and its width in bytes; `(RuneError, 1)` for an invalid encoding. -/
def decodeRune : GoString → Nat × Nat
  | [] => (RuneError, 0)
  | p0 :: rest =>
    if p0 < 0x80 then (p0, 1)
    else if p0 < 0xC2 ∨ 0xF4 < p0 then (RuneError, 1)
    else
      let sz := if p0 < 0xE0 then 2 else if p0 < 0xF0 then 3 else 4
      let lo := if p0 = 0xE0 then 0xA0 else if p0 = 0xF0 then 0x90 else 0x80
      let hi := if p0 = 0xED then 0x9F else if p0 = 0xF4 then 0x8F else 0xBF
      if rest.length + 1 < sz then (RuneError, 1)
      else
        match rest with
        | [] => (RuneError, 1)
        | b1 :: rest1 =>
          if b1 < lo ∨ hi < b1 then (RuneError, 1)
          else if sz ≤ 2 then (p0 % 32 * 64 + b1 % 64, 2)
          else
            match rest1 with
            | [] => (RuneError, 1)
            | b2 :: rest2 =>
              if b2 < 0x80 ∨ 0xBF < b2 then (RuneError, 1)
              else if sz ≤ 3 then (p0 % 16 * 4096 + b1 % 64 * 64 + b2 % 64, 3)
              else
                match rest2 with
                | [] => (RuneError, 1)
                | b3 :: _ =>
                  if b3 < 0x80 ∨ 0xBF < b3 then (RuneError, 1)
                  else (p0 % 8 * 262144 + b1 % 64 * 4096 + b2 % 64 * 64 + b3 % 64, 4)

/-- The digit `"0123456789abcdef"[n]`. -/
def hexDigit (n : Nat) : Nat := if n < 10 then 0x30 + n else 0x57 + n

/-- The table `htmlSafeSet`: ASCII bytes that `json.Marshal` copies unescaped. -/
def htmlSafeSet (b : Nat) : Bool :=
  decide (0x20 ≤ b ∧ b < 0x80 ∧ b ≠ 0x22 ∧ b ≠ 0x26 ∧ b ≠ 0x3C ∧ b ≠ 0x3E ∧ b ≠ 0x5C)

/-- The escape that `appendString` writes for an ASCII byte outside `htmlSafeSet`
(with the short forms for backspace and form feed that Go 1.22 introduced; older
releases write the six-byte form for them, which decodes to the same byte). -/
def escapeByte (b : Nat) : GoString :=
  if b = 0x5C ∨ b = 0x22 then [0x5C, b]
  else if b = 0x08 then [0x5C, 0x62]
  else if b = 0x0C then [0x5C, 0x66]
  else if b = 0x0A then [0x5C, 0x6E]
  else if b = 0x0D then [0x5C, 0x72]
  else if b = 0x09 then [0x5C, 0x74]
  else [0x5C, 0x75, 0x30, 0x30, hexDigit (b / 16), hexDigit (b % 16)]

/-- The loop of `appendString` (with `escapeHTML` on) from position `i` on; `src` is
the input from `i`, and `fuel` bounds the iterations (each consumes a byte). -/
def appendStringLoop : Nat → GoString → GoString
  | 0, _ => []
  | _, [] => []
  | fuel + 1, b :: rest =>
    if b < 0x80 then
      (if htmlSafeSet b then [b] else escapeByte b) ++ appendStringLoop fuel rest
    else
      let (c, size) := decodeRune (b :: rest)
      if c = RuneError ∧ size = 1 then
        str "\\ufffd" ++ appendStringLoop fuel rest
      else if c = 0x2028 ∨ c = 0x2029 then
        str "\\u202" ++ [hexDigit (c % 16)] ++ appendStringLoop fuel ((b :: rest).drop size)
      else
        (b :: rest).take size ++ appendStringLoop fuel ((b :: rest).drop size)

/-- The function `appendString` of `encoding/json` on an empty destination: the
quoted JSON string for `src`, invalid UTF-8 replaced by U+FFFD. -/
def appendString (src : GoString) : GoString :=
  [0x22] ++ appendStringLoop src.length src ++ [0x22]

/-- The value of a hexadecimal digit, as `getu4` reads it. -/
def hexValue (c : Nat) : Option Nat :=
  if 0x30 ≤ c ∧ c ≤ 0x39 then some (c - 0x30)
  else if 0x61 ≤ c ∧ c ≤ 0x66 then some (c - 0x61 + 10)
  else if 0x41 ≤ c ∧ c ≤ 0x46 then some (c - 0x41 + 10)
  else none

/-- The function `getu4`: the code unit of a leading `\uXXXX` escape, if there is one. -/
def getu4 : GoString → Option Nat
  | 0x5C :: 0x75 :: h1 :: h2 :: h3 :: h4 :: _ =>
    match hexValue h1, hexValue h2, hexValue h3, hexValue h4 with
    | some a, some b, some c, some d => some (a * 4096 + b * 256 + c * 16 + d)
    | _, _, _, _ => none
  | _ => none

/-- The function `utf16.DecodeRune`: the rune of a surrogate pair, U+FFFD otherwise. -/
def utf16DecodeRune (r1 r2 : Nat) : Nat :=
  if 0xD800 ≤ r1 ∧ r1 < 0xDC00 ∧ 0xDC00 ≤ r2 ∧ r2 < 0xE000 then
    (r1 - 0xD800) * 1024 + (r2 - 0xDC00) + 0x10000
  else RuneError

/-- Scanning and unquoting of a JSON string literal after its opening quote, as
the scanner (`stateInString`) and `unquoteBytes` do together: the decoded bytes
and the input left after the closing quote, or `none` for a malformed literal.
`fuel` bounds the iterations (each consumes a byte). -/
def unquoteLoop : Nat → GoString → Option (GoString × GoString)
  | 0, _ => none
  | _, [] => none
  | fuel + 1, c :: rest =>
    if c = 0x22 then some ([], rest)
    else if c = 0x5C then
      match rest with
      | [] => none
      | e :: rest1 =>
        if e = 0x75 then
          match getu4 (c :: rest) with
          | none => none
          | some rr =>
            let rest6 := rest.drop 5
            if 0xD800 ≤ rr ∧ rr < 0xE000 then
              let dec := match getu4 rest6 with
                | some rr1 => utf16DecodeRune rr rr1
                | none => RuneError
              if dec ≠ RuneError then
                (unquoteLoop fuel (rest6.drop 6)).map (fun r => (encodeRune dec ++ r.1, r.2))
              else
                (unquoteLoop fuel rest6).map (fun r => (encodeRune RuneError ++ r.1, r.2))
            else
              (unquoteLoop fuel rest6).map (fun r => (encodeRune rr ++ r.1, r.2))
        else
          let plain : Option Nat :=
            if e = 0x22 ∨ e = 0x5C ∨ e = 0x2F then some e
            else if e = 0x62 then some 0x08
            else if e = 0x66 then some 0x0C
            else if e = 0x6E then some 0x0A
            else if e = 0x72 then some 0x0D
            else if e = 0x74 then some 0x09
            else none
          match plain with
          | none => none
          | some b => (unquoteLoop fuel rest1).map (fun r => (b :: r.1, r.2))
    else if c < 0x20 then none
    else if c < 0x80 then (unquoteLoop fuel rest).map (fun r => (c :: r.1, r.2))
    else
      let (rr, size) := decodeRune (c :: rest)
      (unquoteLoop fuel ((c :: rest).drop size)).map (fun r => (encodeRune rr ++ r.1, r.2))

/-- JSON insignificant whitespace (`isSpace` of the scanner). -/
def isSpace (c : Nat) : Bool := decide (c = 0x20 ∨ c = 0x09 ∨ c = 0x0D ∨ c = 0x0A)

/-- The call `json.Unmarshal(data, &temp)` for a zero-valued `temp` of type `string`:
a JSON string literal is unquoted into `temp`, `null` leaves `temp` empty, and
every other input is an error, `reject data` (a `*SyntaxError` for malformed
JSON, an `*UnmarshalTypeError` for a JSON value of another kind). -/
def jsonUnmarshalString (reject : GoString → GoError) (data : GoString) :
    Except GoError GoString :=
  match data.dropWhile isSpace with
  | 0x22 :: rest =>
    match unquoteLoop (rest.length + 1) rest with
    | some (t, tail) => if tail.dropWhile isSpace = [] then .ok t else .error (reject data)
    | none => .error (reject data)
  | rest =>
    if hasPrefix rest (str "null") ∧ (rest.drop 4).dropWhile isSpace = [] then .ok []
    else .error (reject data)

/-- The call `json.Marshal(v)` for `v` of type `string`; it never fails. -/
def jsonMarshalString (v : GoString) : Except GoError GoString :=
  .ok (appendString v)

/-- What `encoding/json` does for the type parameter `T` of a `Patch`:
the zero value of `T`, `json.Marshal(v)` and `json.Unmarshal(data, &temp)` for a
zero-valued `temp` (the value of `temp` afterwards, or the error). -/
structure JsonCodec (T : Type) where
  zero : T
  Marshal : T → Except GoError GoString
  Unmarshal : GoString → Except GoError T

/-- The codec of `encoding/json` for `T = string`. -/
def stringCodec (reject : GoString → GoError) : JsonCodec GoString :=
  { zero := [], Marshal := jsonMarshalString, Unmarshal := jsonUnmarshalString reject }

/-- A Unicode scalar value: a code point that is not a surrogate. -/
def isScalar (r : Nat) : Prop := r < 0xD800 ∨ (0xDFFF < r ∧ r < 0x110000)

/-- The UTF-8 encoding of a sequence of runes. -/
def utf8Bytes (rs : List Nat) : GoString := (rs.map encodeRune).flatten

/-- What `appendString` writes for one validly encoded rune of its input. -/
def encodedRune (r : Nat) : GoString :=
  if r < 0x80 then (if htmlSafeSet r then [r] else escapeByte r)
  else if r = 0x2028 ∨ r = 0x2029 then str "\\u202" ++ [hexDigit (r % 16)]
  else encodeRune r

/-! ## Package `common`: the optional-patch field -/

/-- The variable `common.NullBytes`. -/
def NullBytes : GoString := str "null"

/-- The struct `common.Patch[T]`. -/
structure Patch (T : Type) where
  Value : T
  Set : Bool
deriving DecidableEq, Repr

/-- The zero value of `Patch[T]`. -/
def Patch.zero {T : Type} (codec : JsonCodec T) : Patch T :=
  { Value := codec.zero, Set := false }

/-- The method `Patch[T].MarshalJSON`. -/
def Patch.MarshalJSON {T : Type} (codec : JsonCodec T) (v : Patch T) :
    Except GoError GoString :=
  if !v.Set then .ok NullBytes
  else codec.Marshal v.Value

/-- The method `(*Patch[T]).UnmarshalJSON`: the receiver afterwards and the error
returned. -/
def Patch.UnmarshalJSON {T : Type} (codec : JsonCodec T) (v : Patch T) (data : GoString) :
    Patch T × Option GoError :=
  let v := { v with Set := true }
  if data = NullBytes then (v, none)
  else
    match codec.Unmarshal data with
    | .error err => (v, some err)
    | .ok temp => ({ v with Value := temp }, none)

/-- The function `common.NewPatch`. -/
def NewPatch {T : Type} (val : T) : Patch T :=
  { Value := val, Set := true }

/-! ## Package `app`: update payloads and their JSON decoding -/

/-- The struct `app.UserUpdate`. -/
structure UserUpdate where
  Name : Patch GoString
  Surname : Patch GoString
  Email : Patch GoString
  Password : Patch GoString
deriving DecidableEq, Repr

/-- The struct `app.AdminUpdate`. -/
structure AdminUpdate where
  Name : Patch GoString
  Surname : Patch GoString
  Email : Patch GoString
  Password : Patch GoString
deriving DecidableEq, Repr

/-- The fields that `UserUpdate` and `AdminUpdate` declare, in declaration order. -/
inductive UpdateField where
  | Name
  | Surname
  | Email
  | Password
deriving DecidableEq, Repr

/-- The `json:"..."` tag of a field. -/
def UpdateField.jsonName : UpdateField → GoString
  | .Name => str "name"
  | .Surname => str "surname"
  | .Email => str "email"
  | .Password => str "password"

def updateFields : List UpdateField := [.Name, .Surname, .Email, .Password]

def UserUpdate.get (u : UserUpdate) : UpdateField → Patch GoString
  | .Name => u.Name
  | .Surname => u.Surname
  | .Email => u.Email
  | .Password => u.Password

def UserUpdate.set (u : UserUpdate) (f : UpdateField) (p : Patch GoString) : UserUpdate :=
  match f with
  | .Name => { u with Name := p }
  | .Surname => { u with Surname := p }
  | .Email => { u with Email := p }
  | .Password => { u with Password := p }

def AdminUpdate.get (u : AdminUpdate) : UpdateField → Patch GoString
  | .Name => u.Name
  | .Surname => u.Surname
  | .Email => u.Email
  | .Password => u.Password

def AdminUpdate.set (u : AdminUpdate) (f : UpdateField) (p : Patch GoString) : AdminUpdate :=
  match f with
  | .Name => { u with Name := p }
  | .Surname => { u with Surname := p }
  | .Email => { u with Email := p }
  | .Password => { u with Password := p }

/-- The zero value of `UserUpdate`. -/
def UserUpdate.zero : UserUpdate :=
  { Name := ⟨[], false⟩, Surname := ⟨[], false⟩, Email := ⟨[], false⟩, Password := ⟨[], false⟩ }

/-- The zero value of `AdminUpdate`. -/
def AdminUpdate.zero : AdminUpdate :=
  { Name := ⟨[], false⟩, Surname := ⟨[], false⟩, Email := ⟨[], false⟩, Password := ⟨[], false⟩ }

/-- A member of a JSON object: its key (unquoted) and the raw bytes of its value. -/
structure Member where
  key : GoString
  value : GoString
deriving DecidableEq, Repr

/-- The field that `encoding/json` selects for an object key: the field with
exactly that name, else the first field whose name matches the key under the
case-insensitive comparison `equalFold` of the library. -/
def fieldForKey (equalFold : GoString → GoString → Bool) (key : GoString) :
    Option UpdateField :=
  match updateFields.find? (fun f => decide (f.jsonName = key)) with
  | some f => some f
  | none => updateFields.find? (fun f => equalFold f.jsonName key)

/-- Decoding of the members of a JSON object into a struct whose fields are
`Patch[string]`, as `json.Unmarshal` does: members are handled in order, a
member whose key selects no field is skipped, and the value of any other member
is passed to `UnmarshalJSON` of the field. What follows a member whose
`UnmarshalJSON` returned an error is decided by `encoding/json`, not by the
repository, and differs between its decoders: `goesOn = false` is the decoder
that returns at once, `goesOn = true` the decoder that handles the remaining
members and returns the first error at the end. Returns the struct afterwards
and the error. -/
def decodeObject {S : Type} (get : S → UpdateField → Patch GoString)
    (set : S → UpdateField → Patch GoString → S) (codec : JsonCodec GoString)
    (equalFold : GoString → GoString → Bool) (goesOn : Bool) :
    List Member → S → S × Option GoError
  | [], s => (s, none)
  | m :: rest, s =>
    match fieldForKey equalFold m.key with
    | none => decodeObject get set codec equalFold goesOn rest s
    | some f =>
      match Patch.UnmarshalJSON codec (get s f) m.value with
      | (p, some err) =>
        if goesOn then
          ((decodeObject get set codec equalFold goesOn rest (set s f p)).1, some err)
        else (set s f p, some err)
      | (p, none) => decodeObject get set codec equalFold goesOn rest (set s f p)

/-- The call `json.Unmarshal(object, &upd)` for `upd` a `UserUpdate`. -/
def decodeUserUpdate (reject : GoString → GoError) (equalFold : GoString → GoString → Bool)
    (goesOn : Bool) (members : List Member) (upd : UserUpdate) :
    UserUpdate × Option GoError :=
  decodeObject UserUpdate.get UserUpdate.set (stringCodec reject) equalFold goesOn members upd

/-- The call `json.Unmarshal(object, &upd)` for `upd` an `AdminUpdate`. -/
def decodeAdminUpdate (reject : GoString → GoError) (equalFold : GoString → GoString → Bool)
    (goesOn : Bool) (members : List Member) (upd : AdminUpdate) :
    AdminUpdate × Option GoError :=
  decodeObject AdminUpdate.get AdminUpdate.set (stringCodec reject) equalFold goesOn members
    upd

/-! ## Package `app`: entities and their validation -/

/-- The struct `app.User`. -/
structure User where
  ID : Int
  Name : GoString
  Surname : GoString
  Email : GoString
  Password : GoString
  Phone : Int
deriving DecidableEq, Repr

/-- The struct `app.Admin`. -/
structure Admin where
  ID : Int
  Name : GoString
  Surname : GoString
  Email : GoString
  Password : GoString
  Active : Bool
deriving DecidableEq, Repr

/-- The method `User.Validate`. `parseAddress` is the error returned by
`mail.ParseAddress`, and `frame n` is the stack frame of this method at line `n`
of `app/user.go`, which `Errorf` records as the origin. -/
def User.Validate (parseAddress : GoString → Option GoError) (frame : Nat → Caller)
    (u : User) : Option GoError :=
  if u.Name = str "" then
    some (.app (Errorf (frame 21) EINVALID (str "Name is required")))
  else if u.Surname = str "" then
    some (.app (Errorf (frame 25) EINVALID (str "Surname is required")))
  else if parseAddress u.Email ≠ none then
    some (.app (Errorf (frame 29) EINVALID (str "Email is required")))
  else if u.Password = str "" then
    some (.app (Errorf (frame 33) EINVALID (str "Password is required")))
  else if u.Phone = 0 then
    some (.app (Errorf (frame 37) EINVALID (str "Phone is required")))
  else
    none

/-- The method `Admin.Validate`; `frame n` is the stack frame of this method at
line `n` of `app/admin.go`. -/
def Admin.Validate (parseAddress : GoString → Option GoError) (frame : Nat → Caller)
    (a : Admin) : Option GoError :=
  if a.Name = str "" then
    some (.app (Errorf (frame 21) EINVALID (str "Name is required")))
  else if a.Surname = str "" then
    some (.app (Errorf (frame 25) EINVALID (str "Surname is required")))
  else if parseAddress a.Email ≠ none then
    some (.app (Errorf (frame 29) EINVALID (str "Email is invalid")))
  else if a.Password = str "" then
    some (.app (Errorf (frame 33) EINVALID (str "Password is required")))
  else
    none

/-- The error `err` is a single `*app.Error` of kind invalid with message `msg`. -/
def isInvalidWith (err : Option GoError) (msg : GoString) : Prop :=
  ∃ e : Error, err = some (.app e) ∧ e.Code = str "invalid" ∧ e.Message = msg

/-! ## Package `postgres`: the storage driver and the trace of a run -/

/-- A value that crosses the `database/sql` boundary, as an argument or a column. -/
inductive SqlValue where
  | int (v : Int)
  | text (v : GoString)
  | bool (v : Bool)
  | null
deriving DecidableEq, Repr

/-- The result set of a query (`*sql.Rows`): the rows that `Next` yields, each
the list of its column values, and what `rows.Err()` reports afterwards. -/
structure Rows where
  rows : List (List SqlValue)
  err : Option GoError
deriving DecidableEq, Repr

/-- The struct `postgres.DB`, without its connection pool. -/
structure DB where
  DSN : GoString
deriving DecidableEq, Repr

/-- The function values stored in the fields `_commit` and `_rollback` of a `Tx`:
the no-op `func() error { return nil }`, or the method values `tx.Commit` and
`tx.Rollback` of the `*sql.Tx` numbered `tx`. -/
inductive TxFunc where
  | nop
  | sqlCommit (tx : Nat)
  | sqlRollback (tx : Nat)
deriving DecidableEq, Repr

/-- The struct `postgres.Tx`. The embedded `*sql.Tx` is the field `sqlTx`, the number
that identifies the storage transaction; `now` counts nanoseconds. -/
structure Tx where
  sqlTx : Nat
  db : DB
  now : Nat
  _commit : TxFunc
  _rollback : TxFunc
deriving DecidableEq, Repr

/-- A non-nil value of the interface `app.PendingTx`: a `*postgres.Tx` or a value
of some other implementation. -/
inductive PendingTx where
  | pg (tx : Tx)
  | other
deriving DecidableEq, Repr

/-- A `context.Context`, as far as the core reads it: the `PendingTx` stored
under `txContextKey`, if any. -/
structure Context where
  tx : Option PendingTx
deriving DecidableEq, Repr

/-- The function `app.TxFromContext`. -/
def TxFromContext (ctx : Option Context) : Option PendingTx :=
  match ctx with
  | none => none
  | some c => c.tx

/-- A call that reaches `database/sql`. -/
inductive DriverCall where
  | BeginTx
  | Commit (tx : Nat)
  | Rollback (tx : Nat)
  | Query (tx : Nat) (query : GoString) (args : List SqlValue)
  | QueryRow (tx : Nat) (query : GoString) (args : List SqlValue)
  | Exec (tx : Nat) (query : GoString) (args : List SqlValue)
deriving DecidableEq, Repr

/-- The methods of a `postgres.Tx` handle whose invocations are traced. -/
inductive TxMethod where
  | Commit
  | Rollback
deriving DecidableEq, Repr

/-- An event of a run: a call that reached the storage driver, or the invocation
of `Commit` or `Rollback` on a handle. -/
inductive Event where
  | driver (c : DriverCall)
  | call (m : TxMethod) (t : Tx)
deriving DecidableEq, Repr

/-- The trace of a run: its events, oldest first. -/
abbrev Trace := List Event

/-- An event of an inner step: a query or a statement sent to the driver. -/
def Event.isStatement : Event → Bool
  | .driver (.Query _ _ _) => true
  | .driver (.QueryRow _ _ _) => true
  | .driver (.Exec _ _ _) => true
  | _ => false

/-- The collaborators of the core. The answers of the storage driver and of the
clock may depend on everything that happened before, given as the trace so far.
`conv*` are the conversions `rows.Scan` applies to the column with the given
index, `GenerateFromPassword` is `bcrypt.GenerateFromPassword` at the default cost,
`FormatLimitPage` is `query.FormatLimitPage`, and `frames file n` is the stack
frame for line `n` of a source file. -/
structure Env where
  BeginTx : Trace → Except GoError Nat
  Commit : Trace → Nat → Option GoError
  Rollback : Trace → Nat → Option GoError
  Query : Trace → Nat → GoString → List SqlValue → Except GoError Rows
  QueryRow : Trace → Nat → GoString → List SqlValue → Except GoError (List SqlValue)
  Exec : Trace → Nat → GoString → List SqlValue → Option GoError
  Now : Trace → Nat
  convInt64 : Nat → SqlValue → Except GoError Int
  convInt : Nat → SqlValue → Except GoError Int
  convString : Nat → SqlValue → Except GoError GoString
  convBool : Nat → SqlValue → Except GoError Bool
  GenerateFromPassword : GoString → Except GoError GoString
  FormatLimitPage : Int → Int → GoString
  parseAddress : GoString → Option GoError
  frames : GoString → Nat → Caller

/-- The variable `postgres.HashPassword`, with the function it is initialised to. -/
def HashPassword (env : Env) (password : GoString) : Except GoError GoString :=
  match env.GenerateFromPassword password with
  | .error err =>
    .error (.app (Errorf (env.frames (str "postgres/posgress.go") 29) EINTERNAL
      (str "Error hashing password: " ++ err.Error)))
  | .ok p => .ok p

/-- The method `Time.Truncate(time.Second)` on nanoseconds. -/
def truncateSecond (t : Nat) : Nat := t - t % 1000000000

/-- Calling a function value stored in a `Tx`. -/
def TxFunc.run (env : Env) (f : TxFunc) (tr : Trace) : Option GoError × Trace :=
  match f with
  | .nop => (none, tr)
  | .sqlCommit tx => (env.Commit tr tx, tr ++ [.driver (.Commit tx)])
  | .sqlRollback tx => (env.Rollback tr tx, tr ++ [.driver (.Rollback tx)])

/-- The method `(*Tx).Commit`. -/
def Tx.Commit (env : Env) (t : Tx) (tr : Trace) : Option GoError × Trace :=
  match t._commit.run env (tr ++ [.call .Commit t]) with
  | (some err, tr1) =>
    (some (.app (Errorf (env.frames (str "postgres/posgress.go") 46) EINTERNAL
      (str "Error committing transaction: " ++ err.Error))), tr1)
  | (none, tr1) => (none, tr1)

/-- The method `(*Tx).Rollback`. -/
def Tx.Rollback (env : Env) (t : Tx) (tr : Trace) : Option GoError × Trace :=
  match t._rollback.run env (tr ++ [.call .Rollback t]) with
  | (some err, tr1) =>
    (some (.app (Errorf (env.frames (str "postgres/posgress.go") 53) EINTERNAL
      (str "Error rolling back transaction: " ++ err.Error))), tr1)
  | (none, tr1) => (none, tr1)

/-- The method `(*Tx).Now`. -/
def Tx.Now (t : Tx) : Nat := t.now

/-- The method `(*DB).BeginTx`. -/
def DB.BeginTx (env : Env) (db : DB) (ctx : Context) (tr : Trace) :
    Except GoError Tx × Trace :=
  match TxFromContext (some ctx) with
  | some (.pg tx) =>
    (.ok { sqlTx := tx.sqlTx, db := tx.db, now := tx.now, _commit := .nop, _rollback := .nop }, tr)
  | _ =>
    let tr1 := tr ++ [.driver .BeginTx]
    match env.BeginTx tr with
    | .error err =>
      (.error (.app (Errorf (env.frames (str "postgres/posgress.go") 176) EINTERNAL
        (str "Error creating transaction: " ++ err.Error))), tr1)
    | .ok tx =>
      (.ok { sqlTx := tx, db := db, now := truncateSecond (env.Now tr1),
             _commit := .sqlCommit tx, _rollback := .sqlRollback tx }, tr1)

/-- The events that `Commit` on a handle adds to the trace. -/
def Tx.commitEvents (t : Tx) : Trace :=
  .call .Commit t ::
    match t._commit with
    | .nop => []
    | .sqlCommit tx => [.driver (.Commit tx)]
    | .sqlRollback tx => [.driver (.Rollback tx)]

/-- The events that `Rollback` on a handle adds to the trace. -/
def Tx.rollbackEvents (t : Tx) : Trace :=
  .call .Rollback t ::
    match t._rollback with
    | .nop => []
    | .sqlCommit tx => [.driver (.Commit tx)]
    | .sqlRollback tx => [.driver (.Rollback tx)]

/-! ## Package `postgres`: users -/

/-- The struct `app.UserCreate`. -/
structure UserCreate where
  Name : GoString
  Surname : GoString
  Email : GoString
  Password : GoString
  Phone : Int
deriving DecidableEq, Repr

/-- The struct `app.UserFilter`. -/
structure UserFilter where
  ID : Option Int
  Email : Option GoString
  Page : Int
  Limit : Int
deriving DecidableEq, Repr

/-- The struct `app.AdminCreate`. -/
structure AdminCreate where
  Name : GoString
  Surname : GoString
  Email : GoString
  Password : GoString
deriving DecidableEq, Repr

/-- The struct `app.AdminFilter`. -/
structure AdminFilter where
  ID : Option Int
  Email : Option GoString
  Page : Int
  Limit : Int
deriving DecidableEq, Repr

/-- The verb `%d` of `fmt.Sprintf`. -/
def formatInt (n : Int) : GoString := str (toString n)

/-- The function `strings.Join`. -/
def stringsJoin : List GoString → GoString → GoString
  | [], _ => []
  | [a], _ => a
  | a :: b :: rest, sep => a ++ sep ++ stringsJoin (b :: rest) sep

/-- The error of `rows.Scan` when the number of destinations differs from the
number of columns. -/
def scanArityError (columns dests : Nat) : GoError :=
  .plain (str "sql: expected " ++ formatInt columns
    ++ str " destination arguments in Scan, not " ++ formatInt dests)

/-- The call `rows.Scan(&user.ID, ..., &user.Phone, &n)` of `findUsers`. -/
def scanUserRow (env : Env) (row : List SqlValue) : Except GoError (User × Int) :=
  match row with
  | [c0, c1, c2, c3, c4, c5, c6] => do
    let id ← env.convInt64 0 c0
    let name ← env.convString 1 c1
    let surname ← env.convString 2 c2
    let email ← env.convString 3 c3
    let password ← env.convString 4 c4
    let phone ← env.convInt64 5 c5
    let n ← env.convInt 6 c6
    pure ({ ID := id, Name := name, Surname := surname, Email := email,
            Password := password, Phone := phone }, n)
  | _ => .error (scanArityError row.length 7)

/-- The loop `for rows.Next()` of `findUsers`. -/
def scanUsers (env : Env) : List (List SqlValue) → List User → Int →
    Except GoError (List User × Int)
  | [], users, n => .ok (users, n)
  | row :: rest, users, _ =>
    match scanUserRow env row with
    | .error err =>
      .error (.app (Errorf (env.frames (str "postgres/user.go") 220) EINTERNAL
        (str "Error scanning user: " ++ err.Error)))
    | .ok (user, n) => scanUsers env rest (users ++ [user]) n

/-- The function `postgres.findUsers`. -/
def findUsers (env : Env) (tx : Tx) (filter : UserFilter) (tr : Trace) :
    Except GoError (List User × Int) × Trace :=
  let where0 : List GoString := [str "1 = 1"]
  let args0 : List SqlValue := []
  let counterParameter0 : Int := 1
  let (where1, args1, counterParameter1) :=
    match filter.ID with
    | some v => (where0 ++ [str "users.id = $" ++ formatInt counterParameter0],
        args0 ++ [SqlValue.int v], counterParameter0 + 1)
    | none => (where0, args0, counterParameter0)
  let (where2, args2) :=
    match filter.Email with
    | some v => (where1 ++ [str "users.email = $" ++ formatInt counterParameter1],
        args1 ++ [SqlValue.text v])
    | none => (where1, args1)
  let query := str "\n\t\tSELECT\n\t\t\tusers.id,\n\t\t\tusers.name,\n\t\t\tusers.surname,\n\t\t\tusers.email,\n\t\t\tusers.password,\n\t\t\tusers.phone,\n\t\t\tCOUNT(*) OVER() AS total_count\n\t\tFROM users\n\t\tWHERE "
    ++ stringsJoin where2 (str " AND ")
    ++ str "\n\t\tORDER BY users.id DESC\n\t"
    ++ env.FormatLimitPage filter.Limit filter.Page
  let tr1 := tr ++ [.driver (.Query tx.sqlTx query args2)]
  match env.Query tr tx.sqlTx query args2 with
  | .error err =>
    (.error (.app (Errorf (env.frames (str "postgres/user.go") 201) EINTERNAL
      (str "Error querying user: " ++ err.Error))), tr1)
  | .ok rows =>
    match scanUsers env rows.rows [] 0 with
    | .error err => (.error err, tr1)
    | .ok (users, n) =>
      match rows.err with
      | some err =>
        (.error (.app (Errorf (env.frames (str "postgres/user.go") 227) EINTERNAL
          (str "Error iterating user: " ++ err.Error))), tr1)
      | none => (.ok (users, n), tr1)

/-- The function `postgres.findUserByID`. -/
def findUserByID (env : Env) (tx : Tx) (id : Int) (tr : Trace) : Except GoError User × Trace :=
  match findUsers env tx { ID := some id, Email := none, Page := 0, Limit := 0 } tr with
  | (.error err, tr1) => (.error err, tr1)
  | (.ok ([], _), tr1) =>
    (.error (.app (Errorf (env.frames (str "postgres/user.go") 164) ENOTFOUND
      (str "User not found"))), tr1)
  | (.ok (a0 :: _, _), tr1) => (.ok a0, tr1)

/-- The function `postgres.createUser`. -/
def createUser (env : Env) (tx : Tx) (crt : UserCreate) (tr : Trace) :
    Except GoError User × Trace :=
  match HashPassword env crt.Password with
  | .error err => (.error err, tr)
  | .ok bcryptedPassword =>
    let user : User := { ID := 0, Name := crt.Name, Email := crt.Email, Surname := crt.Surname,
                         Password := bcryptedPassword, Phone := crt.Phone }
    match user.Validate env.parseAddress (env.frames (str "app/user.go")) with
    | some err => (.error err, tr)
    | none =>
      let query := str "\n\t\tINSERT INTO users (name, surname, email, password, phone)\n\t\tVALUES ($1, $2, $3, $4, $5)\n\t\tRETURNING id\n\t"
      let args := [SqlValue.text user.Name, .text user.Surname, .text user.Email,
        .text user.Password, .int user.Phone]
      let tr1 := tr ++ [.driver (.QueryRow tx.sqlTx query args)]
      let scanned : Except GoError Int :=
        match env.QueryRow tr tx.sqlTx query args with
        | .error err => .error err
        | .ok [c0] => env.convInt64 0 c0
        | .ok row => .error (scanArityError row.length 1)
      match scanned with
      | .error err =>
        (.error (.app (Errorf (env.frames (str "postgres/user.go") 133) EINTERNAL
          (str "Error creating user: " ++ err.Error))), tr1)
      | .ok id => (.ok { user with ID := id }, tr1)

/-- The function `postgres.deleteUser`. -/
def deleteUser (env : Env) (tx : Tx) (id : Int) (tr : Trace) : Option GoError × Trace :=
  match findUserByID env tx id tr with
  | (.error err, tr1) => (some err, tr1)
  | (.ok user, tr1) =>
    let query := str "\n\t\tDELETE FROM user\n\t\tWHERE id = $1\n\t"
    let args := [SqlValue.int user.ID]
    let tr2 := tr1 ++ [.driver (.Exec tx.sqlTx query args)]
    match env.Exec tr1 tx.sqlTx query args with
    | some err =>
      (some (.app (Errorf (env.frames (str "postgres/user.go") 151) EINTERNAL
        (str "Error deleting user: " ++ err.Error))), tr2)
    | none => (none, tr2)

/-- The function `postgres.attachUserAssociations`. -/
def attachUserAssociations (_tx : Tx) (_user : User) (tr : Trace) : Option GoError × Trace :=
  (none, tr)

/-! ## Package `postgres`: admins -/

/-- The call `rows.Scan(&admin.ID, ..., &admin.Active)` of `findAdmins`, with six
destinations. -/
def scanAdminRow (env : Env) (row : List SqlValue) : Except GoError Admin :=
  match row with
  | [c0, c1, c2, c3, c4, c5] => do
    let id ← env.convInt64 0 c0
    let name ← env.convString 1 c1
    let surname ← env.convString 2 c2
    let email ← env.convString 3 c3
    let password ← env.convString 4 c4
    let active ← env.convBool 5 c5
    pure { ID := id, Name := name, Surname := surname, Email := email,
           Password := password, Active := active }
  | _ => .error (scanArityError row.length 6)

/-- The loop `for rows.Next()` of `findAdmins`. -/
def scanAdmins (env : Env) : List (List SqlValue) → List Admin → Except GoError (List Admin)
  | [], admins => .ok admins
  | row :: rest, admins =>
    match scanAdminRow env row with
    | .error err =>
      .error (.app (Errorf (env.frames (str "postgres/admin.go") 204) EINTERNAL
        (str "Error scanning admins: " ++ err.Error)))
    | .ok admin => scanAdmins env rest (admins ++ [admin])

/-- The function `postgres.findAdmins`. Its named result `n` is never assigned. -/
def findAdmins (env : Env) (tx : Tx) (filter : AdminFilter) (tr : Trace) :
    Except GoError (List Admin × Int) × Trace :=
  let n : Int := 0
  let where0 : List GoString := [str "1 = 1"]
  let args0 : List SqlValue := []
  let counterParameter0 : Int := 1
  let (where1, args1, counterParameter1) :=
    match filter.ID with
    | some v => (where0 ++ [str "admin.id = $" ++ formatInt counterParameter0],
        args0 ++ [SqlValue.int v], counterParameter0 + 1)
    | none => (where0, args0, counterParameter0)
  let (where2, args2) :=
    match filter.Email with
    | some v => (where1 ++ [str "admin.email = $" ++ formatInt counterParameter1],
        args1 ++ [SqlValue.text v])
    | none => (where1, args1)
  let query := str "\n\t\tSELECT\n\t\t\tadmin.id,\n\t\t\tadmin.name,\n\t\t\tadmin.surname,\n\t\t\tadmin.email,\n\t\t\tadmin.password,\n\t\t\tadmin.active,\n\t\t\tCOUNT(*) OVER() AS total_count\n\t\tFROM admin\n\t\tWHERE "
    ++ stringsJoin where2 (str " AND ")
    ++ str "\n\t\tORDER BY admin.id DESC\n\t"
    ++ env.FormatLimitPage filter.Limit filter.Page
  let tr1 := tr ++ [.driver (.Query tx.sqlTx query args2)]
  match env.Query tr tx.sqlTx query args2 with
  | .error err =>
    (.error (.app (Errorf (env.frames (str "postgres/admin.go") 186) EINTERNAL
      (str "Error querying admin: " ++ err.Error))), tr1)
  | .ok rows =>
    match scanAdmins env rows.rows [] with
    | .error err => (.error err, tr1)
    | .ok admins =>
      match rows.err with
      | some err =>
        (.error (.app (Errorf (env.frames (str "postgres/admin.go") 211) EINTERNAL
          (str "Error iterating admins: " ++ err.Error))), tr1)
      | none => (.ok (admins, n), tr1)

/-- The function `postgres.findAdminByID`. -/
def findAdminByID (env : Env) (tx : Tx) (id : Int) (tr : Trace) :
    Except GoError Admin × Trace :=
  match findAdmins env tx { ID := some id, Email := none, Page := 0, Limit := 0 } tr with
  | (.error err, tr1) => (.error err, tr1)
  | (.ok ([], _), tr1) =>
    (.error (.app (Errorf (env.frames (str "postgres/admin.go") 149) ENOTFOUND
      (str "Admin not found"))), tr1)
  | (.ok (a0 :: _, _), tr1) => (.ok a0, tr1)

/-- The function `postgres.createAdmin`. -/
def createAdmin (env : Env) (tx : Tx) (crt : AdminCreate) (tr : Trace) :
    Except GoError Admin × Trace :=
  match HashPassword env crt.Password with
  | .error err => (.error err, tr)
  | .ok bcryptedPassword =>
    let admin : Admin := { ID := 0, Name := crt.Name, Email := crt.Email,
                           Surname := crt.Surname, Password := bcryptedPassword,
                           Active := true }
    match admin.Validate env.parseAddress (env.frames (str "app/admin.go")) with
    | some err => (.error err, tr)
    | none =>
      let query := str "\n\t\tINSERT INTO admin (name, surname, email, password, active)\n\t\tVALUES ($1, $2, $3, $4, $5)\n\t\tRETURNING id\n\t"
      let args := [SqlValue.text admin.Name, .text admin.Email, .text admin.Password,
        .bool admin.Active, .text admin.Surname]
      let tr1 := tr ++ [.driver (.QueryRow tx.sqlTx query args)]
      let scanned : Except GoError Int :=
        match env.QueryRow tr tx.sqlTx query args with
        | .error err => .error err
        | .ok [c0] => env.convInt64 0 c0
        | .ok row => .error (scanArityError row.length 1)
      match scanned with
      | .error err =>
        (.error (.app (Errorf (env.frames (str "postgres/admin.go") 118) EINTERNAL
          (str "Error creating admin: " ++ err.Error))), tr1)
      | .ok id => (.ok { admin with ID := id }, tr1)

/-- The function `postgres.deleteAdmin`. -/
def deleteAdmin (env : Env) (tx : Tx) (id : Int) (tr : Trace) : Option GoError × Trace :=
  match findAdminByID env tx id tr with
  | (.error err, tr1) => (some err, tr1)
  | (.ok admin, tr1) =>
    let query := str "\n\t\tDELETE FROM admin\n\t\tWHERE id = $1\n\t"
    let args := [SqlValue.int admin.ID]
    let tr2 := tr1 ++ [.driver (.Exec tx.sqlTx query args)]
    match env.Exec tr1 tx.sqlTx query args with
    | some err =>
      (some (.app (Errorf (env.frames (str "postgres/admin.go") 136) EINTERNAL
        (str "Error deleting admin: " ++ err.Error))), tr2)
    | none => (none, tr2)

/-- The run-time panic of `a[0]` on an empty slice, reported as an error value.
In `updateUser` and `updateAdmin` it guards a branch that needs `count > 0`. -/
def indexOutOfRange : GoError :=
  .plain (str "panic: runtime error: index out of range [0] with length 0")

/-- The block `if v := upd.Email; v.Set { ... }` of `updateAdmin`: the lookup
`findAdmins(ctx, tx, app.AdminFilter{Email: &v.Value})`, the test
`count > 0 && a[0].ID != admin.ID`, and the assignment of the email. -/
def updateAdmin_email (env : Env) (tx : Tx) (upd : AdminUpdate) (admin : Admin) (tr : Trace) :
    Except GoError Admin × Trace :=
  if upd.Email.Set then
    match findAdmins env tx
        { ID := none, Email := some upd.Email.Value, Page := 0, Limit := 0 } tr with
    | (.error err, tr1) => (.error err, tr1)
    | (.ok (a, count), tr1) =>
      if count > 0 then
        match a with
        | [] => (.error indexOutOfRange, tr1)
        | a0 :: _ =>
          if a0.ID ≠ admin.ID then
            (.error (.app (Errorf (env.frames (str "postgres/admin.go") 239) ECONFLICT
              (str "Email already in use"))), tr1)
          else (.ok { admin with Email := upd.Email.Value }, tr1)
      else (.ok { admin with Email := upd.Email.Value }, tr1)
  else (.ok admin, tr)

/-- The block `if v := upd.Password; v.Set { ... }` of `updateAdmin`. -/
def updateAdmin_password (env : Env) (upd : AdminUpdate) (admin : Admin) :
    Except GoError Admin :=
  if upd.Password.Set then
    match HashPassword env upd.Password.Value with
    | .error err => .error err
    | .ok bcryptedPassword => .ok { admin with Password := bcryptedPassword }
  else .ok admin

/-- The function `postgres.updateAdmin`. -/
def updateAdmin (env : Env) (tx : Tx) (id : Int) (upd : AdminUpdate) (tr : Trace) :
    Except GoError Admin × Trace :=
  match findAdminByID env tx id tr with
  | (.error err, tr1) => (.error err, tr1)
  | (.ok admin0, tr1) =>
    let admin1 := if upd.Name.Set then { admin0 with Name := upd.Name.Value } else admin0
    let admin2 := if upd.Surname.Set then { admin1 with Surname := upd.Surname.Value }
      else admin1
    match updateAdmin_email env tx upd admin2 tr1 with
    | (.error err, tr2) => (.error err, tr2)
    | (.ok admin3, tr2) =>
      match updateAdmin_password env upd admin3 with
      | .error err => (.error err, tr2)
      | .ok admin =>
        match admin.Validate env.parseAddress (env.frames (str "app/admin.go")) with
        | some err => (.error err, tr2)
        | none =>
          let query := str "\n\t\tUPDATE admin SET\n\t\t\tname = $2,\n\t\t\tsurname = $3,\n\t\t\temail = $4,\n\t\t\tpassword = $5,\n\t\tWHERE id = $1\n\t"
          let args := [SqlValue.int admin.ID, .text admin.Name, .text admin.Surname,
            .text admin.Email, .text admin.Password]
          let tr3 := tr2 ++ [.driver (.Exec tx.sqlTx query args)]
          match env.Exec tr2 tx.sqlTx query args with
          | some err =>
            (.error (.app (Errorf (env.frames (str "postgres/admin.go") 264) EINTERNAL
              (str "Error updating admin: " ++ err.Error))), tr3)
          | none => (.ok admin, tr3)

/-- The block `if v := upd.Email; v.Set { ... }` of `updateUser`: the lookup
`findAdmins(ctx, tx, app.AdminFilter{Email: &v.Value})`, the test
`count > 0 && a[0].ID != user.ID`, and the assignment of the email. -/
def updateUser_email (env : Env) (tx : Tx) (upd : UserUpdate) (user : User) (tr : Trace) :
    Except GoError User × Trace :=
  if upd.Email.Set then
    match findAdmins env tx
        { ID := none, Email := some upd.Email.Value, Page := 0, Limit := 0 } tr with
    | (.error err, tr1) => (.error err, tr1)
    | (.ok (a, count), tr1) =>
      if count > 0 then
        match a with
        | [] => (.error indexOutOfRange, tr1)
        | a0 :: _ =>
          if a0.ID ≠ user.ID then
            (.error (.app (Errorf (env.frames (str "postgres/user.go") 255) ECONFLICT
              (str "Email already in use"))), tr1)
          else (.ok { user with Email := upd.Email.Value }, tr1)
      else (.ok { user with Email := upd.Email.Value }, tr1)
  else (.ok user, tr)

/-- The block `if v := upd.Password; v.Set { ... }` of `updateUser`. -/
def updateUser_password (env : Env) (upd : UserUpdate) (user : User) :
    Except GoError User :=
  if upd.Password.Set then
    match HashPassword env upd.Password.Value with
    | .error err => .error err
    | .ok bcryptedPassword => .ok { user with Password := bcryptedPassword }
  else .ok user

/-- The function `postgres.updateUser`. The `Surname` patch is assigned to
`user.Name`, the email lookup queries the admins and the statement updates the
table `admins`, as in the source. -/
def updateUser (env : Env) (tx : Tx) (id : Int) (upd : UserUpdate) (tr : Trace) :
    Except GoError User × Trace :=
  match findUserByID env tx id tr with
  | (.error err, tr1) => (.error err, tr1)
  | (.ok user0, tr1) =>
    let user1 := if upd.Name.Set then { user0 with Name := upd.Name.Value } else user0
    let user2 := if upd.Surname.Set then { user1 with Name := upd.Surname.Value }
      else user1
    match updateUser_email env tx upd user2 tr1 with
    | (.error err, tr2) => (.error err, tr2)
    | (.ok user3, tr2) =>
      match updateUser_password env upd user3 with
      | .error err => (.error err, tr2)
      | .ok user =>
        match user.Validate env.parseAddress (env.frames (str "app/user.go")) with
        | some err => (.error err, tr2)
        | none =>
          let query := str "\n\t\tUPDATE admins SET\n\t\t\tname = $2,\n\t\t\tsurname = $6,\n\t\t\temail = $3,\n\t\t\tpassword = $4,\n\t\t\tphone = $5,\n\t\tWHERE id = $1\n\t"
          let args := [SqlValue.int user.ID, .text user.Name, .text user.Email,
            .text user.Password, .int user.Phone, .text user.Surname]
          let tr3 := tr2 ++ [.driver (.Exec tx.sqlTx query args)]
          match env.Exec tr2 tx.sqlTx query args with
          | some err =>
            (.error (.app (Errorf (env.frames (str "postgres/user.go") 285) EINTERNAL
              (str "Error updating user: " ++ err.Error))), tr3)
          | none => (.ok user, tr3)

/-! ## Package `postgres`: the service operations -/

/-- The struct `postgres.UserService`. -/
structure UserService where
  db : DB
deriving DecidableEq, Repr

/-- The struct `postgres.AdminService`. -/
structure AdminService where
  db : DB
deriving DecidableEq, Repr

/-- The method `(*UserService).DeleteUser`. The deferred `tx.Rollback()` runs last,
on the trace the body leaves, and its result is dropped. -/
def UserService.DeleteUser (env : Env) (s : UserService) (ctx : Context) (id : Int)
    (tr : Trace) : Option GoError × Trace :=
  match s.db.BeginTx env ctx tr with
  | (.error err, tr1) => (some err, tr1)
  | (.ok tx, tr1) =>
    let body : Option GoError × Trace :=
      match deleteUser env tx id tr1 with
      | (some err, tr2) => (some err, tr2)
      | (none, tr2) =>
        match tx.Commit env tr2 with
        | (some err, tr3) => (some err, tr3)
        | (none, tr3) => (none, tr3)
    (body.1, (tx.Rollback env body.2).2)

/-- The method `(*UserService).FindUserByID`. -/
def UserService.FindUserByID (env : Env) (s : UserService) (ctx : Context) (id : Int)
    (tr : Trace) : Except GoError User × Trace :=
  match s.db.BeginTx env ctx tr with
  | (.error err, tr1) => (.error err, tr1)
  | (.ok tx, tr1) =>
    let body : Except GoError User × Trace :=
      match findUserByID env tx id tr1 with
      | (.error err, tr2) => (.error err, tr2)
      | (.ok user, tr2) =>
        match attachUserAssociations tx user tr2 with
        | (some err, tr3) => (.error err, tr3)
        | (none, tr3) => (.ok user, tr3)
    (body.1, (tx.Rollback env body.2).2)

/-- The method `(*UserService).FindUsers`. -/
def UserService.FindUsers (env : Env) (s : UserService) (ctx : Context) (filter : UserFilter)
    (tr : Trace) : Except GoError (List User × Int) × Trace :=
  match s.db.BeginTx env ctx tr with
  | (.error err, tr1) => (.error err, tr1)
  | (.ok tx, tr1) =>
    let body := findUsers env tx filter tr1
    (body.1, (tx.Rollback env body.2).2)

/-- The method `(*UserService).UpdateUser`. -/
def UserService.UpdateUser (env : Env) (s : UserService) (ctx : Context) (id : Int)
    (upd : UserUpdate) (tr : Trace) : Except GoError User × Trace :=
  match s.db.BeginTx env ctx tr with
  | (.error err, tr1) => (.error err, tr1)
  | (.ok tx, tr1) =>
    let body : Except GoError User × Trace :=
      match updateUser env tx id upd tr1 with
      | (.error err, tr2) => (.error err, tr2)
      | (.ok user, tr2) =>
        match attachUserAssociations tx user tr2 with
        | (some err, tr3) => (.error err, tr3)
        | (none, tr3) =>
          match tx.Commit env tr3 with
          | (some err, tr4) => (.error err, tr4)
          | (none, tr4) => (.ok user, tr4)
    (body.1, (tx.Rollback env body.2).2)

/-- The method `(*UserService).CreateUser`. -/
def UserService.CreateUser (env : Env) (u : UserService) (ctx : Context) (crt : UserCreate)
    (tr : Trace) : Except GoError User × Trace :=
  match u.db.BeginTx env ctx tr with
  | (.error err, tr1) => (.error err, tr1)
  | (.ok tx, tr1) =>
    let body : Except GoError User × Trace :=
      match createUser env tx crt tr1 with
      | (.error err, tr2) => (.error err, tr2)
      | (.ok user, tr2) =>
        match tx.Commit env tr2 with
        | (some err, tr3) => (.error err, tr3)
        | (none, tr3) => (.ok user, tr3)
    (body.1, (tx.Rollback env body.2).2)

/-- The method `(*AdminService).CreateAdmin`. -/
def AdminService.CreateAdmin (env : Env) (s : AdminService) (ctx : Context)
    (crt : AdminCreate) (tr : Trace) : Except GoError Admin × Trace :=
  match s.db.BeginTx env ctx tr with
  | (.error err, tr1) => (.error err, tr1)
  | (.ok tx, tr1) =>
    let body : Except GoError Admin × Trace :=
      match createAdmin env tx crt tr1 with
      | (.error err, tr2) => (.error err, tr2)
      | (.ok admin, tr2) =>
        match tx.Commit env tr2 with
        | (some err, tr3) => (.error err, tr3)
        | (none, tr3) => (.ok admin, tr3)
    (body.1, (tx.Rollback env body.2).2)

/-- The method `(*AdminService).DeleteAdmin`. -/
def AdminService.DeleteAdmin (env : Env) (s : AdminService) (ctx : Context) (id : Int)
    (tr : Trace) : Option GoError × Trace :=
  match s.db.BeginTx env ctx tr with
  | (.error err, tr1) => (some err, tr1)
  | (.ok tx, tr1) =>
    let body : Option GoError × Trace :=
      match deleteAdmin env tx id tr1 with
      | (some err, tr2) => (some err, tr2)
      | (none, tr2) =>
        match tx.Commit env tr2 with
        | (some err, tr3) => (some err, tr3)
        | (none, tr3) => (none, tr3)
    (body.1, (tx.Rollback env body.2).2)

/-- The method `(*AdminService).FindAdminByID`. -/
def AdminService.FindAdminByID (env : Env) (s : AdminService) (ctx : Context) (id : Int)
    (tr : Trace) : Except GoError Admin × Trace :=
  match s.db.BeginTx env ctx tr with
  | (.error err, tr1) => (.error err, tr1)
  | (.ok tx, tr1) =>
    let body : Except GoError Admin × Trace :=
      match findAdminByID env tx id tr1 with
      | (.error err, tr2) => (.error err, tr2)
      | (.ok admin, tr2) => (.ok admin, tr2)
    (body.1, (tx.Rollback env body.2).2)

/-- The method `(*AdminService).UpdateAdmin`. -/
def AdminService.UpdateAdmin (env : Env) (s : AdminService) (ctx : Context) (id : Int)
    (upd : AdminUpdate) (tr : Trace) : Except GoError Admin × Trace :=
  match s.db.BeginTx env ctx tr with
  | (.error err, tr1) => (.error err, tr1)
  | (.ok tx, tr1) =>
    let body : Except GoError Admin × Trace :=
      match updateAdmin env tx id upd tr1 with
      | (.error err, tr2) => (.error err, tr2)
      | (.ok admin, tr2) =>
        match tx.Commit env tr2 with
        | (some err, tr3) => (.error err, tr3)
        | (none, tr3) => (.ok admin, tr3)
    (body.1, (tx.Rollback env body.2).2)

/-- The error of a Go result pair `(value, err)`. -/
def errorOf {α : Type} : Except GoError α → Option GoError
  | .error err => some err
  | .ok _ => none

/-- A call of one of the nine service operations, with its arguments. -/
inductive ServiceOp where
  | CreateUser (crt : UserCreate)
  | DeleteUser (id : Int)
  | FindUserByID (id : Int)
  | FindUsers (filter : UserFilter)
  | UpdateUser (id : Int) (upd : UserUpdate)
  | CreateAdmin (crt : AdminCreate)
  | DeleteAdmin (id : Int)
  | FindAdminByID (id : Int)
  | UpdateAdmin (id : Int) (upd : AdminUpdate)
deriving DecidableEq, Repr

/-- Running a service operation on the database `db`: the error it returns and
the trace it leaves. -/
def ServiceOp.run (env : Env) (db : DB) (ctx : Context) (op : ServiceOp) (tr : Trace) :
    Option GoError × Trace :=
  match op with
  | .CreateUser crt =>
    let r := UserService.CreateUser env { db := db } ctx crt tr
    (errorOf r.1, r.2)
  | .DeleteUser id => UserService.DeleteUser env { db := db } ctx id tr
  | .FindUserByID id =>
    let r := UserService.FindUserByID env { db := db } ctx id tr
    (errorOf r.1, r.2)
  | .FindUsers filter =>
    let r := UserService.FindUsers env { db := db } ctx filter tr
    (errorOf r.1, r.2)
  | .UpdateUser id upd =>
    let r := UserService.UpdateUser env { db := db } ctx id upd tr
    (errorOf r.1, r.2)
  | .CreateAdmin crt =>
    let r := AdminService.CreateAdmin env { db := db } ctx crt tr
    (errorOf r.1, r.2)
  | .DeleteAdmin id => AdminService.DeleteAdmin env { db := db } ctx id tr
  | .FindAdminByID id =>
    let r := AdminService.FindAdminByID env { db := db } ctx id tr
    (errorOf r.1, r.2)
  | .UpdateAdmin id upd =>
    let r := AdminService.UpdateAdmin env { db := db } ctx id upd tr
    (errorOf r.1, r.2)

/-- The inner step of a service operation, the part between `defer tx.Rollback()`
and the commit, on the handle `tx`: the error it returns and the trace it leaves. -/
def ServiceOp.inner (env : Env) (tx : Tx) (op : ServiceOp) (tr : Trace) :
    Option GoError × Trace :=
  match op with
  | .CreateUser crt =>
    let r := createUser env tx crt tr
    (errorOf r.1, r.2)
  | .DeleteUser id => deleteUser env tx id tr
  | .FindUserByID id =>
    match findUserByID env tx id tr with
    | (.error err, tr1) => (some err, tr1)
    | (.ok user, tr1) => attachUserAssociations tx user tr1
  | .FindUsers filter =>
    let r := findUsers env tx filter tr
    (errorOf r.1, r.2)
  | .UpdateUser id upd =>
    match updateUser env tx id upd tr with
    | (.error err, tr1) => (some err, tr1)
    | (.ok user, tr1) => attachUserAssociations tx user tr1
  | .CreateAdmin crt =>
    let r := createAdmin env tx crt tr
    (errorOf r.1, r.2)
  | .DeleteAdmin id => deleteAdmin env tx id tr
  | .FindAdminByID id =>
    let r := findAdminByID env tx id tr
    (errorOf r.1, r.2)
  | .UpdateAdmin id upd =>
    let r := updateAdmin env tx id upd tr
    (errorOf r.1, r.2)

/-- Whether the source of the operation calls `tx.Commit()` after its inner step. -/
def ServiceOp.commits : ServiceOp → Bool
  | .CreateUser _ => true
  | .DeleteUser _ => true
  | .FindUserByID _ => false
  | .FindUsers _ => false
  | .UpdateUser _ _ => true
  | .CreateAdmin _ => true
  | .DeleteAdmin _ => true
  | .FindAdminByID _ => false
  | .UpdateAdmin _ _ => true

/-- The trace `tr2` extends `tr1` by statements sent to the driver only. -/
def StatementsOnly (tr1 tr2 : Trace) : Prop :=
  ∃ evs : Trace, tr2 = tr1 ++ evs ∧ ∀ e ∈ evs, e.isStatement = true

/-- An event that commits: `Commit` invoked on a handle, or a commit that
reached the driver. -/
def Event.isCommit : Event → Bool
  | .call .Commit _ => true
  | .driver (.Commit _) => true
  | _ => false

/-- A sample environment, used to instantiate the theorems: storage that never
fails, a table without rows, and conversions that accept the matching kind of value. -/
def sampleEnv : Env :=
  { BeginTx := fun tr => .ok tr.length
    Commit := fun _ _ => none
    Rollback := fun _ _ => none
    Query := fun _ _ _ _ => .ok { rows := [], err := none }
    QueryRow := fun _ _ _ _ => .ok [.int 1]
    Exec := fun _ _ _ _ => none
    Now := fun tr => 1500000000 * (tr.length + 1)
    convInt64 := fun _ v =>
      match v with
      | .int i => .ok i
      | _ => .error (.plain (str "sql: Scan error"))
    convInt := fun _ v =>
      match v with
      | .int i => .ok i
      | _ => .error (.plain (str "sql: Scan error"))
    convString := fun _ v =>
      match v with
      | .text t => .ok t
      | _ => .error (.plain (str "sql: Scan error"))
    convBool := fun _ v =>
      match v with
      | .bool b => .ok b
      | _ => .error (.plain (str "sql: Scan error"))
    GenerateFromPassword := fun p => .ok (str "$2a$10$" ++ p)
    FormatLimitPage := fun _ _ => []
    parseAddress := fun e =>
      if stringsContains e (str "@") then none else some (.plain (str "mail: missing @"))
    frames := fun file n => { file := file ++ str ":" ++ formatInt n, fn := [] } }

/-! ## Package `http`: the error envelope -/

/-- The struct `http.ErrorAPI`; `Details` is the caller-supplied value, if any. -/
structure ErrorAPI where
  Code : GoString
  Message : GoString
  Details : Option GoString
deriving DecidableEq, Repr

/-- The function `http.NewErrorAPI`. -/
def NewErrorAPI (err : Option GoError) (details : Option GoString) : ErrorAPI :=
  { Code := ErrorCode err, Message := MessageFromErr err, Details := details }

/-! ## Package `postgres`: storage failures and the sites that wrap them -/

/-- The error that the driver failure `d` is wrapped into at a call site:
`app.Errorf(app.EINTERNAL, pre + "%v", d)`, raised at `line` of `file`. -/
def wrapStorage (env : Env) (file : GoString) (line : Nat) (pre : GoString) (d : GoError) :
    GoError :=
  .app (Errorf (env.frames file line) EINTERNAL (pre ++ d.Error))

/-- The failure that a loop `for rows.Next() { rows.Scan(...) }` meets first:
the error of `scan` on the first row it rejects. -/
def firstScanFailure {α : Type} (scan : List SqlValue → Except GoError α) :
    List (List SqlValue) → Option GoError
  | [] => none
  | row :: rest =>
    match scan row with
    | .error d => some d
    | .ok _ => firstScanFailure scan rest

/-- The failure that reading an answer meets first: that of the scan loop, or
else the error `rows.Err()` reports after the loop. -/
def rowsFailure {α : Type} (scan : List SqlValue → Except GoError α) (rows : Rows) :
    Option GoError :=
  match firstScanFailure scan rows.rows with
  | some d => some d
  | none => rows.err

/-- The failure of `Scan(&id)` on the row that `INSERT ... RETURNING id` answers,
in `createUser` and `createAdmin`. -/
def idScanFailure (env : Env) (row : List SqlValue) : Option GoError :=
  match row with
  | [c0] =>
    match env.convInt64 0 c0 with
    | .error d => some d
    | .ok _ => none
  | _ => some (scanArityError row.length 1)

/-- The text that the statement of `findUsers` starts with, and no other
statement of the package. -/
def usersSelect : GoString := str "\n\t\tSELECT\n\t\t\tusers.id"

/-- The statement event `e`, sent to the driver when the trace was `p`, met the
storage failure `d`: the driver answered the query or the exec with `d`, or it
answered with rows and scanning them failed with `d`. The rows of the statement
of `findUsers` are scanned by its loop, those of the other queries by the loop
of `findAdmins`, and the row of an `INSERT ... RETURNING id` by `Scan(&id)`. -/
def stmtFails (env : Env) (p : Trace) (e : Event) (d : GoError) : Prop :=
  match e with
  | .driver (.Query tx q a) =>
    match env.Query p tx q a with
    | .error d1 => d1 = d
    | .ok rows =>
      if hasPrefix q usersSelect then rowsFailure (scanUserRow env) rows = some d
      else rowsFailure (scanAdminRow env) rows = some d
  | .driver (.QueryRow tx q a) =>
    match env.QueryRow p tx q a with
    | .error d1 => d1 = d
    | .ok row => idScanFailure env row = some d
  | .driver (.Exec tx q a) => env.Exec p tx q a = some d
  | _ => False

/-- The call sites of `postgres/user.go` and `postgres/admin.go` that wrap a
failure of a query, an exec, a row scan or a row iteration: file, line and the
text before `%v` in the format. -/
def storageSites : List (GoString × Nat × GoString) :=
  [ (str "postgres/user.go", 133, str "Error creating user: "),
    (str "postgres/user.go", 151, str "Error deleting user: "),
    (str "postgres/user.go", 201, str "Error querying user: "),
    (str "postgres/user.go", 220, str "Error scanning user: "),
    (str "postgres/user.go", 227, str "Error iterating user: "),
    (str "postgres/user.go", 285, str "Error updating user: "),
    (str "postgres/admin.go", 118, str "Error creating admin: "),
    (str "postgres/admin.go", 136, str "Error deleting admin: "),
    (str "postgres/admin.go", 186, str "Error querying admin: "),
    (str "postgres/admin.go", 204, str "Error scanning admins: "),
    (str "postgres/admin.go", 211, str "Error iterating admins: "),
    (str "postgres/admin.go", 264, str "Error updating admin: ") ]

/-- The error `err` is the failure `d` wrapped at one of the `storageSites`. -/
def wrapsAtSite (env : Env) (err : Option GoError) (d : GoError) : Prop :=
  ∃ s ∈ storageSites, err = some (wrapStorage env s.1 s.2.1 s.2.2 d)

/-- A run from the trace `tr` with result `r` stops at the first statement that
fails: a statement of the run that the driver answered with a failure `d` is the
last event of the run, and the run returns `d` wrapped at one of the sites. -/
def FailStop (env : Env) (tr : Trace) (r : Option GoError × Trace) : Prop :=
  ∃ evs : Trace, r.2 = tr ++ evs
    ∧ ∀ pre e rest d, evs = pre ++ e :: rest → stmtFails env (tr ++ pre) e d →
        rest = [] ∧ wrapsAtSite env r.1 d

/-- The externally visible projection of an error hides it as internal: kind
internal, generic message. -/
def HiddenInternal (err : Option GoError) : Prop :=
  ErrorCode err = str "internal" ∧ MessageFromErr err = str "An error occurred"

/-! ## Package `postgres`: the lookups, statement and result apart -/

/-- The statement that `findUsers` builds for a filter, with its arguments. -/
def findUsersQuery (env : Env) (filter : UserFilter) : GoString × List SqlValue :=
  let where0 : List GoString := [str "1 = 1"]
  let args0 : List SqlValue := []
  let counterParameter0 : Int := 1
  let (where1, args1, counterParameter1) :=
    match filter.ID with
    | some v => (where0 ++ [str "users.id = $" ++ formatInt counterParameter0],
        args0 ++ [SqlValue.int v], counterParameter0 + 1)
    | none => (where0, args0, counterParameter0)
  let (where2, args2) :=
    match filter.Email with
    | some v => (where1 ++ [str "users.email = $" ++ formatInt counterParameter1],
        args1 ++ [SqlValue.text v])
    | none => (where1, args1)
  (str "\n\t\tSELECT\n\t\t\tusers.id,\n\t\t\tusers.name,\n\t\t\tusers.surname,\n\t\t\tusers.email,\n\t\t\tusers.password,\n\t\t\tusers.phone,\n\t\t\tCOUNT(*) OVER() AS total_count\n\t\tFROM users\n\t\tWHERE "
    ++ stringsJoin where2 (str " AND ")
    ++ str "\n\t\tORDER BY users.id DESC\n\t"
    ++ env.FormatLimitPage filter.Limit filter.Page, args2)

/-- What `findUsers` returns for an answer of the driver to its query. -/
def findUsersResult (env : Env) (answer : Except GoError Rows) :
    Except GoError (List User × Int) :=
  match answer with
  | .error err =>
    .error (.app (Errorf (env.frames (str "postgres/user.go") 201) EINTERNAL
      (str "Error querying user: " ++ err.Error)))
  | .ok rows =>
    match scanUsers env rows.rows [] 0 with
    | .error err => .error err
    | .ok (users, n) =>
      match rows.err with
      | some err =>
        .error (.app (Errorf (env.frames (str "postgres/user.go") 227) EINTERNAL
          (str "Error iterating user: " ++ err.Error)))
      | none => .ok (users, n)

/-- The statement that `findAdmins` builds for a filter, with its arguments. -/
def findAdminsQuery (env : Env) (filter : AdminFilter) : GoString × List SqlValue :=
  let where0 : List GoString := [str "1 = 1"]
  let args0 : List SqlValue := []
  let counterParameter0 : Int := 1
  let (where1, args1, counterParameter1) :=
    match filter.ID with
    | some v => (where0 ++ [str "admin.id = $" ++ formatInt counterParameter0],
        args0 ++ [SqlValue.int v], counterParameter0 + 1)
    | none => (where0, args0, counterParameter0)
  let (where2, args2) :=
    match filter.Email with
    | some v => (where1 ++ [str "admin.email = $" ++ formatInt counterParameter1],
        args1 ++ [SqlValue.text v])
    | none => (where1, args1)
  (str "\n\t\tSELECT\n\t\t\tadmin.id,\n\t\t\tadmin.name,\n\t\t\tadmin.surname,\n\t\t\tadmin.email,\n\t\t\tadmin.password,\n\t\t\tadmin.active,\n\t\t\tCOUNT(*) OVER() AS total_count\n\t\tFROM admin\n\t\tWHERE "
    ++ stringsJoin where2 (str " AND ")
    ++ str "\n\t\tORDER BY admin.id DESC\n\t"
    ++ env.FormatLimitPage filter.Limit filter.Page, args2)

/-- What `findAdmins` returns for an answer of the driver to its query. -/
def findAdminsResult (env : Env) (answer : Except GoError Rows) :
    Except GoError (List Admin × Int) :=
  match answer with
  | .error err =>
    .error (.app (Errorf (env.frames (str "postgres/admin.go") 186) EINTERNAL
      (str "Error querying admin: " ++ err.Error)))
  | .ok rows =>
    match scanAdmins env rows.rows [] with
    | .error err => .error err
    | .ok admins =>
      match rows.err with
      | some err =>
        .error (.app (Errorf (env.frames (str "postgres/admin.go") 211) EINTERNAL
          (str "Error iterating admins: " ++ err.Error)))
      | none => .ok (admins, 0)

/-! ## Sample storages and inputs -/

/-- A storage whose queries all fail with `d`, and that is `sampleEnv` otherwise. -/
def queryFailsEnv (d : GoError) : Env :=
  { sampleEnv with Query := fun _ _ _ _ => .error d }

/-- The handle that `BeginTx` returns on `sampleEnv`, and on the environments
made from it, when it begins the first transaction of a run. -/
def sampleTx : Tx :=
  ⟨0, { DSN := str "postgres://" }, 3000000000, .sqlCommit 0, .sqlRollback 0⟩

/-- The filter of the first page of ten users. -/
def firstPage : UserFilter := { ID := none, Email := none, Page := 1, Limit := 10 }
/-- A storage in which `BeginTx` fails with `d`, and that is `sampleEnv` otherwise. -/
def beginFailsEnv (d : GoError) : Env :=
  { sampleEnv with BeginTx := fun _ => .error d }

/-- A storage in which every rollback fails with `d`, and that is `sampleEnv`
otherwise. -/
def rollbackFailsEnv (d : GoError) : Env :=
  { sampleEnv with Rollback := fun _ _ => some d }

/-- The database handle of the sample runs. -/
def sampleDB : DB := { DSN := str "postgres://" }

/-! ## Reading the statements sent to the storage -/

/-- The text of `s` that follows the first occurrence of `kw`, if there is one. -/
def afterFirst (kw : GoString) : GoString → Option GoString
  | [] => none
  | b :: rest =>
    if hasPrefix (b :: rest) kw then some ((b :: rest).drop kw.length)
    else afterFirst kw rest

/-- The text of `s` before the first occurrence of `kw` (all of `s` if there is
none). -/
def beforeFirst (kw : GoString) : GoString → GoString
  | [] => []
  | b :: rest => if hasPrefix (b :: rest) kw then [] else b :: beforeFirst kw rest

/-- The word that follows the first occurrence of the keyword `kw` in the
statement `q`: the table named after `FROM`, `INTO` or `UPDATE`. -/
def wordAfter (kw q : GoString) : Option GoString :=
  match afterFirst kw q with
  | none => none
  | some t => some ((t.dropWhile isSpace).takeWhile fun b => !isSpace b)

/-- A text without the white space around it. -/
def trimSpace (w : GoString) : GoString :=
  ((w.dropWhile isSpace).reverse.dropWhile isSpace).reverse

/-- The items of a comma-separated list; `cur` is the item being read. -/
def splitCommas : GoString → GoString → List GoString
  | cur, [] => [trimSpace cur]
  | cur, b :: rest =>
    if b = 0x2C then trimSpace cur :: splitCommas [] rest
    else splitCommas (cur ++ [b]) rest

/-- The items of the first parenthesised list of `s`. -/
def parenItems (s : GoString) : List GoString :=
  splitCommas [] ((((s.dropWhile fun b => b ≠ 0x28).drop 1)).takeWhile fun b => b ≠ 0x29)

/-- The columns that an `INSERT INTO t (...)` statement lists. -/
def insertColumns (q : GoString) : List GoString :=
  match afterFirst (str "INTO") q with
  | none => []
  | some t => parenItems t

/-- The items of the `VALUES (...)` list of an `INSERT` statement. -/
def insertValues (q : GoString) : List GoString :=
  match afterFirst (str "VALUES") q with
  | none => []
  | some t => parenItems t

/-- The number that a text of decimal digits denotes; `acc` is the value read so far. -/
def parseDigits : Nat → GoString → Option Nat
  | acc, [] => some acc
  | acc, b :: rest =>
    if 0x30 ≤ b ∧ b ≤ 0x39 then parseDigits (acc * 10 + (b - 0x30)) rest else none

/-- The argument that the placeholder `$n` stands for: the `n`-th of `args`,
counted from 1. -/
def placeholderArg (args : List SqlValue) (w : GoString) : Option SqlValue :=
  match w with
  | 0x24 :: d :: ds =>
    match parseDigits 0 (d :: ds) with
    | some (n + 1) => args.get? n
    | _ => none
  | _ => none

/-- The value that an `INSERT` statement sent with the arguments `args` stores
in each column it lists. -/
def insertBinding (q : GoString) (args : List SqlValue) :
    List (GoString × Option SqlValue) :=
  List.zip (insertColumns q) ((insertValues q).map (placeholderArg args))

/-- The items of the select list of a `SELECT` statement. -/
def selectItems (q : GoString) : List GoString :=
  match afterFirst (str "SELECT") q with
  | none => []
  | some t => splitCommas [] (beforeFirst (str "FROM") t)

/-- The text of the statement of `deleteUser`. -/
def deleteUserStatement : GoString := str "\n\t\tDELETE FROM user\n\t\tWHERE id = $1\n\t"

/-- The text of the statement of `createAdmin`. -/
def createAdminStatement : GoString :=
  str "\n\t\tINSERT INTO admin (name, surname, email, password, active)\n\t\tVALUES ($1, $2, $3, $4, $5)\n\t\tRETURNING id\n\t"

/-! ## A sample storage with a table of users -/

/-- Whether a stored row matches the arguments of a lookup: an integer argument
is the id looked for (column 0), a text argument the email (column 3). -/
def rowMatches (args : List SqlValue) (row : List SqlValue) : Bool :=
  args.all fun a =>
    match a with
    | .int _ => row.head? == some a
    | .text _ => row.get? 3 == some a
    | _ => false

/-- The ids that the statements `DELETE FROM table ... id = $1` of a trace have
removed from `table`. -/
def deletedIDs (table : GoString) : Trace → List SqlValue
  | [] => []
  | .driver (.Exec _ q [a]) :: rest =>
    if wordAfter (str "DELETE") q = some (str "FROM") ∧ wordAfter (str "FROM") q = some table
    then a :: deletedIDs table rest
    else deletedIDs table rest
  | _ :: rest => deletedIDs table rest

/-- A storage whose table `users` holds the rows `table` (six columns each)
until a `DELETE FROM users` removes them, and whose other tables are empty. It
answers the statement of `findUsers` with the stored rows that match the
arguments, in the stored order and without pagination, each with the number of
matches as its seventh column; it is `sampleEnv` otherwise, so it accepts every
statement that writes. -/
def usersEnv (table : List (List SqlValue)) : Env :=
  { sampleEnv with
    Query := fun p _ q args =>
      if hasPrefix q usersSelect then
        let found := (table.filter fun r =>
          !(deletedIDs (str "users") p).contains (r.headD .null)).filter (rowMatches args)
        .ok { rows := found.map fun r => r ++ [.int found.length], err := none }
      else .ok { rows := [], err := none } }

/-- A storage that answers every query with the rows `rows`; it is `sampleEnv`
otherwise. -/
def rowsEnv (rows : List (List SqlValue)) : Env :=
  { sampleEnv with Query := fun _ _ _ _ => .ok { rows := rows, err := none } }

/-- The stored row of the user 7. -/
def adaRow : List SqlValue :=
  [.int 7, .text (str "Ada"), .text (str "Lovelace"), .text (str "ada@x.com"),
    .text (str "$2a$10$hash"), .int 5551234]

/-- The row of the admin 3 with the six columns that the scan of `findAdmins`
has destinations for. -/
def graceRow : List SqlValue :=
  [.int 3, .text (str "Grace"), .text (str "Hopper"), .text (str "grace@x.com"),
    .text (str "$2a$10$hash"), .bool true]

/-- The row of the admin 3 with the seven columns that the statement of
`findAdmins` selects: the six of the admin and the windowed count. -/
def graceCountRow : List SqlValue := graceRow ++ [.int 1]

/-- The filter without conditions and without pagination. -/
def allAdmins : AdminFilter := { ID := none, Email := none, Page := 0, Limit := 0 }

/-- The update that sets the surname to "Byron" and nothing else. -/
def surnameByron : UserUpdate :=
  { UserUpdate.zero with Surname := NewPatch (str "Byron") }

/-- The update that sets the email to "ada@x.com" and nothing else. -/
def emailOfAda : UserUpdate :=
  { UserUpdate.zero with Email := NewPatch (str "ada@x.com") }

/-- The stored row of the user 8. -/
def bobRow : List SqlValue :=
  [.int 8, .text (str "Bob"), .text (str "Babbage"), .text (str "bob@x.com"),
    .text (str "$2a$10$hash"), .int 5555678]

/-- The filter of `findUserByID`: `app.UserFilter{ID: &id}`. -/
def userByID (id : Int) : UserFilter := { ID := some id, Email := none, Page := 0, Limit := 0 }

/-- What `findUserByID` returns for a result of `findUsers`. -/
def findUserByIDResult (env : Env) (r : Except GoError (List User × Int)) :
    Except GoError User :=
  match r with
  | .error err => .error err
  | .ok ([], _) =>
    .error (.app (Errorf (env.frames (str "postgres/user.go") 164) ENOTFOUND
      (str "User not found")))
  | .ok (a0 :: _, _) => .ok a0

/-- The admin that `createAdmin` is asked to create in the sample runs. -/
def graceCreate : AdminCreate :=
  { Name := str "Grace", Surname := str "Hopper", Email := str "grace@x.com",
    Password := str "secret" }

/-! ## Sample errors -/

/-- An error of another subsystem: not an `*app.Error`, and wrapping nothing. -/
def diskError : GoError := .plain (str "disk failure")

/-- The `*app.Error` with the code `code` and the message `message`, raised at an
origin that does not matter here. -/
def appError (code message : GoString) : GoError :=
  .app { Code := code, Message := message, OriginFile := str "main.go:1", OriginFn := str "main" }

/-- The frames that `stack.Caller` reports in the sample runs. -/
def sampleCaller : Int → Caller := fun skip => { file := formatInt skip, fn := str "handler" }

/-- The text of the statement of `createUser`. -/
def createUserStatement : GoString :=
  str "\n\t\tINSERT INTO users (name, surname, email, password, phone)\n\t\tVALUES ($1, $2, $3, $4, $5)\n\t\tRETURNING id\n\t"

/-- A user to create whose plaintext password is the empty string. -/
def annNoPassword : UserCreate :=
  { Name := str "Ann", Surname := str "Lee", Email := str "ann@x.com", Password := str "",
    Phone := 5550000 }

/-- A user to create whose phone is 0. -/
def annNoPhone : UserCreate :=
  { Name := str "Ann", Surname := str "Lee", Email := str "ann@x.com", Password := str "pw",
    Phone := 0 }

/-! ## Theorems: error classification -/

theorem Errorf_Message (caller : Caller) (c m : GoString) :
    (Errorf caller c m).Message = m := rfl

theorem Errorf_Code (caller : Caller) (c m : GoString) :
    (Errorf caller c m).Code
      = if stringsContains m contextCanceledText = true then ECANCELED else c := by
  unfold Errorf
  by_cases hc : c = ECANCELED <;> by_cases hm : stringsContains m contextCanceledText = true <;>
    simp [hc, hm]

/-- C1: for every code `c` and formatted message `m`, `Errorf` returns an `Error`
whose `Message` is `m` and whose `Code` is `canceled` when `m` contains
"context canceled" and `c` otherwise; classifying again with the resulting code
and the same message leaves the code unchanged. -/
theorem C1_Errorf_classify (caller caller2 : Caller) (c m : GoString) :
    (Errorf caller c m).Message = m
    ∧ (Errorf caller c m).Code
        = (if stringsContains m (str "context canceled") = true then str "canceled" else c)
    ∧ (Errorf caller2 (Errorf caller c m).Code m).Code = (Errorf caller c m).Code := by
  refine ⟨rfl, Errorf_Code caller c m, ?_⟩
  rw [Errorf_Code caller2, Errorf_Code caller]
  by_cases hm : stringsContains m contextCanceledText = true <;> simp [hm]

theorem mapIndex_codes_none (c : GoString)
    (h : c ∉ [ECONFLICT, EFORBIDDEN, EINVALID, ENOTFOUND, ENOTIMPLEMENTED, EUNAUTHORIZED,
      ENOTAUTHENTICATED, ESHOULDLOGOUT, EINTERNAL, EUNAVAILABLE]) :
    mapIndex codes c = none := by
  simp only [List.mem_cons, List.mem_singleton, not_or, List.not_mem_nil, not_false_eq_true,
    and_true] at h
  obtain ⟨h1, h2, h3, h4, h5, h6, h7, h8, h9, h10⟩ := h
  simp [codes, mapIndex, h1, h2, h3, h4, h5, h6, h7, h8, h9, h10]

/-- C2: `StatusCodeFromErr` is 409 for conflict, 403 for forbidden, 400 for
invalid, 404 for not_found, 501 for not_implemented, 401 for unauthorized,
not_authenticated and should_logout, 500 for internal, 503 for unavailable, and
500 for every other code, unknown included. -/
theorem C2_StatusCodeFromErr_table (err : Option GoError) :
    (ErrorCode err = str "conflict" → StatusCodeFromErr err = 409)
    ∧ (ErrorCode err = str "forbidden" → StatusCodeFromErr err = 403)
    ∧ (ErrorCode err = str "invalid" → StatusCodeFromErr err = 400)
    ∧ (ErrorCode err = str "not_found" → StatusCodeFromErr err = 404)
    ∧ (ErrorCode err = str "not_implemented" → StatusCodeFromErr err = 501)
    ∧ (ErrorCode err = str "unauthorized" → StatusCodeFromErr err = 401)
    ∧ (ErrorCode err = str "not_authenticated" → StatusCodeFromErr err = 401)
    ∧ (ErrorCode err = str "should_logout" → StatusCodeFromErr err = 401)
    ∧ (ErrorCode err = str "internal" → StatusCodeFromErr err = 500)
    ∧ (ErrorCode err = str "unavailable" → StatusCodeFromErr err = 503)
    ∧ (ErrorCode err = str "unknown" → StatusCodeFromErr err = 500)
    ∧ (ErrorCode err ∉ [str "conflict", str "forbidden", str "invalid", str "not_found",
          str "not_implemented", str "unauthorized", str "not_authenticated",
          str "should_logout", str "internal", str "unavailable"] →
        StatusCodeFromErr err = 500) := by
  unfold StatusCodeFromErr
  generalize ErrorCode err = c
  refine ⟨?_, ?_, ?_, ?_, ?_, ?_, ?_, ?_, ?_, ?_, ?_, ?_⟩
  case refine_12 =>
    intro h
    have := mapIndex_codes_none c h
    simp [this]
  all_goals (intro h; subst h; decide)

/-- C3: `LogErr` issues exactly one log call: at Error severity exactly when the
code is internal, internal_invalid, unknown, conflict or not_injected, at Warn
severity exactly when it is not_implemented, canceled or forbidden, and at Info
severity for every other code. -/
theorem C3_LogErr_severity (stackCaller : Int → Caller) (logger : List LogRecord)
    (err : Option GoError) (addSkip : List Int) :
    ∃ r : LogRecord, LogErr stackCaller logger err addSkip = logger ++ [r]
      ∧ r.msg = ErrorMessage err
      ∧ (r.lvl = Lvl.Error ↔ ErrorCode err ∈ [str "internal", str "internal_invalid",
            str "unknown", str "conflict", str "not_injected"])
      ∧ (r.lvl = Lvl.Warn ↔ ErrorCode err ∈ [str "not_implemented", str "canceled",
            str "forbidden"])
      ∧ (r.lvl = Lvl.Info ↔ ErrorCode err ∉ [str "internal", str "internal_invalid",
            str "unknown", str "conflict", str "not_injected", str "not_implemented",
            str "canceled", str "forbidden"]) := by
  unfold LogErr
  generalize ErrorCode err = c
  by_cases hE : c = EINTERNAL ∨ c = EINTERNAL_INVALID ∨ c = EUNKNOWN ∨ c = ECONFLICT
      ∨ c = ENOTINJECTED
  · refine ⟨_, if_pos hE, rfl, ?_, ?_, ?_⟩
    · simpa [EINTERNAL, EINTERNAL_INVALID, EUNKNOWN, ECONFLICT, ENOTINJECTED] using hE
    · show (Lvl.Error = Lvl.Warn ↔ _)
      rcases hE with h | h | h | h | h <;> subst h <;> decide
    · show (Lvl.Error = Lvl.Info ↔ _)
      rcases hE with h | h | h | h | h <;> subst h <;> decide
  · by_cases hW : c = ENOTIMPLEMENTED ∨ c = ECANCELED ∨ c = EFORBIDDEN
    · refine ⟨_, (if_neg hE).trans (if_pos hW), rfl, ?_, ?_, ?_⟩
      · show (Lvl.Warn = Lvl.Error ↔ _)
        rcases hW with h | h | h <;> subst h <;> decide
      · simpa [ENOTIMPLEMENTED, ECANCELED, EFORBIDDEN] using hW
      · show (Lvl.Warn = Lvl.Info ↔ _)
        rcases hW with h | h | h <;> subst h <;> decide
    · refine ⟨_, (if_neg hE).trans (if_neg hW), rfl, ?_, ?_, ?_⟩
      · simpa [EINTERNAL, EINTERNAL_INVALID, EUNKNOWN, ECONFLICT, ENOTINJECTED] using hE
      · simpa [ENOTIMPLEMENTED, ECANCELED, EFORBIDDEN] using hW
      · simp only [List.mem_cons, List.mem_singleton, List.not_mem_nil, or_false, true_iff]
        intro h
        rcases h with h | h | h | h | h | h | h | h
        · exact hE (Or.inl h)
        · exact hE (Or.inr (Or.inl h))
        · exact hE (Or.inr (Or.inr (Or.inl h)))
        · exact hE (Or.inr (Or.inr (Or.inr (Or.inl h))))
        · exact hE (Or.inr (Or.inr (Or.inr (Or.inr h))))
        · exact hW (Or.inl h)
        · exact hW (Or.inr (Or.inl h))
        · exact hW (Or.inr (Or.inr h))

/-- C4: `MessageFromErr` is the fixed phrase "An error occurred" when the code is
internal or unknown or the message is empty, and the message of the error
unchanged otherwise. -/
theorem C4_MessageFromErr (err : Option GoError) :
    MessageFromErr err
      = if ErrorCode err = str "internal" ∨ ErrorCode err = str "unknown"
            ∨ ErrorMessage err = [] then
          str "An error occurred"
        else ErrorMessage err := by
  have hiff : (ErrorMessage err = str "" ∨ ErrorCode err = EINTERNAL ∨ ErrorCode err = EUNKNOWN)
      ↔ (ErrorCode err = str "internal" ∨ ErrorCode err = str "unknown"
          ∨ ErrorMessage err = []) := by
    show (ErrorMessage err = [] ∨ ErrorCode err = EINTERNAL ∨ ErrorCode err = EUNKNOWN)
      ↔ (ErrorCode err = EINTERNAL ∨ ErrorCode err = EUNKNOWN ∨ ErrorMessage err = [])
    tauto
  exact if_congr hiff rfl rfl

/-! ## Theorems: the optional-patch field -/

/-- C6: for every `Patch` with `Set = false`, whatever its `Value`, `MarshalJSON`
returns exactly the bytes `null` and no error; `UnmarshalJSON` of those bytes
into a zero-valued `Patch` returns no error and yields `Set = true` with the zero
value of `T`, which is not an unset patch. -/
theorem C6_unset_encodes_null_decodes_set {T : Type} (codec : JsonCodec T) (v : Patch T)
    (h : v.Set = false) :
    Patch.MarshalJSON codec v = .ok (str "null")
    ∧ Patch.UnmarshalJSON codec (Patch.zero codec) (str "null")
        = ({ Value := codec.zero, Set := true }, none)
    ∧ (Patch.UnmarshalJSON codec (Patch.zero codec) (str "null")).1.Set ≠ v.Set := by
  refine ⟨?_, ?_, ?_⟩
  · simp [Patch.MarshalJSON, h, NullBytes]
  · simp [Patch.UnmarshalJSON, Patch.zero, NullBytes]
  · simp [Patch.UnmarshalJSON, Patch.zero, NullBytes, h]

theorem C6_unset_encodes_null_decodes_set_witness :
    Patch.MarshalJSON (stringCodec GoError.plain) { Value := str "kept", Set := false }
        = .ok (str "null")
    ∧ Patch.UnmarshalJSON (stringCodec GoError.plain) (Patch.zero (stringCodec GoError.plain))
        (str "null") = ({ Value := [], Set := true }, none)
    ∧ (Patch.UnmarshalJSON (stringCodec GoError.plain)
        (Patch.zero (stringCodec GoError.plain)) (str "null")).1.Set ≠ false :=
  C6_unset_encodes_null_decodes_set (stringCodec GoError.plain)
    { Value := str "kept", Set := false } rfl

theorem isScalar_toNat (c : Char) : isScalar c.toNat := c.valid

theorem encodeRune_ascii (r : Nat) (h : r < 0x80) : encodeRune r = [r] := by
  unfold encodeRune
  rw [if_pos (by omega)]


theorem decodeRune_two (p0 b1 : Nat) (more : GoString) (h0 : 0xC2 ≤ p0 ∧ p0 < 0xE0)
    (h1 : 0x80 ≤ b1 ∧ b1 ≤ 0xBF) :
    decodeRune (p0 :: b1 :: more) = (p0 % 32 * 64 + b1 % 64, 2) := by
  have a1 : ¬ p0 < 128 := by omega
  have a2 : ¬ (p0 < 194 ∨ 244 < p0) := by omega
  have a3 : p0 < 224 := by omega
  have a4 : ¬ p0 = 224 := by omega
  have a5 : ¬ p0 = 240 := by omega
  have a6 : ¬ p0 = 237 := by omega
  have a7 : ¬ p0 = 244 := by omega
  have a8 : ¬ (b1 < 128 ∨ 191 < b1) := by omega
  simp [decodeRune, a1, a2, a3, a4, a5, a6, a7, a8]

theorem decodeRune_three (p0 b1 b2 : Nat) (more : GoString) (h0 : 0xE0 ≤ p0 ∧ p0 < 0xF0)
    (h1 : 0x80 ≤ b1 ∧ b1 ≤ 0xBF) (hE0 : p0 = 0xE0 → 0xA0 ≤ b1) (hED : p0 = 0xED → b1 ≤ 0x9F)
    (h2 : 0x80 ≤ b2 ∧ b2 ≤ 0xBF) :
    decodeRune (p0 :: b1 :: b2 :: more) = (p0 % 16 * 4096 + b1 % 64 * 64 + b2 % 64, 3) := by
  have a1 : ¬ p0 < 128 := by omega
  have a2 : ¬ (p0 < 194 ∨ 244 < p0) := by omega
  have a3 : ¬ p0 < 224 := by omega
  have a3' : p0 < 240 := by omega
  have a5 : ¬ p0 = 240 := by omega
  have a7 : ¬ p0 = 244 := by omega
  have a9 : ¬ (b2 < 128 ∨ 191 < b2) := by omega
  by_cases c1 : p0 = 224 <;> by_cases c2 : p0 = 237
  · omega
  · have a8 : ¬ (b1 < 160 ∨ 191 < b1) := by omega
    simp [decodeRune, c1, a8, a9]
  · have a8 : ¬ (b1 < 128 ∨ 159 < b1) := by omega
    simp [decodeRune, c2, a8, a9]
  · have a8 : ¬ (b1 < 128 ∨ 191 < b1) := by omega
    simp [decodeRune, a1, a2, a3, a3', a5, a7, c1, c2, a8, a9]

theorem decodeRune_four (p0 b1 b2 b3 : Nat) (more : GoString) (h0 : 0xF0 ≤ p0 ∧ p0 ≤ 0xF4)
    (h1 : 0x80 ≤ b1 ∧ b1 ≤ 0xBF) (hF0 : p0 = 0xF0 → 0x90 ≤ b1) (hF4 : p0 = 0xF4 → b1 ≤ 0x8F)
    (h2 : 0x80 ≤ b2 ∧ b2 ≤ 0xBF) (h3 : 0x80 ≤ b3 ∧ b3 ≤ 0xBF) :
    decodeRune (p0 :: b1 :: b2 :: b3 :: more)
      = (p0 % 8 * 262144 + b1 % 64 * 4096 + b2 % 64 * 64 + b3 % 64, 4) := by
  have a1 : ¬ p0 < 128 := by omega
  have a2 : ¬ (p0 < 194 ∨ 244 < p0) := by omega
  have a3 : ¬ p0 < 224 := by omega
  have a3' : ¬ p0 < 240 := by omega
  have a4 : ¬ p0 = 224 := by omega
  have a6 : ¬ p0 = 237 := by omega
  have a9 : ¬ (b2 < 128 ∨ 191 < b2) := by omega
  have a10 : ¬ (b3 < 128 ∨ 191 < b3) := by omega
  by_cases c1 : p0 = 240 <;> by_cases c2 : p0 = 244
  · omega
  · have a8 : ¬ (b1 < 144 ∨ 191 < b1) := by omega
    simp [decodeRune, c1, a8, a9, a10]
  · have a8 : ¬ (b1 < 128 ∨ 143 < b1) := by omega
    simp [decodeRune, c2, a8, a9, a10]
  · have a8 : ¬ (b1 < 128 ∨ 191 < b1) := by omega
    simp [decodeRune, a1, a2, a3, a3', a4, a6, c1, c2, a8, a9, a10]

theorem decodeRune_encodeRune (r : Nat) (hr : 0x80 ≤ r) (hs : isScalar r) (more : GoString) :
    decodeRune (encodeRune r ++ more) = (r, (encodeRune r).length) := by
  unfold isScalar at hs
  unfold encodeRune
  split_ifs with h1 h2 h3 h4
  · omega
  · rw [List.cons_append, List.cons_append, List.nil_append, decodeRune_two _ _ _ (by omega) (by omega)]
    simp only [List.length_cons, List.length_nil, Prod.mk.injEq, Nat.reduceAdd, and_true]
    omega
  · omega
  · rw [List.cons_append, List.cons_append, List.cons_append, List.nil_append,
      decodeRune_three _ _ _ _ (by omega) (by omega) (by omega) (by omega) (by omega)]
    simp only [List.length_cons, List.length_nil, Prod.mk.injEq, Nat.reduceAdd, and_true]
    omega
  · rw [List.cons_append, List.cons_append, List.cons_append, List.cons_append, List.nil_append,
      decodeRune_four _ _ _ _ _ (by omega) (by omega) (by omega) (by omega) (by omega) (by omega)]
    simp only [List.length_cons, List.length_nil, Prod.mk.injEq, Nat.reduceAdd, and_true]
    omega

theorem encodeRune_cons (r : Nat) (hr : 0x80 ≤ r) :
    ∃ b tl, encodeRune r = b :: tl ∧ 0xC2 ≤ b ∧ 1 ≤ tl.length := by
  unfold encodeRune
  split_ifs with h1 h2 h3 h4
  · omega
  · exact ⟨_, _, rfl, by omega, by simp⟩
  · exact ⟨_, _, rfl, by omega, by simp⟩
  · exact ⟨_, _, rfl, by omega, by simp⟩
  · exact ⟨_, _, rfl, by omega, by simp⟩

theorem appendStringLoop_nil (fuel : Nat) : appendStringLoop fuel [] = [] := by
  cases fuel <;> rfl

theorem appendStringLoop_rune (r : Nat) (hs : isScalar r) (fuel : Nat) (more : GoString) :
    appendStringLoop (fuel + 1) (encodeRune r ++ more)
      = encodedRune r ++ appendStringLoop fuel more := by
  by_cases hr : r < 0x80
  · rw [encodeRune_ascii r hr]
    simp [appendStringLoop, encodedRune, hr]
  · obtain ⟨b, tl, he, hb, htl⟩ := encodeRune_cons r (by omega)
    have hd := decodeRune_encodeRune r (by omega) hs more
    have hlen : (encodeRune r).length = tl.length + 1 := by rw [he]; rfl
    have hb' : ¬ b < 128 := by omega
    rw [hlen] at hd
    rw [he] at hd
    rw [List.cons_append] at hd
    have htake : List.take (tl.length + 1) (b :: (tl ++ more)) = b :: tl := by
      simp
    have hdrop : List.drop (tl.length + 1) (b :: (tl ++ more)) = more := by
      simp
    have hne : ¬ (r = RuneError ∧ tl.length + 1 = 1) := by omega
    unfold encodedRune
    rw [if_neg hr, he, List.cons_append, appendStringLoop, if_neg hb', hd]
    simp only [hne, if_false, htake, hdrop]
    split_ifs <;> rfl

theorem unquoteLoop_ascii (r : Nat) (hr : r < 0x80) (fuel : Nat) (more : GoString) :
    unquoteLoop (fuel + 1) (encodedRune r ++ more)
      = (unquoteLoop fuel more).map (fun p => (encodeRune r ++ p.1, p.2)) := by
  interval_cases r <;> rfl

theorem unquoteLoop_rune (r : Nat) (hs : isScalar r) (fuel : Nat) (more : GoString) :
    unquoteLoop (fuel + 1) (encodedRune r ++ more)
      = (unquoteLoop fuel more).map (fun p => (encodeRune r ++ p.1, p.2)) := by
  by_cases hr : r < 0x80
  · exact unquoteLoop_ascii r hr fuel more
  · by_cases hl : r = 0x2028 ∨ r = 0x2029
    · rcases hl with h | h <;> subst h <;> rfl
    · obtain ⟨b, tl, he, hb, htl⟩ := encodeRune_cons r (by omega)
      have hd := decodeRune_encodeRune r (by omega) hs more
      have hlen : (encodeRune r).length = tl.length + 1 := by rw [he]; rfl
      rw [hlen] at hd
      rw [he] at hd
      rw [List.cons_append] at hd
      have hdrop : List.drop (tl.length + 1) (b :: (tl ++ more)) = more := by
        simp
      have h1 : ¬ b = 0x22 := by omega
      have h2 : ¬ b = 0x5C := by omega
      have h3 : ¬ b < 0x20 := by omega
      have h4 : ¬ b < 0x80 := by omega
      unfold encodedRune
      rw [if_neg hr, if_neg hl]
      conv_lhs => rw [he, List.cons_append]
      simp only [unquoteLoop, h1, h2, h3, h4, if_false, hd, hdrop]

theorem encodeRune_length_pos (r : Nat) : 1 ≤ (encodeRune r).length := by
  unfold encodeRune
  split_ifs <;> simp

theorem encodedRune_length_pos (r : Nat) : 1 ≤ (encodedRune r).length := by
  unfold encodedRune escapeByte
  split_ifs <;> first | simp | exact encodeRune_length_pos r

theorem utf8Bytes_length (rs : List Nat) : rs.length ≤ (utf8Bytes rs).length := by
  induction rs with
  | nil => simp [utf8Bytes]
  | cons r rs ih =>
    have := encodeRune_length_pos r
    simp only [utf8Bytes, List.map_cons, List.flatten_cons, List.length_append,
      List.length_cons] at ih ⊢
    omega

theorem encoded_length (rs : List Nat) : rs.length ≤ ((rs.map encodedRune).flatten).length := by
  induction rs with
  | nil => simp
  | cons r rs ih =>
    have := encodedRune_length_pos r
    simp only [List.map_cons, List.flatten_cons, List.length_append, List.length_cons] at ih ⊢
    omega

theorem appendStringLoop_runes (rs : List Nat) (hs : ∀ r ∈ rs, isScalar r) :
    ∀ fuel, rs.length ≤ fuel →
      appendStringLoop fuel (utf8Bytes rs) = (rs.map encodedRune).flatten := by
  induction rs with
  | nil => intro fuel _; exact appendStringLoop_nil fuel
  | cons r rs ih =>
    intro fuel hf
    obtain ⟨f, rfl⟩ : ∃ f, fuel = f + 1 := ⟨fuel - 1, by simp at hf; omega⟩
    have hr := hs r (List.mem_cons_self _ _)
    have ih' := ih (fun x hx => hs x (List.mem_cons_of_mem _ hx)) f (by simp at hf; omega)
    show appendStringLoop (f + 1) (encodeRune r ++ utf8Bytes rs) = _
    rw [appendStringLoop_rune r hr, ih']
    rfl

theorem unquoteLoop_runes (rs : List Nat) (hs : ∀ r ∈ rs, isScalar r) (tail : GoString) :
    ∀ fuel, rs.length < fuel →
      unquoteLoop fuel ((rs.map encodedRune).flatten ++ 0x22 :: tail)
        = some (utf8Bytes rs, tail) := by
  induction rs with
  | nil =>
    intro fuel hf
    obtain ⟨f, rfl⟩ : ∃ f, fuel = f + 1 := ⟨fuel - 1, by simp at hf; omega⟩
    rfl
  | cons r rs ih =>
    intro fuel hf
    obtain ⟨f, rfl⟩ : ∃ f, fuel = f + 1 := ⟨fuel - 1, by simp at hf; omega⟩
    have hr := hs r (List.mem_cons_self _ _)
    have ih' := ih (fun x hx => hs x (List.mem_cons_of_mem _ hx)) f (by simp at hf; omega)
    show unquoteLoop (f + 1) ((encodedRune r ++ (rs.map encodedRune).flatten) ++ 0x22 :: tail) = _
    rw [List.append_assoc, unquoteLoop_rune r hr, ih']
    rfl

theorem jsonUnmarshalString_appendString (reject : GoString → GoError) (rs : List Nat)
    (hs : ∀ r ∈ rs, isScalar r) :
    jsonUnmarshalString reject (appendString (utf8Bytes rs)) = .ok (utf8Bytes rs) := by
  have hA := appendStringLoop_runes rs hs (utf8Bytes rs).length (utf8Bytes_length rs)
  have hB := unquoteLoop_runes rs hs []
    (((rs.map encodedRune).flatten ++ [0x22]).length + 1)
    (by have := encoded_length rs; simp only [List.length_append]; omega)
  unfold jsonUnmarshalString appendString
  rw [hA]
  simp only [List.singleton_append, List.cons_append]
  rw [List.dropWhile_cons_of_neg (by decide)]
  simp only [List.nil_append, hB, List.dropWhile_nil, if_true]

theorem str_eq_utf8Bytes (s : String) : str s = utf8Bytes (s.data.map Char.toNat) := by
  simp [str, utf8Bytes, List.map_map, Function.comp_def]

theorem appendString_ne_null (v : GoString) : appendString v ≠ NullBytes := by
  intro h
  have : (appendString v).head? = NullBytes.head? := by rw [h]
  simp [appendString, NullBytes] at this
  revert this
  decide

/-- C7 (amended): for every string `v`, `NewPatch v` is the present state carrying
`v` and `MarshalJSON` of it is the JSON encoding of `v`; for every `v` that is
valid UTF-8 (the encoding `str s` of a sequence of Unicode scalar values),
decoding that encoding with `UnmarshalJSON` into a zero-valued `Patch[string]`
succeeds and yields `Set = true` and `Value = v`. -/
theorem C7_set_roundtrip_valid_utf8 (reject : GoString → GoError) (v : GoString)
    (s : String) :
    NewPatch v = { Value := v, Set := true }
    ∧ Patch.MarshalJSON (stringCodec reject) (NewPatch v) = .ok (appendString v)
    ∧ Patch.UnmarshalJSON (stringCodec reject) (Patch.zero (stringCodec reject))
        (appendString (str s)) = ({ Value := str s, Set := true }, none) := by
  refine ⟨rfl, rfl, ?_⟩
  have hdec : jsonUnmarshalString reject (appendString (str s)) = .ok (str s) := by
    rw [str_eq_utf8Bytes]
    apply jsonUnmarshalString_appendString
    intro r hr
    obtain ⟨c, _, rfl⟩ := List.mem_map.mp hr
    exact isScalar_toNat c
  simp [Patch.UnmarshalJSON, appendString_ne_null, stringCodec, hdec, Patch.zero]

/-- C7, as stated, fails for a string that is not valid UTF-8: the one-byte
string `"\xff"` is encoded as `"\ufffd"`, which decodes to the three bytes of
U+FFFD, not to the original byte. -/
theorem C7_invalid_utf8_not_restored :
    Patch.MarshalJSON (stringCodec GoError.plain) (NewPatch [0xFF]) = .ok (str "\"\\ufffd\"")
    ∧ Patch.UnmarshalJSON (stringCodec GoError.plain) (Patch.zero (stringCodec GoError.plain))
        (str "\"\\ufffd\"") = ({ Value := [0xEF, 0xBF, 0xBD], Set := true }, none)
    ∧ ([0xEF, 0xBF, 0xBD] : GoString) ≠ [0xFF] := by
  decide

theorem UnmarshalJSON_Set {T : Type} (codec : JsonCodec T) (v : Patch T) (data : GoString) :
    (Patch.UnmarshalJSON codec v data).1.Set = true := by
  unfold Patch.UnmarshalJSON
  by_cases h : data = NullBytes
  · simp [h]
  · cases hu : codec.Unmarshal data <;> simp [h, hu]

section DecodeObject

variable {S : Type} (get : S → UpdateField → Patch GoString)
  (set : S → UpdateField → Patch GoString → S) (codec : JsonCodec GoString)
  (equalFold : GoString → GoString → Bool) (goesOn : Bool)

theorem decodeObject_cons_skip (m : Member) (rest : List Member) (s : S)
    (hk : fieldForKey equalFold m.key = none) :
    decodeObject get set codec equalFold goesOn (m :: rest) s
      = decodeObject get set codec equalFold goesOn rest s := by
  rw [decodeObject, hk]

theorem decodeObject_cons_err (m : Member) (rest : List Member) (s : S) (g : UpdateField)
    (p : Patch GoString) (err : GoError) (hk : fieldForKey equalFold m.key = some g)
    (hu : Patch.UnmarshalJSON codec (get s g) m.value = (p, some err)) :
    decodeObject get set codec equalFold goesOn (m :: rest) s
      = if goesOn then
          ((decodeObject get set codec equalFold goesOn rest (set s g p)).1, some err)
        else (set s g p, some err) := by
  rw [decodeObject, hk]
  simp only [hu]

theorem decodeObject_cons_ok (m : Member) (rest : List Member) (s : S) (g : UpdateField)
    (p : Patch GoString) (hk : fieldForKey equalFold m.key = some g)
    (hu : Patch.UnmarshalJSON codec (get s g) m.value = (p, none)) :
    decodeObject get set codec equalFold goesOn (m :: rest) s
      = decodeObject get set codec equalFold goesOn rest (set s g p) := by
  rw [decodeObject, hk]
  simp only [hu]

theorem decodeObject_keeps_Set (hgs : ∀ s f p, get (set s f p) f = p)
    (hgo : ∀ s f g p, f ≠ g → get (set s g p) f = get s f)
    (f : UpdateField) (ms : List Member) :
    ∀ s, (get s f).Set = true →
      (get (decodeObject get set codec equalFold goesOn ms s).1 f).Set = true := by
  induction ms with
  | nil => intro s h; exact h
  | cons m rest ih =>
    intro s h
    cases hk : fieldForKey equalFold m.key with
    | none => rw [decodeObject_cons_skip _ _ _ _ _ _ _ _ hk]; exact ih s h
    | some g =>
      have hstep : (get (set s g (Patch.UnmarshalJSON codec (get s g) m.value).1) f).Set = true := by
        by_cases hfg : f = g
        · subst hfg; rw [hgs]; exact UnmarshalJSON_Set _ _ _
        · rw [hgo _ _ _ _ hfg]; exact h
      rcases hu : Patch.UnmarshalJSON codec (get s g) m.value with ⟨p, _ | err⟩
      · rw [hu] at hstep
        rw [decodeObject_cons_ok _ _ _ _ _ _ _ _ _ _ hk hu]; exact ih _ hstep
      · rw [hu] at hstep
        rw [decodeObject_cons_err _ _ _ _ _ _ _ _ _ _ _ hk hu]
        cases goesOn with
        | true => exact ih _ hstep
        | false => exact hstep

theorem decodeObject_absent (hgo : ∀ s f g p, f ≠ g → get (set s g p) f = get s f)
    (f : UpdateField) (ms : List Member)
    (habs : ∀ m ∈ ms, fieldForKey equalFold m.key ≠ some f) :
    ∀ s, get (decodeObject get set codec equalFold goesOn ms s).1 f = get s f := by
  induction ms with
  | nil => intro s; rfl
  | cons m rest ih =>
    intro s
    have ih' := ih (fun x hx => habs x (List.mem_cons_of_mem _ hx))
    have hm := habs m (List.mem_cons_self _ _)
    cases hk : fieldForKey equalFold m.key with
    | none => rw [decodeObject_cons_skip _ _ _ _ _ _ _ _ hk]; exact ih' s
    | some g =>
      have hfg : f ≠ g := by intro h; subst h; exact hm hk
      rcases hu : Patch.UnmarshalJSON codec (get s g) m.value with ⟨p, _ | err⟩
      · rw [decodeObject_cons_ok _ _ _ _ _ _ _ _ _ _ hk hu, ih', hgo _ _ _ _ hfg]
      · rw [decodeObject_cons_err _ _ _ _ _ _ _ _ _ _ _ hk hu]
        cases goesOn with
        | true =>
          show get (decodeObject get set codec equalFold true rest (set s g p)).1 f = get s f
          rw [ih', hgo _ _ _ _ hfg]
        | false => exact hgo _ _ _ _ hfg

theorem decodeObject_present_ok (hgs : ∀ s f p, get (set s f p) f = p)
    (hgo : ∀ s f g p, f ≠ g → get (set s g p) f = get s f)
    (f : UpdateField) (ms : List Member)
    (hpres : ∃ m ∈ ms, fieldForKey equalFold m.key = some f) :
    ∀ s, (decodeObject get set codec equalFold goesOn ms s).2 = none →
      (get (decodeObject get set codec equalFold goesOn ms s).1 f).Set = true := by
  induction ms with
  | nil => obtain ⟨m, hm, _⟩ := hpres; cases hm
  | cons m rest ih =>
    intro s
    cases hk : fieldForKey equalFold m.key with
    | none =>
      rw [decodeObject_cons_skip _ _ _ _ _ _ _ _ hk]
      intro hok
      obtain ⟨x, hx, hxf⟩ := hpres
      rcases List.mem_cons.mp hx with rfl | hx'
      · rw [hk] at hxf; cases hxf
      · exact ih ⟨x, hx', hxf⟩ s hok
    | some g =>
      rcases hu : Patch.UnmarshalJSON codec (get s g) m.value with ⟨p, _ | err⟩
      · rw [decodeObject_cons_ok _ _ _ _ _ _ _ _ _ _ hk hu]
        intro hok
        by_cases hfg : f = g
        · subst hfg
          apply decodeObject_keeps_Set get set codec equalFold goesOn hgs hgo
          rw [hgs]
          have := UnmarshalJSON_Set codec (get s f) m.value
          rw [hu] at this; exact this
        · obtain ⟨x, hx, hxf⟩ := hpres
          rcases List.mem_cons.mp hx with rfl | hx'
          · rw [hk] at hxf; exact absurd (Option.some.inj hxf).symm hfg
          · exact ih ⟨x, hx', hxf⟩ _ hok
      · rw [decodeObject_cons_err _ _ _ _ _ _ _ _ _ _ _ hk hu]
        intro hok
        cases goesOn <;> cases hok

theorem decodeObject_present_after_ok (hgs : ∀ s f p, get (set s f p) f = p)
    (hgo : ∀ s f g p, f ≠ g → get (set s g p) f = get s f)
    (f : UpdateField) (pre : List Member) (m : Member)
    (post : List Member) (hm : fieldForKey equalFold m.key = some f)
    (hpre : ∀ x ∈ pre, fieldForKey equalFold x.key ≠ none →
      ∀ p, (Patch.UnmarshalJSON codec p x.value).2 = none) :
    ∀ s, (get (decodeObject get set codec equalFold goesOn (pre ++ m :: post) s).1 f).Set
      = true := by
  induction pre with
  | nil =>
    intro s
    have hS := UnmarshalJSON_Set codec (get s f) m.value
    rcases hu : Patch.UnmarshalJSON codec (get s f) m.value with ⟨p, _ | err⟩
    · rw [hu] at hS
      rw [List.nil_append, decodeObject_cons_ok _ _ _ _ _ _ _ _ _ _ hm hu]
      apply decodeObject_keeps_Set get set codec equalFold goesOn hgs hgo
      rw [hgs]; exact hS
    · rw [hu] at hS
      rw [List.nil_append, decodeObject_cons_err _ _ _ _ _ _ _ _ _ _ _ hm hu]
      cases goesOn with
      | true =>
        apply decodeObject_keeps_Set get set codec equalFold true hgs hgo
        rw [hgs]; exact hS
      | false =>
        show (get (set s f p) f).Set = true
        rw [hgs]; exact hS
  | cons x pre ih =>
    intro s
    have ih' := ih (fun y hy => hpre y (List.mem_cons_of_mem _ hy))
    have hx := hpre x (List.mem_cons_self _ _)
    rw [List.cons_append]
    cases hk : fieldForKey equalFold x.key with
    | none => rw [decodeObject_cons_skip _ _ _ _ _ _ _ _ hk]; exact ih' s
    | some g =>
      have hnone := hx (by rw [hk]; simp) (get s g)
      rcases hu : Patch.UnmarshalJSON codec (get s g) x.value with ⟨p, _ | err⟩
      · rw [decodeObject_cons_ok _ _ _ _ _ _ _ _ _ _ hk hu]; exact ih' _
      · rw [hu] at hnone; cases hnone

theorem decodeObject_present_goesOn (hgs : ∀ s f p, get (set s f p) f = p)
    (hgo : ∀ s f g p, f ≠ g → get (set s g p) f = get s f)
    (f : UpdateField) (ms : List Member)
    (hpres : ∃ m ∈ ms, fieldForKey equalFold m.key = some f) :
    ∀ s, (get (decodeObject get set codec equalFold true ms s).1 f).Set = true := by
  induction ms with
  | nil => obtain ⟨m, hm, _⟩ := hpres; cases hm
  | cons m rest ih =>
    intro s
    cases hk : fieldForKey equalFold m.key with
    | none =>
      rw [decodeObject_cons_skip _ _ _ _ _ _ _ _ hk]
      obtain ⟨x, hx, hxf⟩ := hpres
      rcases List.mem_cons.mp hx with rfl | hx'
      · rw [hk] at hxf; cases hxf
      · exact ih ⟨x, hx', hxf⟩ s
    | some g =>
      have hrest : ∀ p, Patch.UnmarshalJSON codec (get s g) m.value = p →
          (get (decodeObject get set codec equalFold true rest (set s g p.1)).1 f).Set
            = true := by
        intro p hp
        by_cases hfg : f = g
        · subst hfg
          apply decodeObject_keeps_Set get set codec equalFold true hgs hgo
          rw [hgs, ← hp]
          exact UnmarshalJSON_Set codec (get s f) m.value
        · obtain ⟨x, hx, hxf⟩ := hpres
          rcases List.mem_cons.mp hx with rfl | hx'
          · rw [hk] at hxf; exact absurd (Option.some.inj hxf).symm hfg
          · exact ih ⟨x, hx', hxf⟩ _
      rcases hu : Patch.UnmarshalJSON codec (get s g) m.value with ⟨p, _ | err⟩
      · rw [decodeObject_cons_ok _ _ _ _ _ _ _ _ _ _ hk hu]
        exact hrest _ hu
      · rw [decodeObject_cons_err _ _ _ _ _ _ _ _ _ _ _ hk hu]
        exact hrest _ hu

end DecodeObject

theorem UserUpdate_get_set (s : UserUpdate) (f : UpdateField) (p : Patch GoString) :
    (s.set f p).get f = p := by
  cases f <;> rfl

theorem UserUpdate_get_set_ne (s : UserUpdate) (f g : UpdateField) (p : Patch GoString)
    (h : f ≠ g) : (s.set g p).get f = s.get f := by
  cases f <;> cases g <;> first | rfl | exact absurd rfl h

theorem AdminUpdate_get_set (s : AdminUpdate) (f : UpdateField) (p : Patch GoString) :
    (s.set f p).get f = p := by
  cases f <;> rfl

theorem AdminUpdate_get_set_ne (s : AdminUpdate) (f g : UpdateField) (p : Patch GoString)
    (h : f ≠ g) : (s.set g p).get f = s.get f := by
  cases f <;> cases g <;> first | rfl | exact absurd rfl h

/-- C5: decoding a JSON object into a zero-valued `UserUpdate` or `AdminUpdate`,
a Patch field that no key of the object selects ends with `Set = false`, and a
Patch field that some key selects, with any value, `null` included, ends with
`Set = true`. With the decoder that goes on after a failing member this holds
for every object, also when the decoding returns an error; with the decoder
that returns at the first failing member it holds whenever the decoding
returns no error, and more generally whenever `UnmarshalJSON` fails for no
member before that key. -/
theorem C5_patch_fields_after_decode (reject : GoString → GoError)
    (equalFold : GoString → GoString → Bool) (members : List Member) (f : UpdateField) :
    (∀ goesOn : Bool, (∀ m ∈ members, fieldForKey equalFold m.key ≠ some f) →
      ((decodeUserUpdate reject equalFold goesOn members UserUpdate.zero).1.get f).Set = false
      ∧ ((decodeAdminUpdate reject equalFold goesOn members AdminUpdate.zero).1.get f).Set
        = false)
    ∧ ((∃ m ∈ members, fieldForKey equalFold m.key = some f) →
      ((decodeUserUpdate reject equalFold true members UserUpdate.zero).1.get f).Set = true
      ∧ ((decodeAdminUpdate reject equalFold true members AdminUpdate.zero).1.get f).Set
        = true)
    ∧ (∀ goesOn : Bool, (∃ m ∈ members, fieldForKey equalFold m.key = some f) →
      ((decodeUserUpdate reject equalFold goesOn members UserUpdate.zero).2 = none →
        ((decodeUserUpdate reject equalFold goesOn members UserUpdate.zero).1.get f).Set
          = true)
      ∧ ((decodeAdminUpdate reject equalFold goesOn members AdminUpdate.zero).2 = none →
        ((decodeAdminUpdate reject equalFold goesOn members AdminUpdate.zero).1.get f).Set
          = true))
    ∧ (∀ (goesOn : Bool) pre m post, members = pre ++ m :: post →
      fieldForKey equalFold m.key = some f →
      (∀ x ∈ pre, fieldForKey equalFold x.key ≠ none →
        ∀ p, (Patch.UnmarshalJSON (stringCodec reject) p x.value).2 = none) →
      ((decodeUserUpdate reject equalFold goesOn members UserUpdate.zero).1.get f).Set = true
      ∧ ((decodeAdminUpdate reject equalFold goesOn members AdminUpdate.zero).1.get f).Set
        = true) := by
  refine ⟨?_, ?_, ?_, ?_⟩
  · intro goesOn habs
    constructor
    · unfold decodeUserUpdate
      rw [decodeObject_absent _ _ _ _ _ UserUpdate_get_set_ne f members habs]
      cases f <;> rfl
    · unfold decodeAdminUpdate
      rw [decodeObject_absent _ _ _ _ _ AdminUpdate_get_set_ne f members habs]
      cases f <;> rfl
  · intro hpres
    exact ⟨decodeObject_present_goesOn _ _ _ _ UserUpdate_get_set UserUpdate_get_set_ne f
        members hpres _,
      decodeObject_present_goesOn _ _ _ _ AdminUpdate_get_set AdminUpdate_get_set_ne f
        members hpres _⟩
  · intro goesOn hpres
    exact ⟨decodeObject_present_ok _ _ _ _ _ UserUpdate_get_set UserUpdate_get_set_ne f members
        hpres _,
      decodeObject_present_ok _ _ _ _ _ AdminUpdate_get_set AdminUpdate_get_set_ne f members
        hpres _⟩
  · intro goesOn pre m post hms hm hpre
    subst hms
    exact ⟨decodeObject_present_after_ok _ _ _ _ _ UserUpdate_get_set UserUpdate_get_set_ne f
        pre m post hm hpre _,
      decodeObject_present_after_ok _ _ _ _ _ AdminUpdate_get_set AdminUpdate_get_set_ne f
        pre m post hm hpre _⟩

theorem C5_patch_fields_after_decode_witness :
    ((decodeUserUpdate GoError.plain (fun a b => decide (a = b)) true
        [⟨str "email", str "null"⟩, ⟨str "name", str "5"⟩] UserUpdate.zero).1.get
          UpdateField.Surname).Set = false
    ∧ ((decodeUserUpdate GoError.plain (fun a b => decide (a = b)) true
        [⟨str "name", str "5"⟩, ⟨str "email", str "\"a@b.c\""⟩] UserUpdate.zero).1.get
          UpdateField.Email).Set = true
    ∧ ((decodeUserUpdate GoError.plain (fun a b => decide (a = b)) false
        [⟨str "email", str "null"⟩, ⟨str "name", str "\"Ann\""⟩] UserUpdate.zero).1.get
          UpdateField.Email).Set = true
    ∧ ((decodeAdminUpdate GoError.plain (fun a b => decide (a = b)) false
        [⟨str "email", str "null"⟩, ⟨str "name", str "5"⟩] AdminUpdate.zero).1.get
          UpdateField.Name).Set = true :=
  ⟨((C5_patch_fields_after_decode GoError.plain (fun a b => decide (a = b))
        [⟨str "email", str "null"⟩, ⟨str "name", str "5"⟩] UpdateField.Surname).1 true
        (by decide)).1,
    ((C5_patch_fields_after_decode GoError.plain (fun a b => decide (a = b))
        [⟨str "name", str "5"⟩, ⟨str "email", str "\"a@b.c\""⟩] UpdateField.Email).2.1
        ⟨⟨str "email", str "\"a@b.c\""⟩, by decide, by decide⟩).1,
    ((C5_patch_fields_after_decode GoError.plain (fun a b => decide (a = b))
        [⟨str "email", str "null"⟩, ⟨str "name", str "\"Ann\""⟩] UpdateField.Email).2.2.1
        false ⟨⟨str "email", str "null"⟩, by decide, by decide⟩).1 (by decide),
    ((C5_patch_fields_after_decode GoError.plain (fun a b => decide (a = b))
        [⟨str "email", str "null"⟩, ⟨str "name", str "5"⟩] UpdateField.Name).2.2.2 false
        [⟨str "email", str "null"⟩] ⟨str "name", str "5"⟩ [] rfl (by decide)
        (by
          intro x hx _ p
          rw [List.mem_singleton.mp hx]
          rfl)).2⟩

/-- The two decoders of `encoding/json` differ on an object with a failing
member before a present key: in `{"name": 5, "email": "a@b.c"}` the decoder
that goes on ends with `Email.Set = true`, the decoder that returns at once
with `Email.Set = false`; both return an error and set `Name.Set`. -/
theorem decodeUserUpdate_after_failing_member :
    (decodeUserUpdate GoError.plain (fun a b => decide (a = b)) true
        [⟨str "name", str "5"⟩, ⟨str "email", str "\"a@b.c\""⟩] UserUpdate.zero).1.Email.Set
          = true
    ∧ (decodeUserUpdate GoError.plain (fun a b => decide (a = b)) false
        [⟨str "name", str "5"⟩, ⟨str "email", str "\"a@b.c\""⟩] UserUpdate.zero).1.Email.Set
          = false
    ∧ (decodeUserUpdate GoError.plain (fun a b => decide (a = b)) true
        [⟨str "name", str "5"⟩, ⟨str "email", str "\"a@b.c\""⟩] UserUpdate.zero).1.Name.Set
          = true
    ∧ (decodeUserUpdate GoError.plain (fun a b => decide (a = b)) true
        [⟨str "name", str "5"⟩, ⟨str "email", str "\"a@b.c\""⟩] UserUpdate.zero).2 ≠ none
    ∧ (decodeUserUpdate GoError.plain (fun a b => decide (a = b)) false
        [⟨str "name", str "5"⟩, ⟨str "email", str "\"a@b.c\""⟩] UserUpdate.zero).2
          ≠ none := by
  decide

/-! ## Theorems: entity validation -/

theorem Errorf_invalid_literal (caller : Caller) (msg : GoString)
    (h : stringsContains msg contextCanceledText = false) :
    isInvalidWith (some (.app (Errorf caller EINVALID msg))) msg := by
  refine ⟨_, rfl, ?_, rfl⟩
  rw [Errorf_Code, h]
  rfl

/-- C8: `User.Validate` returns nil exactly when Name and Surname are non-empty,
Email is accepted by the mail-address parser, Password is non-empty and Phone is
not 0; otherwise it returns one error of kind invalid with the message of the
first failing check in the order Name, Surname, Email, Password, Phone.
`Admin.Validate` does the same without the Phone check. -/
theorem C8_Validate_first_failure (parseAddress : GoString → Option GoError)
    (frame : Nat → Caller) (u : User) (a : Admin) :
    (User.Validate parseAddress frame u = none ↔
      u.Name ≠ [] ∧ u.Surname ≠ [] ∧ parseAddress u.Email = none ∧ u.Password ≠ []
        ∧ u.Phone ≠ 0)
    ∧ (u.Name = [] →
        isInvalidWith (User.Validate parseAddress frame u) (str "Name is required"))
    ∧ (u.Name ≠ [] → u.Surname = [] →
        isInvalidWith (User.Validate parseAddress frame u) (str "Surname is required"))
    ∧ (u.Name ≠ [] → u.Surname ≠ [] → parseAddress u.Email ≠ none →
        isInvalidWith (User.Validate parseAddress frame u) (str "Email is required"))
    ∧ (u.Name ≠ [] → u.Surname ≠ [] → parseAddress u.Email = none → u.Password = [] →
        isInvalidWith (User.Validate parseAddress frame u) (str "Password is required"))
    ∧ (u.Name ≠ [] → u.Surname ≠ [] → parseAddress u.Email = none → u.Password ≠ [] →
        u.Phone = 0 →
        isInvalidWith (User.Validate parseAddress frame u) (str "Phone is required"))
    ∧ (Admin.Validate parseAddress frame a = none ↔
      a.Name ≠ [] ∧ a.Surname ≠ [] ∧ parseAddress a.Email = none ∧ a.Password ≠ [])
    ∧ (a.Name = [] →
        isInvalidWith (Admin.Validate parseAddress frame a) (str "Name is required"))
    ∧ (a.Name ≠ [] → a.Surname = [] →
        isInvalidWith (Admin.Validate parseAddress frame a) (str "Surname is required"))
    ∧ (a.Name ≠ [] → a.Surname ≠ [] → parseAddress a.Email ≠ none →
        isInvalidWith (Admin.Validate parseAddress frame a) (str "Email is invalid"))
    ∧ (a.Name ≠ [] → a.Surname ≠ [] → parseAddress a.Email = none → a.Password = [] →
        isInvalidWith (Admin.Validate parseAddress frame a) (str "Password is required")) := by
  have e : str "" = [] := rfl
  refine ⟨?_, ?_, ?_, ?_, ?_, ?_, ?_, ?_, ?_, ?_, ?_⟩
  · unfold User.Validate
    rw [e]
    split_ifs with h1 h2 h3 h4 h5 <;> simp_all
  · intro h1
    unfold User.Validate
    rw [e, if_pos h1]
    exact Errorf_invalid_literal _ _ (by decide)
  · intro h1 h2
    unfold User.Validate
    rw [e, if_neg h1, if_pos h2]
    exact Errorf_invalid_literal _ _ (by decide)
  · intro h1 h2 h3
    unfold User.Validate
    rw [e, if_neg h1, if_neg h2, if_pos h3]
    exact Errorf_invalid_literal _ _ (by decide)
  · intro h1 h2 h3 h4
    unfold User.Validate
    rw [e, if_neg h1, if_neg h2, if_neg (not_not.mpr h3), if_pos h4]
    exact Errorf_invalid_literal _ _ (by decide)
  · intro h1 h2 h3 h4 h5
    unfold User.Validate
    rw [e, if_neg h1, if_neg h2, if_neg (not_not.mpr h3), if_neg h4, if_pos h5]
    exact Errorf_invalid_literal _ _ (by decide)
  · unfold Admin.Validate
    rw [e]
    split_ifs with h1 h2 h3 h4 <;> simp_all
  · intro h1
    unfold Admin.Validate
    rw [e, if_pos h1]
    exact Errorf_invalid_literal _ _ (by decide)
  · intro h1 h2
    unfold Admin.Validate
    rw [e, if_neg h1, if_pos h2]
    exact Errorf_invalid_literal _ _ (by decide)
  · intro h1 h2 h3
    unfold Admin.Validate
    rw [e, if_neg h1, if_neg h2, if_pos h3]
    exact Errorf_invalid_literal _ _ (by decide)
  · intro h1 h2 h3 h4
    unfold Admin.Validate
    rw [e, if_neg h1, if_neg h2, if_neg (not_not.mpr h3), if_pos h4]
    exact Errorf_invalid_literal _ _ (by decide)

theorem C8_Validate_first_failure_witness :
    User.Validate (fun e => if stringsContains e (str "@") then none
        else some (.plain (str "mail: missing @"))) (fun _ => ⟨[], []⟩)
      ⟨1, str "Ann", str "Lee", str "ann@x.com", str "pw", 5⟩ = none
    ∧ isInvalidWith (User.Validate (fun e => if stringsContains e (str "@") then none
        else some (.plain (str "mail: missing @"))) (fun _ => ⟨[], []⟩)
      ⟨1, str "Ann", str "Lee", str "ann@x.com", str "pw", 0⟩) (str "Phone is required")
    ∧ isInvalidWith (Admin.Validate (fun e => if stringsContains e (str "@") then none
        else some (.plain (str "mail: missing @"))) (fun _ => ⟨[], []⟩)
      ⟨1, str "Ann", str "Lee", str "nowhere", str "pw", true⟩) (str "Email is invalid") :=
  ⟨(C8_Validate_first_failure _ _ ⟨1, str "Ann", str "Lee", str "ann@x.com", str "pw", 5⟩
      ⟨1, str "Ann", str "Lee", str "nowhere", str "pw", true⟩).1.mpr (by decide),
    (C8_Validate_first_failure _ _ ⟨1, str "Ann", str "Lee", str "ann@x.com", str "pw", 0⟩
      ⟨1, str "Ann", str "Lee", str "nowhere", str "pw", true⟩).2.2.2.2.2.1
      (by decide) (by decide) (by decide) (by decide) (by decide),
    (C8_Validate_first_failure _ _ ⟨1, str "Ann", str "Lee", str "ann@x.com", str "pw", 0⟩
      ⟨1, str "Ann", str "Lee", str "nowhere", str "pw", true⟩).2.2.2.2.2.2.2.2.2.1
      (by decide) (by decide) (by decide)⟩

/-! ## Theorems: transactions -/

theorem StatementsOnly.refl (tr : Trace) : StatementsOnly tr tr :=
  ⟨[], by simp, by simp⟩

theorem StatementsOnly.trans {a b c : Trace} (h1 : StatementsOnly a b)
    (h2 : StatementsOnly b c) : StatementsOnly a c := by
  obtain ⟨e1, rfl, p1⟩ := h1
  obtain ⟨e2, rfl, p2⟩ := h2
  refine ⟨e1 ++ e2, by simp, ?_⟩
  intro e he
  rcases List.mem_append.mp he with h | h
  · exact p1 e h
  · exact p2 e h

theorem StatementsOnly.step (tr : Trace) (e : Event) (he : e.isStatement = true) :
    StatementsOnly tr (tr ++ [e]) :=
  ⟨[e], rfl, by simpa using he⟩

theorem findUsers_trace (env : Env) (tx : Tx) (filter : UserFilter) (tr : Trace) :
    StatementsOnly tr (findUsers env tx filter tr).2 := by
  unfold findUsers
  simp only
  split <;> try split
  all_goals try split
  all_goals exact StatementsOnly.step _ _ rfl

theorem findAdmins_trace (env : Env) (tx : Tx) (filter : AdminFilter) (tr : Trace) :
    StatementsOnly tr (findAdmins env tx filter tr).2 := by
  unfold findAdmins
  simp only
  split <;> try split
  all_goals try split
  all_goals exact StatementsOnly.step _ _ rfl

theorem StatementsOnly.of_eq {α : Type} {f : α × Trace} {r : α} {tr tr1 : Trace}
    (h : StatementsOnly tr f.2) (heq : f = (r, tr1)) : StatementsOnly tr tr1 := by
  rw [heq] at h; exact h

theorem findUserByID_trace (env : Env) (tx : Tx) (id : Int) (tr : Trace) :
    StatementsOnly tr (findUserByID env tx id tr).2 := by
  unfold findUserByID
  split
  all_goals (rename_i heq; exact (findUsers_trace env tx _ tr).of_eq heq)

theorem findAdminByID_trace (env : Env) (tx : Tx) (id : Int) (tr : Trace) :
    StatementsOnly tr (findAdminByID env tx id tr).2 := by
  unfold findAdminByID
  split
  all_goals (rename_i heq; exact (findAdmins_trace env tx _ tr).of_eq heq)

theorem createUser_trace (env : Env) (tx : Tx) (crt : UserCreate) (tr : Trace) :
    StatementsOnly tr (createUser env tx crt tr).2 := by
  unfold createUser
  split
  · exact StatementsOnly.refl tr
  · simp only
    split
    · exact StatementsOnly.refl tr
    · split <;> exact StatementsOnly.step _ _ rfl

theorem createAdmin_trace (env : Env) (tx : Tx) (crt : AdminCreate) (tr : Trace) :
    StatementsOnly tr (createAdmin env tx crt tr).2 := by
  unfold createAdmin
  split
  · exact StatementsOnly.refl tr
  · simp only
    split
    · exact StatementsOnly.refl tr
    · split <;> exact StatementsOnly.step _ _ rfl

theorem deleteUser_trace (env : Env) (tx : Tx) (id : Int) (tr : Trace) :
    StatementsOnly tr (deleteUser env tx id tr).2 := by
  unfold deleteUser
  split
  · rename_i heq; exact (findUserByID_trace env tx _ tr).of_eq heq
  · rename_i heq
    have h := (findUserByID_trace env tx _ tr).of_eq heq
    simp only
    split <;> exact h.trans (StatementsOnly.step _ _ rfl)

theorem deleteAdmin_trace (env : Env) (tx : Tx) (id : Int) (tr : Trace) :
    StatementsOnly tr (deleteAdmin env tx id tr).2 := by
  unfold deleteAdmin
  split
  · rename_i heq; exact (findAdminByID_trace env tx _ tr).of_eq heq
  · rename_i heq
    have h := (findAdminByID_trace env tx _ tr).of_eq heq
    simp only
    split <;> exact h.trans (StatementsOnly.step _ _ rfl)

theorem updateAdmin_email_trace (env : Env) (tx : Tx) (upd : AdminUpdate) (admin : Admin) (tr : Trace) :
    StatementsOnly tr (updateAdmin_email env tx upd admin tr).2 := by
  unfold updateAdmin_email
  split
  · split
    · rename_i heq; exact (findAdmins_trace env tx _ tr).of_eq heq
    · rename_i heq
      have h := (findAdmins_trace env tx _ tr).of_eq heq
      split
      · split
        · exact h
        · split <;> exact h
      · exact h
  · exact StatementsOnly.refl tr

theorem updateAdmin_trace (env : Env) (tx : Tx) (id : Int) (upd : AdminUpdate) (tr : Trace) :
    StatementsOnly tr (updateAdmin env tx id upd tr).2 := by
  unfold updateAdmin
  split
  · rename_i heq; exact (findAdminByID_trace env tx _ tr).of_eq heq
  · rename_i heq
    have h := (findAdminByID_trace env tx _ tr).of_eq heq
    simp only
    split
    · rename_i heq2; exact h.trans ((updateAdmin_email_trace env tx upd _ _).of_eq heq2)
    · rename_i heq2
      have h2 := h.trans ((updateAdmin_email_trace env tx upd _ _).of_eq heq2)
      split
      · exact h2
      · split
        · exact h2
        · split <;> exact h2.trans (StatementsOnly.step _ _ rfl)

theorem updateUser_email_trace (env : Env) (tx : Tx) (upd : UserUpdate) (user : User) (tr : Trace) :
    StatementsOnly tr (updateUser_email env tx upd user tr).2 := by
  unfold updateUser_email
  split
  · split
    · rename_i heq; exact (findAdmins_trace env tx _ tr).of_eq heq
    · rename_i heq
      have h := (findAdmins_trace env tx _ tr).of_eq heq
      split
      · split
        · exact h
        · split <;> exact h
      · exact h
  · exact StatementsOnly.refl tr

theorem updateUser_trace (env : Env) (tx : Tx) (id : Int) (upd : UserUpdate) (tr : Trace) :
    StatementsOnly tr (updateUser env tx id upd tr).2 := by
  unfold updateUser
  split
  · rename_i heq; exact (findUserByID_trace env tx _ tr).of_eq heq
  · rename_i heq
    have h := (findUserByID_trace env tx _ tr).of_eq heq
    simp only
    split
    · rename_i heq2; exact h.trans ((updateUser_email_trace env tx upd _ _).of_eq heq2)
    · rename_i heq2
      have h2 := h.trans ((updateUser_email_trace env tx upd _ _).of_eq heq2)
      split
      · exact h2
      · split
        · exact h2
        · split <;> exact h2.trans (StatementsOnly.step _ _ rfl)

theorem ServiceOp.inner_trace (env : Env) (tx : Tx) (op : ServiceOp) (tr : Trace) :
    StatementsOnly tr (op.inner env tx tr).2 := by
  cases op with
  | CreateUser crt => exact createUser_trace env tx crt tr
  | DeleteUser id => exact deleteUser_trace env tx id tr
  | FindUserByID id =>
    unfold ServiceOp.inner
    simp only
    split
    · rename_i heq; exact (findUserByID_trace env tx _ tr).of_eq heq
    · rename_i heq; exact (findUserByID_trace env tx _ tr).of_eq heq
  | FindUsers filter => exact findUsers_trace env tx filter tr
  | UpdateUser id upd =>
    unfold ServiceOp.inner
    simp only
    split
    · rename_i heq; exact (updateUser_trace env tx _ _ tr).of_eq heq
    · rename_i heq; exact (updateUser_trace env tx _ _ tr).of_eq heq
  | CreateAdmin crt => exact createAdmin_trace env tx crt tr
  | DeleteAdmin id => exact deleteAdmin_trace env tx id tr
  | FindAdminByID id => exact findAdminByID_trace env tx id tr
  | UpdateAdmin id upd => exact updateAdmin_trace env tx id upd tr

theorem Tx.Commit_trace (env : Env) (t : Tx) (tr : Trace) :
    (t.Commit env tr).2 = tr ++ t.commitEvents := by
  unfold Tx.Commit Tx.commitEvents TxFunc.run
  cases t._commit <;> simp only <;> split <;> simp_all

theorem Tx.Rollback_trace (env : Env) (t : Tx) (tr : Trace) :
    (t.Rollback env tr).2 = tr ++ t.rollbackEvents := by
  unfold Tx.Rollback Tx.rollbackEvents TxFunc.run
  cases t._rollback <;> simp only <;> split <;> simp_all

theorem Tx.Commit_snd (env : Env) (t : Tx) (tr : Trace) (r : Option GoError) (tr2 : Trace)
    (h : t.Commit env tr = (r, tr2)) : tr2 = tr ++ t.commitEvents := by
  have := Tx.Commit_trace env t tr
  rw [h] at this; exact this

theorem C10_shape (env : Env) (db : DB) (ctx : Context) (op : ServiceOp) (tr : Trace)
    (h : Tx) (tr1 : Trace) (hb : DB.BeginTx env db ctx tr = (.ok h, tr1)) :
    (op.run env db ctx tr).2
      = (op.inner env h tr1).2
        ++ (if (op.inner env h tr1).1 = none ∧ op.commits = true then h.commitEvents else [])
        ++ h.rollbackEvents
    ∧ ((op.inner env h tr1).1 ≠ none → (op.run env db ctx tr).1 = (op.inner env h tr1).1) := by
  cases op with
  | CreateUser crt =>
    simp only [ServiceOp.run, UserService.CreateUser, hb, ServiceOp.inner, ServiceOp.commits,
      Tx.Rollback_trace]
    rcases hc : createUser env h crt tr1 with ⟨_ | _, tr2⟩
    · simp [errorOf]
    · rcases hm : h.Commit env tr2 with ⟨_ | _, tr3⟩ <;>
        simp [errorOf, hm, Tx.Commit_snd env h tr2 _ _ hm]
  | DeleteUser id =>
    simp only [ServiceOp.run, UserService.DeleteUser, hb, ServiceOp.inner, ServiceOp.commits,
      Tx.Rollback_trace]
    rcases hc : deleteUser env h id tr1 with ⟨_ | _, tr2⟩
    · rcases hm : h.Commit env tr2 with ⟨_ | _, tr3⟩ <;>
        simp [hm, Tx.Commit_snd env h tr2 _ _ hm]
    · simp
  | FindUserByID id =>
    rcases hc : findUserByID env h id tr1 with ⟨_ | _, tr2⟩ <;>
      simp [ServiceOp.run, UserService.FindUserByID, hb, ServiceOp.inner, ServiceOp.commits,
        Tx.Rollback_trace, attachUserAssociations, hc, errorOf]
  | FindUsers filter =>
    simp only [ServiceOp.run, UserService.FindUsers, hb, ServiceOp.inner, ServiceOp.commits,
      Tx.Rollback_trace]
    simp
  | UpdateUser id upd =>
    simp only [ServiceOp.run, UserService.UpdateUser, hb, ServiceOp.inner, ServiceOp.commits,
      Tx.Rollback_trace, attachUserAssociations]
    rcases hc : updateUser env h id upd tr1 with ⟨_ | _, tr2⟩
    · simp [errorOf]
    · rcases hm : h.Commit env tr2 with ⟨_ | _, tr3⟩ <;>
        simp [errorOf, hm, Tx.Commit_snd env h tr2 _ _ hm]
  | CreateAdmin crt =>
    simp only [ServiceOp.run, AdminService.CreateAdmin, hb, ServiceOp.inner, ServiceOp.commits,
      Tx.Rollback_trace]
    rcases hc : createAdmin env h crt tr1 with ⟨_ | _, tr2⟩
    · simp [errorOf]
    · rcases hm : h.Commit env tr2 with ⟨_ | _, tr3⟩ <;>
        simp [errorOf, hm, Tx.Commit_snd env h tr2 _ _ hm]
  | DeleteAdmin id =>
    simp only [ServiceOp.run, AdminService.DeleteAdmin, hb, ServiceOp.inner, ServiceOp.commits,
      Tx.Rollback_trace]
    rcases hc : deleteAdmin env h id tr1 with ⟨_ | _, tr2⟩
    · rcases hm : h.Commit env tr2 with ⟨_ | _, tr3⟩ <;>
        simp [hm, Tx.Commit_snd env h tr2 _ _ hm]
    · simp
  | FindAdminByID id =>
    rcases hc : findAdminByID env h id tr1 with ⟨_ | _, tr2⟩ <;>
      simp [ServiceOp.run, AdminService.FindAdminByID, hb, ServiceOp.inner, ServiceOp.commits,
        Tx.Rollback_trace, hc, errorOf]
  | UpdateAdmin id upd =>
    simp only [ServiceOp.run, AdminService.UpdateAdmin, hb, ServiceOp.inner, ServiceOp.commits,
      Tx.Rollback_trace]
    rcases hc : updateAdmin env h id upd tr1 with ⟨_ | _, tr2⟩
    · simp [errorOf]
    · rcases hm : h.Commit env tr2 with ⟨_ | _, tr3⟩ <;>
        simp [errorOf, hm, Tx.Commit_snd env h tr2 _ _ hm]

theorem BeginTx_handle (env : Env) (db : DB) (ctx : Context) (tr : Trace) (h : Tx)
    (tr1 : Trace) (hb : DB.BeginTx env db ctx tr = (.ok h, tr1)) :
    (h._commit = .nop ∧ h._rollback = .nop)
    ∨ (h._commit = .sqlCommit h.sqlTx ∧ h._rollback = .sqlRollback h.sqlTx) := by
  unfold DB.BeginTx at hb
  split at hb
  · simp only [Prod.mk.injEq, Except.ok.injEq] at hb
    obtain ⟨rfl, _⟩ := hb
    exact Or.inl ⟨rfl, rfl⟩
  · simp only at hb
    split at hb
    · simp at hb
    · simp only [Prod.mk.injEq, Except.ok.injEq] at hb
      obtain ⟨rfl, _⟩ := hb
      exact Or.inr ⟨rfl, rfl⟩

/-- C9: `BeginTx` on a context that carries an ambient `*Tx` begins no storage
transaction (the trace is unchanged) and returns a handle with the ambient
handle's underlying transaction and `Now` timestamp, whose `Commit` and
`Rollback` return nil and never reach the storage driver (their only trace is
the invocation itself); the `Commit` of a handle begun without an ambient `*Tx`
does reach the driver. -/
theorem C9_nested_BeginTx_is_noop (env : Env) (db : DB) (amb : Tx) (tr : Trace) :
    (∃ h : Tx,
      DB.BeginTx env db { tx := some (.pg amb) } tr = (.ok h, tr)
      ∧ h.sqlTx = amb.sqlTx ∧ h.db = amb.db ∧ h.Now = amb.Now
      ∧ (∀ tr2, h.Commit env tr2 = (none, tr2 ++ [.call .Commit h]))
      ∧ (∀ tr2, h.Rollback env tr2 = (none, tr2 ++ [.call .Rollback h])))
    ∧ (∀ (ctx0 : Context) (tr0 tr1 : Trace) (h0 : Tx),
        (∀ t, ctx0.tx ≠ some (.pg t)) →
        DB.BeginTx env db ctx0 tr0 = (.ok h0, tr1) →
        tr1 = tr0 ++ [.driver .BeginTx]
        ∧ ∀ tr2, (h0.Commit env tr2).2
            = tr2 ++ [.call .Commit h0, .driver (.Commit h0.sqlTx)]) := by
  refine ⟨⟨⟨amb.sqlTx, amb.db, amb.now, .nop, .nop⟩, rfl, rfl, rfl, rfl, fun _ => rfl,
    fun _ => rfl⟩, ?_⟩
  intro ctx0 tr0 tr1 h0 hctx hb
  unfold DB.BeginTx at hb
  split at hb
  · rename_i t heq
    exact absurd heq (hctx t)
  · simp only at hb
    split at hb
    · simp at hb
    · simp only [Prod.mk.injEq, Except.ok.injEq] at hb
      obtain ⟨rfl, rfl⟩ := hb
      refine ⟨rfl, fun tr2 => ?_⟩
      rw [Tx.Commit_trace]
      rfl

theorem C9_nested_BeginTx_is_noop_witness :
    [Event.driver .BeginTx] = [] ++ [Event.driver .BeginTx]
    ∧ ∀ tr2, (Tx.Commit sampleEnv
        { sqlTx := 0, db := { DSN := str "postgres://" }, now := 3000000000,
          _commit := .sqlCommit 0, _rollback := .sqlRollback 0 } tr2).2
        = tr2 ++ [.call .Commit
            { sqlTx := 0, db := { DSN := str "postgres://" }, now := 3000000000,
              _commit := .sqlCommit 0, _rollback := .sqlRollback 0 },
          .driver (.Commit 0)] :=
  (C9_nested_BeginTx_is_noop sampleEnv { DSN := str "postgres://" }
      { sqlTx := 9, db := { DSN := str "postgres://" }, now := 5, _commit := .sqlCommit 9,
        _rollback := .sqlRollback 9 } []).2
    { tx := none } [] [.driver .BeginTx]
    { sqlTx := 0, db := { DSN := str "postgres://" }, now := 3000000000,
      _commit := .sqlCommit 0, _rollback := .sqlRollback 0 }
    (by intro t h; cases h) (by decide)

/-- C10: in every service operation in which `BeginTx` succeeds, the inner step
only sends statements to the driver, `Commit` is invoked on the handle only
after an inner step that returned no error (and only by the operations that
write), and `Rollback` is invoked on the handle last, on every exit path; an
operation whose inner step returns an error returns that error and never
commits. -/
theorem C10_rollback_on_every_exit (env : Env) (db : DB) (ctx : Context) (op : ServiceOp)
    (tr : Trace) (h : Tx) (tr1 : Trace) (hb : DB.BeginTx env db ctx tr = (.ok h, tr1)) :
    ∃ innerEvs : Trace,
      (op.inner env h tr1).2 = tr1 ++ innerEvs
      ∧ (∀ e ∈ innerEvs, e.isStatement = true)
      ∧ (op.run env db ctx tr).2
          = tr1 ++ innerEvs
            ++ (if (op.inner env h tr1).1 = none ∧ op.commits = true then h.commitEvents
                else [])
            ++ h.rollbackEvents
      ∧ (h.rollbackEvents = [.call .Rollback h]
          ∨ h.rollbackEvents = [.call .Rollback h, .driver (.Rollback h.sqlTx)])
      ∧ ((op.inner env h tr1).1 ≠ none →
          (op.run env db ctx tr).1 = (op.inner env h tr1).1
          ∧ (op.run env db ctx tr).2 = tr1 ++ (innerEvs ++ h.rollbackEvents)
          ∧ ∀ e ∈ innerEvs ++ h.rollbackEvents, e.isCommit = false) := by
  obtain ⟨evs, hevs, hst⟩ := ServiceOp.inner_trace env h op tr1
  obtain ⟨hshape, herr⟩ := C10_shape env db ctx op tr h tr1 hb
  have hrb : h.rollbackEvents = [.call .Rollback h]
      ∨ h.rollbackEvents = [.call .Rollback h, .driver (.Rollback h.sqlTx)] := by
    rcases BeginTx_handle env db ctx tr h tr1 hb with ⟨_, h2⟩ | ⟨_, h2⟩
    · left; simp [Tx.rollbackEvents, h2]
    · right; simp [Tx.rollbackEvents, h2]
  refine ⟨evs, hevs, hst, ?_, hrb, ?_⟩
  · rw [hshape, hevs]
  · intro hne
    refine ⟨herr hne, ?_, ?_⟩
    · rw [hshape, hevs]
      simp [hne]
    · intro e he
      rcases List.mem_append.mp he with h1 | h1
      · have := hst e h1
        cases e with
        | driver c => cases c <;> simp_all [Event.isStatement, Event.isCommit]
        | call m t => simp [Event.isStatement] at this
      · rcases hrb with h2 | h2 <;> rw [h2] at h1 <;>
          simp only [List.mem_cons, List.mem_singleton, List.not_mem_nil, or_false] at h1
        · subst h1; rfl
        · rcases h1 with rfl | rfl <;> rfl

theorem C10_rollback_on_every_exit_witness :
    ∃ innerEvs : Trace,
      ((ServiceOp.DeleteUser 7).inner sampleEnv
        { sqlTx := 0, db := { DSN := str "postgres://" }, now := 3000000000,
          _commit := .sqlCommit 0, _rollback := .sqlRollback 0 } [.driver .BeginTx]).2
        = [.driver .BeginTx] ++ innerEvs
      ∧ (∀ e ∈ innerEvs, e.isStatement = true)
      ∧ ((ServiceOp.DeleteUser 7).run sampleEnv { DSN := str "postgres://" } { tx := none }
          []).2
          = [.driver .BeginTx] ++ innerEvs
            ++ [.call .Rollback
                { sqlTx := 0, db := { DSN := str "postgres://" }, now := 3000000000,
                  _commit := .sqlCommit 0, _rollback := .sqlRollback 0 },
              .driver (.Rollback 0)] := by
  obtain ⟨evs, h1, h2, h3, _, h5⟩ := C10_rollback_on_every_exit sampleEnv
    { DSN := str "postgres://" } { tx := none } (.DeleteUser 7) []
    { sqlTx := 0, db := { DSN := str "postgres://" }, now := 3000000000,
      _commit := .sqlCommit 0, _rollback := .sqlRollback 0 } [.driver .BeginTx] (by decide)
  exact ⟨evs, h1, h2, (h5 (by decide)).2.1.trans (by simp [Tx.rollbackEvents])⟩

/-! ## Theorems: lookups by ID -/

theorem ErrorCode_wrapStorage (env : Env) (file : GoString) (line : Nat) (pre : GoString)
    (d : GoError) :
    ErrorCode (some (wrapStorage env file line pre d))
      = if stringsContains (pre ++ d.Error) contextCanceledText = true then ECANCELED
        else EINTERNAL := by
  show (Errorf _ EINTERNAL _).Code = _
  rw [Errorf_Code]

theorem ErrorCode_wrapStorage_ne_not_found (env : Env) (file : GoString) (line : Nat)
    (pre : GoString) (d : GoError) :
    ErrorCode (some (wrapStorage env file line pre d)) ≠ ENOTFOUND := by
  rw [ErrorCode_wrapStorage]
  split <;> decide

theorem scanUsers_error (env : Env) (rows : List (List SqlValue)) :
    ∀ (users : List User) (n : Int) (e : GoError), scanUsers env rows users n = .error e →
      ∃ d, e = wrapStorage env (str "postgres/user.go") 220 (str "Error scanning user: ") d := by
  induction rows with
  | nil => intro users n e h; simp [scanUsers] at h
  | cons row rest ih =>
    intro users n e h
    unfold scanUsers at h
    split at h
    · rename_i d _
      simp only [Except.error.injEq] at h
      exact ⟨d, h.symm⟩
    · exact ih _ _ _ h

theorem findUsers_error (env : Env) (tx : Tx) (filter : UserFilter) (tr tr1 : Trace)
    (e : GoError) (h : findUsers env tx filter tr = (.error e, tr1)) :
    ∃ line pre d, e = wrapStorage env (str "postgres/user.go") line pre d := by
  unfold findUsers at h
  simp only at h
  split at h
  · simp only [Prod.mk.injEq, Except.error.injEq] at h
    exact ⟨_, _, _, h.1.symm⟩
  · split at h
    · rename_i hs
      simp only [Prod.mk.injEq, Except.error.injEq] at h
      obtain ⟨d, hd⟩ := scanUsers_error env _ _ _ _ hs
      exact ⟨_, _, d, h.1 ▸ hd⟩
    · split at h
      · simp only [Prod.mk.injEq, Except.error.injEq] at h
        exact ⟨_, _, _, h.1.symm⟩
      · simp at h

/-- C15: `findUserByID` returns an error of kind not_found exactly when the
lookup for that id succeeds with zero rows, returns the first row when the lookup
yields at least one row, and propagates a lookup error unchanged; the not_found
error maps to status 404 and to the envelope code "not_found". -/
theorem C15_findUserByID_not_found (env : Env) (tx : Tx) (id : Int) (tr : Trace)
    (details : Option GoString) :
    (∀ err tr1, findUsers env tx { ID := some id, Email := none, Page := 0, Limit := 0 } tr
        = (.error err, tr1) →
      findUserByID env tx id tr = (.error err, tr1))
    ∧ (∀ n tr1, findUsers env tx { ID := some id, Email := none, Page := 0, Limit := 0 } tr
        = (.ok ([], n), tr1) →
      ∃ e : GoError, findUserByID env tx id tr = (.error e, tr1)
        ∧ ErrorCode (some e) = str "not_found"
        ∧ ErrorMessage (some e) = str "User not found"
        ∧ StatusCodeFromErr (some e) = 404
        ∧ (NewErrorAPI (some e) details).Code = str "not_found")
    ∧ (∀ u us n tr1, findUsers env tx { ID := some id, Email := none, Page := 0, Limit := 0 } tr
        = (.ok (u :: us, n), tr1) →
      findUserByID env tx id tr = (.ok u, tr1))
    ∧ (ErrorCode (errorOf (findUserByID env tx id tr).1) = str "not_found" ↔
      ∃ n tr1, findUsers env tx { ID := some id, Email := none, Page := 0, Limit := 0 } tr
        = (.ok ([], n), tr1)) := by
  have hnf : ∀ tr1 : Trace, ∀ n : Int,
      findUsers env tx { ID := some id, Email := none, Page := 0, Limit := 0 } tr
        = (.ok ([], n), tr1) →
      findUserByID env tx id tr
        = (.error (.app (Errorf (env.frames (str "postgres/user.go") 164) ENOTFOUND
            (str "User not found"))), tr1) := by
    intro tr1 n h
    simp [findUserByID, h]
  refine ⟨?_, ?_, ?_, ?_⟩
  · intro err tr1 h
    simp [findUserByID, h]
  · intro n tr1 h
    exact ⟨_, hnf tr1 n h, rfl, rfl, rfl, rfl⟩
  · intro u us n tr1 h
    simp [findUserByID, h]
  · constructor
    · intro hc
      rcases hr : findUsers env tx { ID := some id, Email := none, Page := 0, Limit := 0 } tr
        with ⟨r, tr1⟩
      rcases r with e | ⟨users, n⟩
      · exfalso
        obtain ⟨line, pre, d, hd⟩ := findUsers_error env tx _ tr tr1 e hr
        have : findUserByID env tx id tr = (.error e, tr1) := by simp [findUserByID, hr]
        rw [this, hd] at hc
        exact ErrorCode_wrapStorage_ne_not_found env _ line pre d hc
      · cases users with
        | nil => exact ⟨n, tr1, rfl⟩
        | cons u us =>
          exfalso
          have : findUserByID env tx id tr = (.ok u, tr1) := by simp [findUserByID, hr]
          rw [this] at hc
          exact absurd hc (by decide : str "" ≠ str "not_found")
    · rintro ⟨n, tr1, h⟩
      rw [hnf tr1 n h]
      rfl

theorem C15_findUserByID_not_found_witness :
    ∃ e : GoError,
      findUserByID sampleEnv ⟨0, ⟨[]⟩, 0, .nop, .nop⟩ 7 [] = (.error e,
        (findUsers sampleEnv ⟨0, ⟨[]⟩, 0, .nop, .nop⟩
          { ID := some 7, Email := none, Page := 0, Limit := 0 } []).2)
      ∧ ErrorCode (some e) = str "not_found"
      ∧ ErrorMessage (some e) = str "User not found"
      ∧ StatusCodeFromErr (some e) = 404
      ∧ (NewErrorAPI (some e) none).Code = str "not_found" :=
  (C15_findUserByID_not_found sampleEnv ⟨0, ⟨[]⟩, 0, .nop, .nop⟩ 7 [] none).2.1 0 _ rfl

/-! ## Theorems: creation -/

theorem User_Validate_phone_zero (parseAddress : GoString → Option GoError)
    (frame : Nat → Caller) (u : User) (hp : u.Phone = 0) :
    ∃ e : Error, User.Validate parseAddress frame u = some (.app e) ∧ e.Code = str "invalid" := by
  unfold User.Validate
  split_ifs with h1 h2 h3 h4
  · obtain ⟨e, he, hc, _⟩ := Errorf_invalid_literal (frame 21) (str "Name is required") (by decide)
    exact ⟨e, he, hc⟩
  · obtain ⟨e, he, hc, _⟩ :=
      Errorf_invalid_literal (frame 25) (str "Surname is required") (by decide)
    exact ⟨e, he, hc⟩
  · obtain ⟨e, he, hc, _⟩ := Errorf_invalid_literal (frame 29) (str "Email is required") (by decide)
    exact ⟨e, he, hc⟩
  · obtain ⟨e, he, hc, _⟩ :=
      Errorf_invalid_literal (frame 33) (str "Password is required") (by decide)
    exact ⟨e, he, hc⟩
  · obtain ⟨e, he, hc, _⟩ := Errorf_invalid_literal (frame 37) (str "Phone is required") (by decide)
    exact ⟨e, he, hc⟩

theorem createUser_phone_zero (env : Env) (tx : Tx) (crt : UserCreate) (tr : Trace)
    (hp : crt.Phone = 0) (p : GoString) (hh : env.GenerateFromPassword crt.Password = .ok p) :
    ∃ e : Error, createUser env tx crt tr = (.error (.app e), tr) ∧ e.Code = str "invalid" := by
  obtain ⟨e, he, hc⟩ := User_Validate_phone_zero env.parseAddress (env.frames (str "app/user.go"))
    { ID := 0, Name := crt.Name, Email := crt.Email, Surname := crt.Surname, Password := p,
      Phone := crt.Phone } hp
  refine ⟨e, ?_, hc⟩
  simp [createUser, HashPassword, hh, he]

theorem BeginTx_trace (env : Env) (db : DB) (ctx : Context) (tr : Trace) :
    (DB.BeginTx env db ctx tr).2 = tr ∨ (DB.BeginTx env db ctx tr).2 = tr ++ [.driver .BeginTx] := by
  unfold DB.BeginTx
  split
  · exact Or.inl rfl
  · simp only
    split <;> exact Or.inr rfl

theorem rollbackEvents_quiet (env : Env) (db : DB) (ctx : Context) (tr : Trace) (h : Tx)
    (tr1 : Trace) (hb : DB.BeginTx env db ctx tr = (.ok h, tr1)) :
    ∀ ev ∈ h.rollbackEvents, ev.isStatement = false ∧ ev.isCommit = false := by
  intro ev hev
  rcases BeginTx_handle env db ctx tr h tr1 hb with ⟨_, h2⟩ | ⟨_, h2⟩ <;>
    simp only [Tx.rollbackEvents, h2, List.mem_cons, List.mem_singleton, List.not_mem_nil,
      or_false] at hev
  · subst hev; exact ⟨rfl, rfl⟩
  · rcases hev with rfl | rfl <;> exact ⟨rfl, rfl⟩

/-- C14 (amended): for every `UserCreate` with `Phone = 0` whose password
hashing succeeds, `createUser` returns an error of kind invalid and sends
nothing to the driver, on every handle. In every run in which `BeginTx`
succeeds `CreateUser` returns that error of kind invalid; when `BeginTx` fails
it returns the failure of `BeginTx`, of kind internal or canceled. In every
case it returns an error, sends no statement to the driver (no INSERT) and
never commits: all it adds to the trace is the begin of the transaction and
the rollback of the handle, so the stored users are unchanged. -/
theorem C14_CreateUser_phone_zero (env : Env) (db : DB) (ctx : Context) (crt : UserCreate)
    (tr : Trace) (hp : crt.Phone = 0) (p : GoString)
    (hh : env.GenerateFromPassword crt.Password = .ok p) :
    (∀ (tx : Tx) (tr0 : Trace), ∃ e : GoError,
      createUser env tx crt tr0 = (.error e, tr0) ∧ ErrorCode (some e) = str "invalid")
    ∧ (∀ h tr1, DB.BeginTx env db ctx tr = (.ok h, tr1) →
      ∃ e : GoError,
        UserService.CreateUser env { db := db } ctx crt tr = (.error e, tr1 ++ h.rollbackEvents)
        ∧ ErrorCode (some e) = str "invalid")
    ∧ (∀ err tr1, DB.BeginTx env db ctx tr = (.error err, tr1) →
      UserService.CreateUser env { db := db } ctx crt tr = (.error err, tr1)
      ∧ (ErrorCode (some err) = str "internal" ∨ ErrorCode (some err) = str "canceled"))
    ∧ (∃ e : GoError, (UserService.CreateUser env { db := db } ctx crt tr).1 = .error e)
    ∧ (∃ evs : Trace, (UserService.CreateUser env { db := db } ctx crt tr).2 = tr ++ evs
        ∧ ∀ ev ∈ evs, ev.isStatement = false ∧ ev.isCommit = false) := by
  have hbody : ∀ h tr1, DB.BeginTx env db ctx tr = (.ok h, tr1) →
      ∃ e : Error,
        UserService.CreateUser env { db := db } ctx crt tr
          = (.error (.app e), tr1 ++ h.rollbackEvents) ∧ e.Code = str "invalid" := by
    intro h tr1 hb
    obtain ⟨e, he, hc⟩ := createUser_phone_zero env h crt tr1 hp p hh
    exact ⟨e, by simp [UserService.CreateUser, hb, he, Tx.Rollback_trace], hc⟩
  refine ⟨?_, ?_, ?_, ?_, ?_⟩
  · intro tx tr0
    obtain ⟨e, he, hc⟩ := createUser_phone_zero env tx crt tr0 hp p hh
    exact ⟨_, he, hc⟩
  · intro h tr1 hb
    obtain ⟨e, he, hc⟩ := hbody h tr1 hb
    exact ⟨_, he, hc⟩
  · intro err tr1 hb
    refine ⟨by simp [UserService.CreateUser, hb], ?_⟩
    unfold DB.BeginTx at hb
    split at hb
    · simp at hb
    · simp only at hb
      split at hb
      · simp only [Prod.mk.injEq, Except.error.injEq] at hb
        rw [← hb.1]
        show (Errorf _ EINTERNAL _).Code = _ ∨ (Errorf _ EINTERNAL _).Code = _
        rw [Errorf_Code]
        split
        · right; rfl
        · left; rfl
      · simp at hb
  · rcases hb : DB.BeginTx env db ctx tr with ⟨r, tr1⟩
    rcases r with err | h
    · exact ⟨err, by simp [UserService.CreateUser, hb]⟩
    · obtain ⟨e, he, _⟩ := hbody h tr1 hb
      exact ⟨_, by rw [he]⟩
  · rcases hb : DB.BeginTx env db ctx tr with ⟨r, tr1⟩
    have htr := BeginTx_trace env db ctx tr
    rw [hb] at htr
    rcases r with err | h
    · have : (UserService.CreateUser env { db := db } ctx crt tr).2 = tr1 := by
        simp [UserService.CreateUser, hb]
      rcases htr with h1 | h1 <;> simp only at h1
      · exact ⟨[], by rw [this, h1]; simp, by simp⟩
      · refine ⟨[.driver .BeginTx], by rw [this, h1], ?_⟩
        intro ev hev
        rw [List.mem_singleton] at hev
        subst hev; exact ⟨rfl, rfl⟩
    · obtain ⟨e, he, _⟩ := hbody h tr1 hb
      have hq := rollbackEvents_quiet env db ctx tr h tr1 hb
      rcases htr with h1 | h1 <;> simp only at h1
      · exact ⟨h.rollbackEvents, by rw [he, h1], hq⟩
      · refine ⟨[.driver .BeginTx] ++ h.rollbackEvents, by rw [he, h1]; simp, ?_⟩
        intro ev hev
        rcases List.mem_append.mp hev with h2 | h2
        · rw [List.mem_singleton] at h2
          subst h2; exact ⟨rfl, rfl⟩
        · exact hq ev h2

theorem C14_CreateUser_phone_zero_witness :
    (∃ e : GoError,
      UserService.CreateUser sampleEnv { db := { DSN := str "postgres://" } } { tx := none }
        { Name := str "Ann", Surname := str "Lee", Email := str "ann@x.com",
          Password := str "pw", Phone := 0 } []
        = (.error e, [Event.driver .BeginTx]
            ++ Tx.rollbackEvents
                ⟨0, { DSN := str "postgres://" }, 3000000000, .sqlCommit 0, .sqlRollback 0⟩)
      ∧ ErrorCode (some e) = str "invalid") :=
  (C14_CreateUser_phone_zero sampleEnv { DSN := str "postgres://" } { tx := none }
    { Name := str "Ann", Surname := str "Lee", Email := str "ann@x.com",
      Password := str "pw", Phone := 0 } [] rfl _ rfl).2.1 _ _ rfl

/-- C14 as stated fails in a run in which the transaction cannot be begun:
with `Phone = 0` and the hashing succeeding, `CreateUser` returns the failure
of `BeginTx`, of kind internal, not an error of kind invalid; it sends no
statement and invokes no commit. -/
theorem C14_begin_failure_is_not_invalid :
    annNoPhone.Phone = 0
    ∧ (beginFailsEnv (.plain (str "connection refused"))).GenerateFromPassword
        annNoPhone.Password = .ok (str "$2a$10$pw")
    ∧ ErrorCode (errorOf (UserService.CreateUser
        (beginFailsEnv (.plain (str "connection refused"))) { db := sampleDB } { tx := none }
        annNoPhone []).1) = str "internal"
    ∧ ErrorCode (errorOf (UserService.CreateUser
        (beginFailsEnv (.plain (str "connection refused"))) { db := sampleDB } { tx := none }
        annNoPhone []).1) ≠ str "invalid"
    ∧ (UserService.CreateUser
        (beginFailsEnv (.plain (str "connection refused"))) { db := sampleDB } { tx := none }
        annNoPhone []).2 = [.driver .BeginTx] := by
  refine ⟨rfl, by rfl, by rfl, by decide, by rfl⟩

/-! ## Theorems: storage failures -/

theorem FailStop.of_no_event (env : Env) (tr : Trace) (r : Option GoError) :
    FailStop env tr (r, tr) :=
  ⟨[], by simp, by intro pre e rest d h; simp at h⟩

theorem FailStop.of_one_event (env : Env) (tr : Trace) (r : Option GoError) (e0 : Event)
    (h : ∀ d, stmtFails env tr e0 d → wrapsAtSite env r d) :
    FailStop env tr (r, tr ++ [e0]) := by
  refine ⟨[e0], rfl, ?_⟩
  intro pre e rest d hsplit hf
  cases pre with
  | nil =>
    simp only [List.nil_append, List.cons.injEq] at hsplit
    obtain ⟨rfl, rfl⟩ := hsplit
    exact ⟨rfl, h d (by simpa using hf)⟩
  | cons x pre =>
    simp only [List.cons_append, List.cons.injEq] at hsplit
    have := hsplit.2
    simp at this

theorem FailStop.seq (env : Env) (tr tr1 : Trace) (r : Option GoError × Trace)
    (h1 : FailStop env tr (none, tr1)) (h2 : FailStop env tr1 r) : FailStop env tr r := by
  obtain ⟨evs1, he1, p1⟩ := h1
  obtain ⟨evs2, he2, p2⟩ := h2
  simp only at he1
  subst he1
  refine ⟨evs1 ++ evs2, by rw [he2, List.append_assoc], ?_⟩
  intro pre e rest d hsplit hf
  rcases List.append_eq_append_iff.mp hsplit with ⟨a, ha, hb⟩ | ⟨c, hc, hd⟩
  · -- the event lies in the second part
    cases a with
    | nil =>
      simp only [List.append_nil] at ha
      simp only [List.nil_append] at hb
      subst ha
      exact p2 [] e rest d (by simpa using hb) (by simpa using hf)
    | cons x a =>
      have := p2 (x :: a) e rest d hb (by rw [ha] at hf; simpa [List.append_assoc] using hf)
      exact this
  · -- the event lies in the first part
    cases c with
    | nil =>
      simp only [List.append_nil] at hc
      simp only [List.nil_append] at hd
      subst hc
      exact p2 [] e rest d (by simpa using hd.symm) (by simpa using hf)
    | cons x c =>
      simp only [List.cons_append, List.cons.injEq] at hd
      obtain ⟨hxe, hrest⟩ := hd
      subst hxe
      obtain ⟨_, s, _, hs⟩ := p1 pre _ c d hc hf
      cases hs

theorem findUsers_eq (env : Env) (tx : Tx) (filter : UserFilter) (tr : Trace) :
    findUsers env tx filter tr
      = (findUsersResult env
          (env.Query tr tx.sqlTx (findUsersQuery env filter).1 (findUsersQuery env filter).2),
        tr ++ [.driver (.Query tx.sqlTx (findUsersQuery env filter).1
          (findUsersQuery env filter).2)]) := by
  unfold findUsers findUsersQuery findUsersResult
  simp only
  split
  · rfl
  · split
    · rfl
    · split <;> rfl

theorem findAdmins_eq (env : Env) (tx : Tx) (filter : AdminFilter) (tr : Trace) :
    findAdmins env tx filter tr
      = (findAdminsResult env
          (env.Query tr tx.sqlTx (findAdminsQuery env filter).1 (findAdminsQuery env filter).2),
        tr ++ [.driver (.Query tx.sqlTx (findAdminsQuery env filter).1
          (findAdminsQuery env filter).2)]) := by
  unfold findAdmins findAdminsQuery findAdminsResult
  simp only
  split
  · rfl
  · split
    · rfl
    · split <;> rfl

theorem wrapsAtSite_intro (env : Env) (file : GoString) (line : Nat) (pre : GoString)
    (d : GoError) (r : Option GoError) (hs : (file, line, pre) ∈ storageSites)
    (h : r = some (wrapStorage env file line pre d)) : wrapsAtSite env r d :=
  ⟨(file, line, pre), hs, h⟩

theorem hasPrefix_append (l r p : GoString) (h : hasPrefix l p = true) :
    hasPrefix (l ++ r) p = true := by
  induction l generalizing p with
  | nil =>
    cases p with
    | nil => cases r <;> rfl
    | cons b p => simp [hasPrefix] at h
  | cons a l ih =>
    cases p with
    | nil => rfl
    | cons b p =>
      simp only [hasPrefix, Bool.and_eq_true] at h
      simp only [List.cons_append, hasPrefix, Bool.and_eq_true]
      exact ⟨h.1, ih p h.2⟩

theorem hasPrefix_append_false (l r p : GoString) (h : hasPrefix l p = false)
    (hl : p.length ≤ l.length) : hasPrefix (l ++ r) p = false := by
  induction l generalizing p with
  | nil =>
    cases p with
    | nil => simp [hasPrefix] at h
    | cons b p => simp at hl
  | cons a l ih =>
    cases p with
    | nil => simp [hasPrefix] at h
    | cons b p =>
      simp only [hasPrefix, Bool.and_eq_false_iff] at h
      simp only [List.cons_append, hasPrefix, Bool.and_eq_false_iff]
      rcases h with h | h
      · exact Or.inl h
      · exact Or.inr (ih p h (by simpa using hl))

theorem findUsersQuery_head (env : Env) (filter : UserFilter) :
    hasPrefix (findUsersQuery env filter).1 usersSelect = true := by
  unfold findUsersQuery
  simp only [List.append_assoc]
  exact hasPrefix_append _ _ _ (by rfl)

set_option maxRecDepth 100000 in
theorem findAdminsQuery_head (env : Env) (filter : AdminFilter) :
    hasPrefix (findAdminsQuery env filter).1 usersSelect = false := by
  unfold findAdminsQuery
  simp only [List.append_assoc]
  exact hasPrefix_append_false _ _ _ (by rfl) (Nat.le_of_ble_eq_true (by rfl))

theorem scanUsers_of_failure (env : Env) (d : GoError) (rows : List (List SqlValue)) :
    ∀ (users : List User) (n : Int), firstScanFailure (scanUserRow env) rows = some d →
      scanUsers env rows users n
        = .error (wrapStorage env (str "postgres/user.go") 220 (str "Error scanning user: ") d) := by
  induction rows with
  | nil => intro users n h; simp [firstScanFailure] at h
  | cons row rest ih =>
    intro users n h
    unfold firstScanFailure at h
    unfold scanUsers
    cases hr : scanUserRow env row with
    | error e =>
      rw [hr] at h
      simp only [Option.some.injEq] at h
      subst h
      rfl
    | ok v =>
      rw [hr] at h
      exact ih _ _ h

theorem scanUsers_of_no_failure (env : Env) (rows : List (List SqlValue)) :
    ∀ (users : List User) (n : Int), firstScanFailure (scanUserRow env) rows = none →
      ∃ us m, scanUsers env rows users n = .ok (us, m) := by
  induction rows with
  | nil => intro users n _; exact ⟨users, n, rfl⟩
  | cons row rest ih =>
    intro users n h
    unfold firstScanFailure at h
    unfold scanUsers
    cases hr : scanUserRow env row with
    | error e => rw [hr] at h; simp at h
    | ok v =>
      rw [hr] at h
      exact ih _ _ h

theorem scanAdmins_of_failure (env : Env) (d : GoError) (rows : List (List SqlValue)) :
    ∀ (admins : List Admin), firstScanFailure (scanAdminRow env) rows = some d →
      scanAdmins env rows admins
        = .error (wrapStorage env (str "postgres/admin.go") 204 (str "Error scanning admins: ") d) := by
  induction rows with
  | nil => intro admins h; simp [firstScanFailure] at h
  | cons row rest ih =>
    intro admins h
    unfold firstScanFailure at h
    unfold scanAdmins
    cases hr : scanAdminRow env row with
    | error e =>
      rw [hr] at h
      simp only [Option.some.injEq] at h
      subst h
      rfl
    | ok v =>
      rw [hr] at h
      exact ih _ h

theorem scanAdmins_of_no_failure (env : Env) (rows : List (List SqlValue)) :
    ∀ (admins : List Admin), firstScanFailure (scanAdminRow env) rows = none →
      ∃ as, scanAdmins env rows admins = .ok as := by
  induction rows with
  | nil => intro admins _; exact ⟨admins, rfl⟩
  | cons row rest ih =>
    intro admins h
    unfold firstScanFailure at h
    unfold scanAdmins
    cases hr : scanAdminRow env row with
    | error e => rw [hr] at h; simp at h
    | ok v =>
      rw [hr] at h
      exact ih _ h

theorem findUsersResult_failure (env : Env) (q : GoString) (answer : Except GoError Rows)
    (d : GoError) (hq : hasPrefix q usersSelect = true)
    (h : match answer with
      | .error d1 => d1 = d
      | .ok rows =>
        if hasPrefix q usersSelect then rowsFailure (scanUserRow env) rows = some d
        else rowsFailure (scanAdminRow env) rows = some d) :
    wrapsAtSite env (errorOf (findUsersResult env answer)) d := by
  cases answer with
  | error d1 =>
    simp only at h
    subst h
    exact wrapsAtSite_intro env _ _ _ _ _ (by decide : (str "postgres/user.go", 201,
      str "Error querying user: ") ∈ storageSites) rfl
  | ok rows =>
    simp only [hq, if_true] at h
    unfold rowsFailure at h
    cases hf : firstScanFailure (scanUserRow env) rows.rows with
    | some d1 =>
      rw [hf] at h
      simp only [Option.some.injEq] at h
      subst h
      refine wrapsAtSite_intro env _ _ _ _ _ (by decide : (str "postgres/user.go", 220,
        str "Error scanning user: ") ∈ storageSites) ?_
      simp only [findUsersResult, scanUsers_of_failure env _ _ _ _ hf]
      rfl
    | none =>
      rw [hf] at h
      simp only at h
      obtain ⟨us, m, hs⟩ := scanUsers_of_no_failure env rows.rows [] 0 hf
      refine wrapsAtSite_intro env _ _ _ _ _ (by decide : (str "postgres/user.go", 227,
        str "Error iterating user: ") ∈ storageSites) ?_
      simp only [findUsersResult, hs, h]
      rfl

theorem findAdminsResult_failure (env : Env) (q : GoString) (answer : Except GoError Rows)
    (d : GoError) (hq : hasPrefix q usersSelect = false)
    (h : match answer with
      | .error d1 => d1 = d
      | .ok rows =>
        if hasPrefix q usersSelect then rowsFailure (scanUserRow env) rows = some d
        else rowsFailure (scanAdminRow env) rows = some d) :
    wrapsAtSite env (errorOf (findAdminsResult env answer)) d := by
  cases answer with
  | error d1 =>
    simp only at h
    subst h
    exact wrapsAtSite_intro env _ _ _ _ _ (by decide : (str "postgres/admin.go", 186,
      str "Error querying admin: ") ∈ storageSites) rfl
  | ok rows =>
    simp only [hq] at h
    unfold rowsFailure at h
    cases hf : firstScanFailure (scanAdminRow env) rows.rows with
    | some d1 =>
      rw [hf] at h
      simp only [Bool.false_eq_true, if_false, Option.some.injEq] at h
      subst h
      refine wrapsAtSite_intro env _ _ _ _ _ (by decide : (str "postgres/admin.go", 204,
        str "Error scanning admins: ") ∈ storageSites) ?_
      simp only [findAdminsResult, scanAdmins_of_failure env _ _ _ hf]
      rfl
    | none =>
      rw [hf] at h
      simp only [Bool.false_eq_true, if_false] at h
      obtain ⟨as, hs⟩ := scanAdmins_of_no_failure env rows.rows [] hf
      refine wrapsAtSite_intro env _ _ _ _ _ (by decide : (str "postgres/admin.go", 211,
        str "Error iterating admins: ") ∈ storageSites) ?_
      simp only [findAdminsResult, hs, h]
      rfl

theorem findUsers_failStop (env : Env) (tx : Tx) (filter : UserFilter) (tr : Trace) :
    FailStop env tr (errorOf (findUsers env tx filter tr).1, (findUsers env tx filter tr).2) := by
  rw [findUsers_eq]
  apply FailStop.of_one_event
  intro d hd
  exact findUsersResult_failure env _ _ d (findUsersQuery_head env filter) hd

theorem findAdmins_failStop (env : Env) (tx : Tx) (filter : AdminFilter) (tr : Trace) :
    FailStop env tr
      (errorOf (findAdmins env tx filter tr).1, (findAdmins env tx filter tr).2) := by
  rw [findAdmins_eq]
  apply FailStop.of_one_event
  intro d hd
  exact findAdminsResult_failure env _ _ d (findAdminsQuery_head env filter) hd

theorem FailStop.of_ok (env : Env) (tr tr1 : Trace) (r : Option GoError)
    (h : FailStop env tr (none, tr1)) : FailStop env tr (r, tr1) := by
  obtain ⟨evs, he, p⟩ := h
  refine ⟨evs, he, ?_⟩
  intro pre e rest d hsplit hf
  obtain ⟨_, s, _, hs⟩ := p pre e rest d hsplit hf
  cases hs

theorem findUserByID_failStop (env : Env) (tx : Tx) (id : Int) (tr : Trace) :
    FailStop env tr
      (errorOf (findUserByID env tx id tr).1, (findUserByID env tx id tr).2) := by
  have hg := findUsers_failStop env tx { ID := some id, Email := none, Page := 0, Limit := 0 } tr
  rcases hr : findUsers env tx { ID := some id, Email := none, Page := 0, Limit := 0 } tr
    with ⟨r, tr1⟩
  rw [hr] at hg
  rcases r with e | ⟨users, n⟩
  · simpa [findUserByID, hr] using hg
  · cases users with
    | nil => simpa [findUserByID, hr] using FailStop.of_ok env tr tr1 _ hg
    | cons u us => simpa [findUserByID, hr] using hg

theorem findAdminByID_failStop (env : Env) (tx : Tx) (id : Int) (tr : Trace) :
    FailStop env tr
      (errorOf (findAdminByID env tx id tr).1, (findAdminByID env tx id tr).2) := by
  have hg := findAdmins_failStop env tx { ID := some id, Email := none, Page := 0, Limit := 0 } tr
  rcases hr : findAdmins env tx { ID := some id, Email := none, Page := 0, Limit := 0 } tr
    with ⟨r, tr1⟩
  rw [hr] at hg
  rcases r with e | ⟨admins, n⟩
  · simpa [findAdminByID, hr] using hg
  · cases admins with
    | nil => simpa [findAdminByID, hr] using FailStop.of_ok env tr tr1 _ hg
    | cons u us => simpa [findAdminByID, hr] using hg

theorem deleteUser_failStop (env : Env) (tx : Tx) (id : Int) (tr : Trace) :
    FailStop env tr (deleteUser env tx id tr) := by
  have hg := findUserByID_failStop env tx id tr
  rcases hr : findUserByID env tx id tr with ⟨r, tr1⟩
  rw [hr] at hg
  rcases r with e | user
  · simpa [deleteUser, hr] using hg
  · have hg' : FailStop env tr (none, tr1) := hg
    unfold deleteUser
    simp only [hr]
    apply FailStop.seq env tr tr1 _ hg'
    split
    · rename_i d hd
      apply FailStop.of_one_event
      intro d' hd'
      have : some d = some d' := hd.symm.trans hd'
      cases this
      exact wrapsAtSite_intro env _ _ _ d _ (by decide : (str "postgres/user.go", 151,
        str "Error deleting user: ") ∈ storageSites) rfl
    · rename_i hd
      apply FailStop.of_one_event
      intro d' hd'
      have : (none : Option GoError) = some d' := hd.symm.trans hd'
      cases this

theorem deleteAdmin_failStop (env : Env) (tx : Tx) (id : Int) (tr : Trace) :
    FailStop env tr (deleteAdmin env tx id tr) := by
  have hg := findAdminByID_failStop env tx id tr
  rcases hr : findAdminByID env tx id tr with ⟨r, tr1⟩
  rw [hr] at hg
  rcases r with e | admin
  · simpa [deleteAdmin, hr] using hg
  · have hg' : FailStop env tr (none, tr1) := hg
    unfold deleteAdmin
    simp only [hr]
    apply FailStop.seq env tr tr1 _ hg'
    split
    · rename_i d hd
      apply FailStop.of_one_event
      intro d' hd'
      have : some d = some d' := hd.symm.trans hd'
      cases this
      exact wrapsAtSite_intro env _ _ _ d _ (by decide : (str "postgres/admin.go", 136,
        str "Error deleting admin: ") ∈ storageSites) rfl
    · rename_i hd
      apply FailStop.of_one_event
      intro d' hd'
      have : (none : Option GoError) = some d' := hd.symm.trans hd'
      cases this

theorem idScan_failure (env : Env) (row : List SqlValue) (d err : GoError)
    (h : idScanFailure env row = some d)
    (hs : (match (Except.ok row : Except GoError (List SqlValue)) with
      | .error err => Except.error err
      | .ok [c0] => env.convInt64 0 c0
      | .ok row => .error (scanArityError row.length 1)) = Except.error err) : err = d := by
  rcases row with _ | ⟨c0, _ | ⟨c1, rest⟩⟩
  · simp only [idScanFailure, Option.some.injEq] at h
    simp only [Except.error.injEq] at hs
    rw [← hs, h]
  · simp only [idScanFailure] at h
    simp only at hs
    rw [hs] at h
    simp only [Option.some.injEq] at h
    exact h
  · simp only [idScanFailure, Option.some.injEq] at h
    simp only [Except.error.injEq] at hs
    rw [← hs, h]

theorem idScan_no_failure (env : Env) (row : List SqlValue) (d : GoError) (id : Int)
    (h : idScanFailure env row = some d)
    (hs : (match (Except.ok row : Except GoError (List SqlValue)) with
      | .error err => Except.error err
      | .ok [c0] => env.convInt64 0 c0
      | .ok row => .error (scanArityError row.length 1)) = Except.ok id) : False := by
  rcases row with _ | ⟨c0, _ | ⟨c1, rest⟩⟩
  · simp at hs
  · simp only [idScanFailure] at h
    simp only at hs
    rw [hs] at h
    simp at h
  · simp at hs

theorem createUser_failStop (env : Env) (tx : Tx) (crt : UserCreate) (tr : Trace) :
    FailStop env tr (errorOf (createUser env tx crt tr).1, (createUser env tx crt tr).2) := by
  unfold createUser
  split
  · exact FailStop.of_no_event env tr _
  · simp only
    split
    · exact FailStop.of_no_event env tr _
    · split
      · rename_i err hs
        apply FailStop.of_one_event
        intro d hd
        refine wrapsAtSite_intro env _ _ _ _ _ (by decide : (str "postgres/user.go", 133,
          str "Error creating user: ") ∈ storageSites) ?_
        unfold stmtFails at hd
        simp only at hd
        generalize env.QueryRow tr tx.sqlTx _ _ = ans at hs hd
        cases ans with
        | error d1 =>
          simp only [Except.error.injEq] at hs hd
          rw [← hs, hd]
          rfl
        | ok row =>
          simp only at hd
          rw [idScan_failure env row d err hd hs]
          rfl
      · rename_i id hs
        apply FailStop.of_one_event
        intro d hd
        exfalso
        unfold stmtFails at hd
        simp only at hd
        generalize env.QueryRow tr tx.sqlTx _ _ = ans at hs hd
        cases ans with
        | error d1 => cases hs
        | ok row =>
          simp only at hd
          exact idScan_no_failure env row d id hd hs

theorem createAdmin_failStop (env : Env) (tx : Tx) (crt : AdminCreate) (tr : Trace) :
    FailStop env tr (errorOf (createAdmin env tx crt tr).1, (createAdmin env tx crt tr).2) := by
  unfold createAdmin
  split
  · exact FailStop.of_no_event env tr _
  · simp only
    split
    · exact FailStop.of_no_event env tr _
    · split
      · rename_i err hs
        apply FailStop.of_one_event
        intro d hd
        refine wrapsAtSite_intro env _ _ _ _ _ (by decide : (str "postgres/admin.go", 118,
          str "Error creating admin: ") ∈ storageSites) ?_
        unfold stmtFails at hd
        simp only at hd
        generalize env.QueryRow tr tx.sqlTx _ _ = ans at hs hd
        cases ans with
        | error d1 =>
          simp only [Except.error.injEq] at hs hd
          rw [← hs, hd]
          rfl
        | ok row =>
          simp only at hd
          rw [idScan_failure env row d err hd hs]
          rfl
      · rename_i id hs
        apply FailStop.of_one_event
        intro d hd
        exfalso
        unfold stmtFails at hd
        simp only at hd
        generalize env.QueryRow tr tx.sqlTx _ _ = ans at hs hd
        cases ans with
        | error d1 => cases hs
        | ok row =>
          simp only at hd
          exact idScan_no_failure env row d id hd hs


theorem FailStop.of_result_eq {α : Type} (env : Env) (tr : Trace) (f : Except GoError α × Trace)
    (r : Except GoError α) (tr1 : Trace) (heq : f = (r, tr1))
    (h : FailStop env tr (errorOf f.1, f.2)) : FailStop env tr (errorOf r, tr1) := by
  rw [heq] at h; exact h

theorem updateAdmin_email_failStop (env : Env) (tx : Tx) (upd : AdminUpdate) (admin : Admin)
    (tr : Trace) :
    FailStop env tr
      (errorOf (updateAdmin_email env tx upd admin tr).1, (updateAdmin_email env tx upd admin tr).2) := by
  unfold updateAdmin_email
  split
  · have hg := findAdmins_failStop env tx
      { ID := none, Email := some upd.Email.Value, Page := 0, Limit := 0 } tr
    split
    · rename_i heq
      rw [heq] at hg
      exact hg
    · rename_i heq
      rw [heq] at hg
      have hg' : FailStop env tr (none, _) := hg
      split
      · split
        · exact FailStop.of_ok env tr _ _ hg'
        · split
          · exact FailStop.of_ok env tr _ _ hg'
          · exact hg'
      · exact hg'
  · exact FailStop.of_no_event env tr _

theorem updateAdmin_failStop (env : Env) (tx : Tx) (id : Int) (upd : AdminUpdate) (tr : Trace) :
    FailStop env tr
      (errorOf (updateAdmin env tx id upd tr).1, (updateAdmin env tx id upd tr).2) := by
  have hg := findAdminByID_failStop env tx id tr
  unfold updateAdmin
  split
  · rename_i heq
    rw [heq] at hg
    exact hg
  · rename_i heq
    rw [heq] at hg
    have hg' : FailStop env tr (none, _) := hg
    simp only
    split
    · rename_i heq2
      exact FailStop.seq env tr _ _ hg'
        (FailStop.of_result_eq env _ _ _ _ heq2 (updateAdmin_email_failStop env tx upd _ _))
    · rename_i heq2
      have h12 : FailStop env tr (none, _) := FailStop.seq env tr _ _ hg'
        (FailStop.of_result_eq env _ _ _ _ heq2 (updateAdmin_email_failStop env tx upd _ _))
      split
      · exact FailStop.of_ok env tr _ _ h12
      · split
        · exact FailStop.of_ok env tr _ _ h12
        · apply FailStop.seq env tr _ _ h12
          split
          · rename_i d hd
            apply FailStop.of_one_event
            intro d' hd'
            have : some d = some d' := hd.symm.trans hd'
            cases this
            exact wrapsAtSite_intro env _ _ _ d _ (by decide : (str "postgres/admin.go", 264,
              str "Error updating admin: ") ∈ storageSites) rfl
          · rename_i hd
            apply FailStop.of_one_event
            intro d' hd'
            have : (none : Option GoError) = some d' := hd.symm.trans hd'
            cases this

theorem updateUser_email_failStop (env : Env) (tx : Tx) (upd : UserUpdate) (user : User)
    (tr : Trace) :
    FailStop env tr
      (errorOf (updateUser_email env tx upd user tr).1, (updateUser_email env tx upd user tr).2) := by
  unfold updateUser_email
  split
  · have hg := findAdmins_failStop env tx
      { ID := none, Email := some upd.Email.Value, Page := 0, Limit := 0 } tr
    split
    · rename_i heq
      rw [heq] at hg
      exact hg
    · rename_i heq
      rw [heq] at hg
      have hg' : FailStop env tr (none, _) := hg
      split
      · split
        · exact FailStop.of_ok env tr _ _ hg'
        · split
          · exact FailStop.of_ok env tr _ _ hg'
          · exact hg'
      · exact hg'
  · exact FailStop.of_no_event env tr _

theorem updateUser_failStop (env : Env) (tx : Tx) (id : Int) (upd : UserUpdate) (tr : Trace) :
    FailStop env tr
      (errorOf (updateUser env tx id upd tr).1, (updateUser env tx id upd tr).2) := by
  have hg := findUserByID_failStop env tx id tr
  unfold updateUser
  split
  · rename_i heq
    rw [heq] at hg
    exact hg
  · rename_i heq
    rw [heq] at hg
    have hg' : FailStop env tr (none, _) := hg
    simp only
    split
    · rename_i heq2
      exact FailStop.seq env tr _ _ hg'
        (FailStop.of_result_eq env _ _ _ _ heq2 (updateUser_email_failStop env tx upd _ _))
    · rename_i heq2
      have h12 : FailStop env tr (none, _) := FailStop.seq env tr _ _ hg'
        (FailStop.of_result_eq env _ _ _ _ heq2 (updateUser_email_failStop env tx upd _ _))
      split
      · exact FailStop.of_ok env tr _ _ h12
      · split
        · exact FailStop.of_ok env tr _ _ h12
        · apply FailStop.seq env tr _ _ h12
          split
          · rename_i d hd
            apply FailStop.of_one_event
            intro d' hd'
            have : some d = some d' := hd.symm.trans hd'
            cases this
            exact wrapsAtSite_intro env _ _ _ d _ (by decide : (str "postgres/user.go", 285,
              str "Error updating user: ") ∈ storageSites) rfl
          · rename_i hd
            apply FailStop.of_one_event
            intro d' hd'
            have : (none : Option GoError) = some d' := hd.symm.trans hd'
            cases this

theorem ServiceOp.inner_failStop (env : Env) (tx : Tx) (op : ServiceOp) (tr : Trace) :
    FailStop env tr (op.inner env tx tr) := by
  cases op with
  | CreateUser crt => exact createUser_failStop env tx crt tr
  | DeleteUser id => exact deleteUser_failStop env tx id tr
  | FindUserByID id =>
    have hg := findUserByID_failStop env tx id tr
    unfold ServiceOp.inner
    simp only
    split
    · rename_i heq; rw [heq] at hg; exact hg
    · rename_i heq; rw [heq] at hg; exact hg
  | FindUsers filter => exact findUsers_failStop env tx filter tr
  | UpdateUser id upd =>
    have hg := updateUser_failStop env tx id upd tr
    unfold ServiceOp.inner
    simp only
    split
    · rename_i heq; rw [heq] at hg; exact hg
    · rename_i heq; rw [heq] at hg; exact hg
  | CreateAdmin crt => exact createAdmin_failStop env tx crt tr
  | DeleteAdmin id => exact deleteAdmin_failStop env tx id tr
  | FindAdminByID id => exact findAdminByID_failStop env tx id tr
  | UpdateAdmin id upd => exact updateAdmin_failStop env tx id upd tr

theorem stringsContains_append_left (p m s : GoString) (h : stringsContains m s = true) :
    stringsContains (p ++ m) s = true := by
  induction p with
  | nil => exact h
  | cons b p ih =>
    show stringsContains (b :: (p ++ m)) s = true
    unfold stringsContains
    simp [ih]

theorem storageSites_contains (s : GoString × Nat × GoString) (hs : s ∈ storageSites)
    (m : GoString) :
    stringsContains (s.2.2 ++ m) contextCanceledText = stringsContains m contextCanceledText := by
  simp only [storageSites, List.mem_cons, List.mem_singleton, List.not_mem_nil, or_false] at hs
  rcases hs with h | h | h | h | h | h | h | h | h | h | h | h <;> subst h <;> rfl

theorem HiddenInternal_of_wrapsAtSite (env : Env) (err : Option GoError) (d : GoError)
    (hw : wrapsAtSite env err d) (hd : stringsContains d.Error contextCanceledText = false) :
    HiddenInternal err := by
  obtain ⟨s, hs, rfl⟩ := hw
  have hc : ErrorCode (some (wrapStorage env s.1 s.2.1 s.2.2 d)) = EINTERNAL := by
    rw [ErrorCode_wrapStorage, storageSites_contains s hs, hd]
    rfl
  refine ⟨hc, ?_⟩
  unfold MessageFromErr
  simp only [hc, true_or, or_true, if_true]
  rfl

theorem canceled_of_wrapsAtSite (env : Env) (err : Option GoError) (d : GoError)
    (hw : wrapsAtSite env err d) (hd : stringsContains d.Error contextCanceledText = true) :
    ErrorCode err = str "canceled"
    ∧ MessageFromErr err = ErrorMessage err
    ∧ ∃ pre, ErrorMessage err = pre ++ d.Error := by
  obtain ⟨s, hs, rfl⟩ := hw
  have hc : ErrorCode (some (wrapStorage env s.1 s.2.1 s.2.2 d)) = ECANCELED := by
    rw [ErrorCode_wrapStorage, storageSites_contains s hs, hd]
    rfl
  have hm : ErrorMessage (some (wrapStorage env s.1 s.2.1 s.2.2 d)) = s.2.2 ++ d.Error := rfl
  refine ⟨hc, ?_, s.2.2, hm⟩
  unfold MessageFromErr
  have hne : s.2.2 ++ d.Error ≠ str "" := by
    simp only [storageSites, List.mem_cons, List.mem_singleton, List.not_mem_nil, or_false] at hs
    rcases hs with h | h | h | h | h | h | h | h | h | h | h | h <;> subst h <;>
      exact List.cons_ne_nil _ _
  rw [hc, hm]
  have h1 : ECANCELED ≠ EINTERNAL := by decide
  have h2 : ECANCELED ≠ EUNKNOWN := by decide
  simp [hne, h1, h2]

/-! ## Theorems: what the caller sees of a storage failure -/

/-- C19 (amended): in the inner step of every user and admin operation, a
statement that meets a storage failure `d` (the driver fails the query or the
exec, or scanning or iterating the rows it answered fails) is the last event
of the step. If the text of `d` does not contain "context canceled", the error
the step returns has kind internal and `MessageFromErr` shows the generic
phrase, whatever `d` is. If it does, the error has kind canceled and
`MessageFromErr` shows the wrapped message, which ends with the text of `d`.
The service operation around the step returns the same error. -/
theorem C19_storage_failure_hidden (env : Env) (tx : Tx) (op : ServiceOp) (tr pre : Trace)
    (e : Event) (rest : Trace) (d : GoError)
    (hrun : (op.inner env tx tr).2 = tr ++ (pre ++ e :: rest))
    (hfail : stmtFails env (tr ++ pre) e d) :
    rest = []
    ∧ (stringsContains d.Error contextCanceledText = false →
        ErrorCode (op.inner env tx tr).1 = str "internal"
        ∧ MessageFromErr (op.inner env tx tr).1 = str "An error occurred")
    ∧ (stringsContains d.Error contextCanceledText = true →
        ErrorCode (op.inner env tx tr).1 = str "canceled"
        ∧ ∃ text, MessageFromErr (op.inner env tx tr).1 = text ++ d.Error)
    ∧ ∀ (db : DB) (ctx : Context) (tr0 : Trace),
        DB.BeginTx env db ctx tr0 = (.ok tx, tr) →
        (op.run env db ctx tr0).1 = (op.inner env tx tr).1 := by
  obtain ⟨evs, he, p⟩ := ServiceOp.inner_failStop env tx op tr
  have hevs : evs = pre ++ e :: rest := List.append_cancel_left (he.symm.trans hrun)
  obtain ⟨hrest, hw⟩ := p pre e rest d hevs hfail
  refine ⟨hrest, fun hd => HiddenInternal_of_wrapsAtSite env _ d hw hd, fun hd => ?_, ?_⟩
  · obtain ⟨hc, hm, text, ht⟩ := canceled_of_wrapsAtSite env _ d hw hd
    exact ⟨hc, text, hm.trans ht⟩
  · intro db ctx tr0 hb
    refine (C10_shape env db ctx op tr0 tx tr hb).2 ?_
    obtain ⟨s, _, hs⟩ := hw
    rw [hs]
    exact Option.some_ne_none _

theorem C19_storage_failure_hidden_witness :
    ErrorCode ((ServiceOp.FindUsers firstPage).inner
        (queryFailsEnv (.plain (str "connection refused"))) sampleTx [.driver .BeginTx]).1
      = str "internal"
    ∧ MessageFromErr ((ServiceOp.FindUsers firstPage).inner
        (queryFailsEnv (.plain (str "connection refused"))) sampleTx [.driver .BeginTx]).1
      = str "An error occurred" :=
  (C19_storage_failure_hidden (queryFailsEnv (.plain (str "connection refused"))) sampleTx
    (.FindUsers firstPage) [.driver .BeginTx] []
    (.driver (.Query 0
      (findUsersQuery (queryFailsEnv (.plain (str "connection refused"))) firstPage).1 []))
    [] (.plain (str "connection refused")) rfl rfl).2.1 rfl

/-- C19 as stated fails: a query of `findUsers` that the driver fails with the
text "context canceled" is returned with kind canceled, not internal, and
`MessageFromErr` shows the wrapped message with the driver's text in it. -/
theorem C19_canceled_failure_is_shown :
    stmtFails (queryFailsEnv (.plain (str "context canceled"))) [.driver .BeginTx]
      (.driver (.Query 0
        (findUsersQuery (queryFailsEnv (.plain (str "context canceled"))) firstPage).1 []))
      (.plain (str "context canceled"))
    ∧ ErrorCode ((ServiceOp.FindUsers firstPage).inner
        (queryFailsEnv (.plain (str "context canceled"))) sampleTx [.driver .BeginTx]).1
      = str "canceled"
    ∧ ErrorCode ((ServiceOp.FindUsers firstPage).inner
        (queryFailsEnv (.plain (str "context canceled"))) sampleTx [.driver .BeginTx]).1
      ≠ str "internal"
    ∧ MessageFromErr ((ServiceOp.FindUsers firstPage).inner
        (queryFailsEnv (.plain (str "context canceled"))) sampleTx [.driver .BeginTx]).1
      = str "Error querying user: context canceled" := by
  refine ⟨rfl, by rfl, ?_, by rfl⟩
  decide

/-! ## Theorems: cancellation -/

theorem ServiceOp.run_commit (env : Env) (db : DB) (ctx : Context) (op : ServiceOp)
    (tr : Trace) (h : Tx) (tr1 : Trace) (hb : DB.BeginTx env db ctx tr = (.ok h, tr1))
    (hi : (op.inner env h tr1).1 = none) (hc : op.commits = true) :
    (op.run env db ctx tr).1 = (h.Commit env (op.inner env h tr1).2).1 := by
  cases op with
  | CreateUser crt =>
    simp only [ServiceOp.inner] at hi ⊢
    simp only [ServiceOp.run, UserService.CreateUser, hb]
    rcases hq : createUser env h crt tr1 with ⟨_ | _, tr2⟩
    · rw [hq] at hi; simp [errorOf] at hi
    · rcases hm : h.Commit env tr2 with ⟨_ | _, tr3⟩ <;> simp [errorOf, hm]
  | DeleteUser id =>
    simp only [ServiceOp.inner] at hi ⊢
    simp only [ServiceOp.run, UserService.DeleteUser, hb]
    rcases hq : deleteUser env h id tr1 with ⟨_ | _, tr2⟩
    · rcases hm : h.Commit env tr2 with ⟨_ | _, tr3⟩ <;> simp [hm]
    · rw [hq] at hi; simp at hi
  | FindUserByID id => simp [ServiceOp.commits] at hc
  | FindUsers filter => simp [ServiceOp.commits] at hc
  | UpdateUser id upd =>
    simp only [ServiceOp.inner] at hi ⊢
    simp only [ServiceOp.run, UserService.UpdateUser, hb, attachUserAssociations]
    rcases hq : updateUser env h id upd tr1 with ⟨_ | _, tr2⟩
    · rw [hq] at hi; simp at hi
    · rcases hm : h.Commit env tr2 with ⟨_ | _, tr3⟩ <;>
        simp [errorOf, hm, attachUserAssociations]
  | CreateAdmin crt =>
    simp only [ServiceOp.inner] at hi ⊢
    simp only [ServiceOp.run, AdminService.CreateAdmin, hb]
    rcases hq : createAdmin env h crt tr1 with ⟨_ | _, tr2⟩
    · rw [hq] at hi; simp [errorOf] at hi
    · rcases hm : h.Commit env tr2 with ⟨_ | _, tr3⟩ <;> simp [errorOf, hm]
  | DeleteAdmin id =>
    simp only [ServiceOp.inner] at hi ⊢
    simp only [ServiceOp.run, AdminService.DeleteAdmin, hb]
    rcases hq : deleteAdmin env h id tr1 with ⟨_ | _, tr2⟩
    · rcases hm : h.Commit env tr2 with ⟨_ | _, tr3⟩ <;> simp [hm]
    · rw [hq] at hi; simp at hi
  | FindAdminByID id => simp [ServiceOp.commits] at hc
  | UpdateAdmin id upd =>
    simp only [ServiceOp.inner] at hi ⊢
    simp only [ServiceOp.run, AdminService.UpdateAdmin, hb]
    rcases hq : updateAdmin env h id upd tr1 with ⟨_ | _, tr2⟩
    · rw [hq] at hi; simp [errorOf] at hi
    · rcases hm : h.Commit env tr2 with ⟨_ | _, tr3⟩ <;> simp [errorOf, hm]

theorem Tx.Commit_canceled (env : Env) (t : Tx) (tr : Trace) (d : GoError)
    (hd : (t._commit.run env (tr ++ [.call .Commit t])).1 = some d)
    (hc : stringsContains d.Error contextCanceledText = true) :
    ErrorCode (t.Commit env tr).1 = str "canceled" := by
  unfold Tx.Commit
  rcases hr : t._commit.run env (tr ++ [.call .Commit t]) with ⟨r, tr2⟩
  rw [hr] at hd
  simp only at hd
  subst hd
  simp only [hr, ErrorCode, errorsAs, Errorf_Code]
  rw [stringsContains_append_left _ _ _ hc]
  rfl

/-- C20 (amended): in a service operation whose `BeginTx` succeeded with the
handle `h`, a statement of the inner step that meets a storage failure whose
text contains "context canceled", and a commit that fails with such a text,
make the operation return an error of kind canceled; the failing statement is
the last one sent, nothing is committed after it, and `Rollback` is invoked on
the handle last, before the operation returns. -/
theorem C20_cancellation_mid_transaction (env : Env) (db : DB) (ctx : Context)
    (op : ServiceOp) (tr : Trace) (h : Tx) (tr1 : Trace)
    (hb : DB.BeginTx env db ctx tr = (.ok h, tr1)) :
    (∀ (pre : Trace) (e : Event) (rest : Trace) (d : GoError),
        (op.inner env h tr1).2 = tr1 ++ (pre ++ e :: rest) →
        stmtFails env (tr1 ++ pre) e d →
        stringsContains d.Error contextCanceledText = true →
        ErrorCode (op.run env db ctx tr).1 = str "canceled"
        ∧ (op.run env db ctx tr).2 = tr1 ++ pre ++ [e] ++ h.rollbackEvents)
    ∧ (∀ d : GoError,
        (op.inner env h tr1).1 = none → op.commits = true →
        (h._commit.run env ((op.inner env h tr1).2 ++ [.call .Commit h])).1 = some d →
        stringsContains d.Error contextCanceledText = true →
        ErrorCode (op.run env db ctx tr).1 = str "canceled"
        ∧ (op.run env db ctx tr).2
            = (op.inner env h tr1).2 ++ h.commitEvents ++ h.rollbackEvents)
    ∧ (h.rollbackEvents = [.call .Rollback h]
        ∨ h.rollbackEvents = [.call .Rollback h, .driver (.Rollback h.sqlTx)]) := by
  obtain ⟨hshape, herr⟩ := C10_shape env db ctx op tr h tr1 hb
  refine ⟨?_, ?_, ?_⟩
  · intro pre e rest d hrun hfail hd
    obtain ⟨evs, he, p⟩ := ServiceOp.inner_failStop env h op tr1
    have hevs : evs = pre ++ e :: rest := List.append_cancel_left (he.symm.trans hrun)
    obtain ⟨hrest, hw⟩ := p pre e rest d hevs hfail
    obtain ⟨hcode, _, _⟩ := canceled_of_wrapsAtSite env _ d hw hd
    have hne : (op.inner env h tr1).1 ≠ none := by
      obtain ⟨s, _, hs⟩ := hw
      rw [hs]
      exact Option.some_ne_none _
    refine ⟨by rw [herr hne]; exact hcode, ?_⟩
    rw [hshape, hrun, hrest]
    simp [hne]
  · intro d hi hc hd hcc
    refine ⟨?_, ?_⟩
    · rw [ServiceOp.run_commit env db ctx op tr h tr1 hb hi hc]
      exact Tx.Commit_canceled env h _ d hd hcc
    · rw [hshape]
      simp [hi, hc]
  · rcases BeginTx_handle env db ctx tr h tr1 hb with ⟨_, h2⟩ | ⟨_, h2⟩
    · left; simp [Tx.rollbackEvents, h2]
    · right; simp [Tx.rollbackEvents, h2]

theorem C20_cancellation_mid_transaction_witness :
    ErrorCode ((ServiceOp.FindUsers firstPage).run
        (queryFailsEnv (.plain (str "context canceled"))) sampleDB { tx := none } []).1
      = str "canceled"
    ∧ ((ServiceOp.FindUsers firstPage).run
        (queryFailsEnv (.plain (str "context canceled"))) sampleDB { tx := none } []).2
      = [.driver .BeginTx] ++ []
        ++ [.driver (.Query 0
            (findUsersQuery (queryFailsEnv (.plain (str "context canceled"))) firstPage).1 [])]
        ++ sampleTx.rollbackEvents :=
  (C20_cancellation_mid_transaction (queryFailsEnv (.plain (str "context canceled"))) sampleDB
    { tx := none } (.FindUsers firstPage) [] sampleTx [.driver .BeginTx] rfl).1 []
    (.driver (.Query 0
      (findUsersQuery (queryFailsEnv (.plain (str "context canceled"))) firstPage).1 []))
    [] (.plain (str "context canceled")) rfl rfl rfl

/-- C20 as stated fails for two kinds of storage call. When `BeginTx` itself
fails with "context canceled" the operation returns kind canceled and stops:
no `Rollback` is invoked. When the rollback that `defer tx.Rollback()` sends to
the driver fails with "context canceled", its error is dropped and the
operation returns no error at all. -/
theorem C20_begin_and_rollback_failures :
    (ErrorCode ((ServiceOp.FindUsers firstPage).run
        (beginFailsEnv (.plain (str "context canceled"))) sampleDB { tx := none } []).1
      = str "canceled"
    ∧ ((ServiceOp.FindUsers firstPage).run
        (beginFailsEnv (.plain (str "context canceled"))) sampleDB { tx := none } []).2
      = [.driver .BeginTx])
    ∧ ((rollbackFailsEnv (.plain (str "context canceled"))).Rollback
        [.driver .BeginTx,
          .driver (.Query 0
            (findUsersQuery (rollbackFailsEnv (.plain (str "context canceled"))) firstPage).1
            []),
          .call .Rollback sampleTx] 0
      = some (.plain (str "context canceled"))
    ∧ ((ServiceOp.FindUsers firstPage).run
        (rollbackFailsEnv (.plain (str "context canceled"))) sampleDB { tx := none } [])
      = (none,
        [.driver .BeginTx,
          .driver (.Query 0
            (findUsersQuery (rollbackFailsEnv (.plain (str "context canceled"))) firstPage).1
            []),
          .call .Rollback sampleTx, .driver (.Rollback 0)])) := by
  refine ⟨⟨by rfl, by rfl⟩, rfl, by rfl⟩

/-! ## Theorems: the count of the lookups -/

theorem findAdmins_count_zero (env : Env) (tx : Tx) (filter : AdminFilter) (tr : Trace)
    (admins : List Admin) (n : Int) (tr1 : Trace)
    (h : findAdmins env tx filter tr = (.ok (admins, n), tr1)) : n = 0 := by
  rw [findAdmins_eq] at h
  simp only [Prod.mk.injEq] at h
  obtain ⟨h1, _⟩ := h
  unfold findAdminsResult at h1
  split at h1
  · simp at h1
  · split at h1
    · simp at h1
    · split at h1
      · simp at h1
      · simp only [Except.ok.injEq, Prod.mk.injEq] at h1
        exact h1.2.symm

theorem scanAdminRow_width (env : Env) (row : List SqlValue) (h : row.length ≠ 6) :
    scanAdminRow env row = .error (scanArityError row.length 6) := by
  unfold scanAdminRow
  split
  · simp at h
  · rfl

/-- C18: `findAdmins` never assigns its named result `n`: whenever it returns
without error its second result is 0, whatever the number of admins it returns
with it. Its statement selects seven columns (the six of the admin and the
windowed count), but the scan has six destinations, so an answer whose first
row has the seven columns is turned into an error wrapped as
"Error scanning admins: ...". -/
theorem C18_findAdmins_count_always_zero (env : Env) (tx : Tx) (filter : AdminFilter)
    (tr : Trace) :
    (∀ (admins : List Admin) (n : Int) (tr1 : Trace),
        findAdmins env tx filter tr = (.ok (admins, n), tr1) → n = 0)
    ∧ (selectItems (findAdminsQuery env filter).1).length = 7
    ∧ (∀ (rows : Rows) (row : List SqlValue) (rest : List (List SqlValue)),
        env.Query tr tx.sqlTx (findAdminsQuery env filter).1 (findAdminsQuery env filter).2
          = .ok rows →
        rows.rows = row :: rest → row.length = 7 →
        (findAdmins env tx filter tr).1
          = .error (wrapStorage env (str "postgres/admin.go") 204
              (str "Error scanning admins: ") (scanArityError 7 6))) := by
  refine ⟨fun admins n tr1 h => findAdmins_count_zero env tx filter tr admins n tr1 h, rfl, ?_⟩
  intro rows row rest hq hrows hlen
  rw [findAdmins_eq, hq]
  have hscan : scanAdminRow env row = .error (scanArityError 7 6) := by
    rw [scanAdminRow_width env row (by omega), hlen]
  simp only [findAdminsResult, hrows, scanAdmins, hscan]
  rfl

theorem C18_findAdmins_count_always_zero_witness :
    (findAdmins (rowsEnv [graceRow]) sampleTx allAdmins [.driver .BeginTx]).1
      = .ok ([{ ID := 3, Name := str "Grace", Surname := str "Hopper",
                Email := str "grace@x.com", Password := str "$2a$10$hash", Active := true }],
             0)
    ∧ (findAdmins (rowsEnv [graceCountRow]) sampleTx allAdmins [.driver .BeginTx]).1
      = .error (wrapStorage (rowsEnv [graceCountRow]) (str "postgres/admin.go") 204
          (str "Error scanning admins: ") (scanArityError 7 6)) :=
  ⟨by rfl, (C18_findAdmins_count_always_zero (rowsEnv [graceCountRow]) sampleTx allAdmins
    [.driver .BeginTx]).2.2 { rows := [graceCountRow], err := none }
    (graceCountRow) [] rfl rfl rfl⟩

theorem scanUsers_count (env : Env) (rows : List (List SqlValue)) :
    ∀ (users : List User) (n0 : Int) (us : List User) (n : Int),
      scanUsers env rows users n0 = .ok (us, n) →
      (rows = [] → n = n0)
      ∧ ∀ h : rows ≠ [], ∃ u, scanUserRow env (rows.getLast h) = .ok (u, n) := by
  induction rows with
  | nil =>
    intro users n0 us n h
    simp only [scanUsers, Except.ok.injEq, Prod.mk.injEq] at h
    exact ⟨fun _ => h.2.symm, fun hne => absurd rfl hne⟩
  | cons row rest ih =>
    intro users n0 us n h
    unfold scanUsers at h
    refine ⟨fun hnil => (by cases hnil), fun hne => ?_⟩
    split at h
    · simp at h
    · rename_i user n1 hrow
      obtain ⟨h0, h1⟩ := ih _ _ _ _ h
      cases rest with
      | nil =>
        have := h0 rfl
        subst this
        exact ⟨user, by simpa using hrow⟩
      | cons r2 rest2 =>
        obtain ⟨u, hu⟩ := h1 (List.cons_ne_nil _ _)
        exact ⟨u, by simpa [List.getLast_cons (List.cons_ne_nil r2 rest2)] using hu⟩

/-- C17: the count that `findUsers` returns is read from the rows of the
answer: it is the windowed count in the last row scanned, and it stays 0 when
the driver answers with no rows, as it does for a page past the last match,
whatever the number of users that match the filter. -/
theorem C17_findUsers_count_of_rows (env : Env) (tx : Tx) (filter : UserFilter) (tr : Trace)
    (rows : Rows)
    (hq : env.Query tr tx.sqlTx (findUsersQuery env filter).1 (findUsersQuery env filter).2
      = .ok rows) :
    (rows.rows = [] → rows.err = none → (findUsers env tx filter tr).1 = .ok ([], 0))
    ∧ (∀ (users : List User) (n : Int), (findUsers env tx filter tr).1 = .ok (users, n) →
        ∀ h : rows.rows ≠ [], ∃ u, scanUserRow env (rows.rows.getLast h) = .ok (u, n)) := by
  rw [findUsers_eq, hq]
  refine ⟨?_, ?_⟩
  · intro hr he
    simp [findUsersResult, hr, he, scanUsers]
  · intro users n h hne
    simp only [findUsersResult] at h
    split at h
    · simp at h
    · rename_i us m hs
      split at h
      · simp at h
      · simp only [Except.ok.injEq, Prod.mk.injEq] at h
        obtain ⟨_, hn⟩ := h
        subst hn
        exact (scanUsers_count env rows.rows [] 0 us m hs).2 hne

theorem C17_findUsers_count_of_rows_witness :
    (findUsers sampleEnv sampleTx { ID := none, Email := none, Page := 5, Limit := 10 }
      [.driver .BeginTx]).1 = .ok ([], 0) :=
  (C17_findUsers_count_of_rows sampleEnv sampleTx
    { ID := none, Email := none, Page := 5, Limit := 10 } [.driver .BeginTx]
    { rows := [], err := none } rfl).1 rfl rfl

/-! ## Theorems: updates -/

theorem ErrorCode_Errorf_ne_conflict (caller : Caller) (c m : GoString) (h : c ≠ ECONFLICT) :
    ErrorCode (some (.app (Errorf caller c m))) ≠ ECONFLICT := by
  show (Errorf caller c m).Code ≠ ECONFLICT
  rw [Errorf_Code]
  split
  · decide
  · exact h

theorem scanAdmins_error (env : Env) (rows : List (List SqlValue)) :
    ∀ (admins : List Admin) (e : GoError), scanAdmins env rows admins = .error e →
      ∃ caller m, e = .app (Errorf caller EINTERNAL m) := by
  induction rows with
  | nil => intro admins e h; simp [scanAdmins] at h
  | cons row rest ih =>
    intro admins e h
    unfold scanAdmins at h
    split at h
    · simp only [Except.error.injEq] at h
      exact ⟨_, _, h.symm⟩
    · exact ih _ _ h

theorem findAdmins_error (env : Env) (tx : Tx) (filter : AdminFilter) (tr tr1 : Trace)
    (e : GoError) (h : findAdmins env tx filter tr = (.error e, tr1)) :
    ∃ caller m, e = .app (Errorf caller EINTERNAL m) := by
  rw [findAdmins_eq] at h
  simp only [Prod.mk.injEq] at h
  obtain ⟨h1, _⟩ := h
  unfold findAdminsResult at h1
  split at h1
  · simp only [Except.error.injEq] at h1
    exact ⟨_, _, h1.symm⟩
  · split at h1
    · rename_i hs
      simp only [Except.error.injEq] at h1
      subst h1
      exact scanAdmins_error env _ _ _ hs
    · split at h1
      · simp only [Except.error.injEq] at h1
        exact ⟨_, _, h1.symm⟩
      · simp at h1

theorem findUserByID_error_code (env : Env) (tx : Tx) (id : Int) (tr tr1 : Trace) (e : GoError)
    (h : findUserByID env tx id tr = (.error e, tr1)) : ErrorCode (some e) ≠ ECONFLICT := by
  unfold findUserByID at h
  split at h
  · rename_i err tr2 hf
    simp only [Prod.mk.injEq, Except.error.injEq] at h
    obtain ⟨line, pre, d, hd⟩ := findUsers_error env tx _ tr tr2 err hf
    rw [← h.1, hd]
    exact ErrorCode_Errorf_ne_conflict _ _ _ (by decide)
  · simp only [Prod.mk.injEq, Except.error.injEq] at h
    rw [← h.1]
    exact ErrorCode_Errorf_ne_conflict _ _ _ (by decide)
  · simp at h

theorem updateUser_email_error_code (env : Env) (tx : Tx) (upd : UserUpdate) (user : User)
    (tr tr1 : Trace) (e : GoError)
    (h : updateUser_email env tx upd user tr = (.error e, tr1)) :
    ErrorCode (some e) ≠ ECONFLICT := by
  unfold updateUser_email at h
  split at h
  · split at h
    · rename_i err tr2 hf
      simp only [Prod.mk.injEq, Except.error.injEq] at h
      obtain ⟨caller, m, hd⟩ := findAdmins_error env tx _ tr tr2 err hf
      rw [← h.1, hd]
      exact ErrorCode_Errorf_ne_conflict _ _ _ (by decide)
    · rename_i a count tr2 hf
      have hz := findAdmins_count_zero env tx _ tr a count tr2 hf
      subst hz
      simp at h
  · simp at h

theorem updateUser_email_ok (env : Env) (tx : Tx) (upd : UserUpdate) (user : User)
    (tr tr1 : Trace) (u : User) (h : updateUser_email env tx upd user tr = (.ok u, tr1)) :
    u = { user with Email := if upd.Email.Set then upd.Email.Value else user.Email } := by
  unfold updateUser_email at h
  split at h
  · rename_i hset
    simp only [hset, if_true]
    split at h
    · simp at h
    · split at h
      · split at h
        · simp at h
        · split at h
          · simp at h
          · simp only [Prod.mk.injEq, Except.ok.injEq] at h
            exact h.1.symm
      · simp only [Prod.mk.injEq, Except.ok.injEq] at h
        exact h.1.symm
  · rename_i hset
    simp only [Prod.mk.injEq, Except.ok.injEq] at h
    simp [hset, ← h.1]

theorem updateUser_password_ok (env : Env) (upd : UserUpdate) (user u : User)
    (h : updateUser_password env upd user = .ok u) :
    u.ID = user.ID ∧ u.Name = user.Name ∧ u.Surname = user.Surname ∧ u.Email = user.Email
      ∧ u.Phone = user.Phone := by
  unfold updateUser_password at h
  split at h
  · split at h
    · simp at h
    · simp only [Except.ok.injEq] at h
      subst h
      exact ⟨rfl, rfl, rfl, rfl, rfl⟩
  · simp only [Except.ok.injEq] at h
    subst h
    exact ⟨rfl, rfl, rfl, rfl, rfl⟩

theorem updateUser_password_error_code (env : Env) (upd : UserUpdate) (user : User)
    (e : GoError) (h : updateUser_password env upd user = .error e) :
    ErrorCode (some e) ≠ ECONFLICT := by
  unfold updateUser_password at h
  split at h
  · unfold HashPassword at h
    split at h
    · rename_i hh
      split at hh
      · simp only [Except.error.injEq] at hh h
        rw [← h, ← hh]
        exact ErrorCode_Errorf_ne_conflict _ _ _ (by decide)
      · simp at hh
    · simp at h
  · simp at h

theorem User_Validate_error_code (parseAddress : GoString → Option GoError)
    (frame : Nat → Caller) (u : User) (e : GoError)
    (h : User.Validate parseAddress frame u = some e) : ErrorCode (some e) ≠ ECONFLICT := by
  unfold User.Validate at h
  split_ifs at h <;> simp only [Option.some.injEq] at h <;> subst h <;>
    exact ErrorCode_Errorf_ne_conflict _ _ _ (by decide)

theorem updateUser_ok (env : Env) (tx : Tx) (id : Int) (upd : UserUpdate) (tr : Trace)
    (user : User) (tr2 : Trace) (h : updateUser env tx id upd tr = (.ok user, tr2)) :
    ∃ (stored : User) (tr1 : Trace), findUserByID env tx id tr = (.ok stored, tr1)
      ∧ user.ID = stored.ID
      ∧ user.Name = (if upd.Surname.Set then upd.Surname.Value
          else if upd.Name.Set then upd.Name.Value else stored.Name)
      ∧ user.Surname = stored.Surname
      ∧ user.Email = (if upd.Email.Set then upd.Email.Value else stored.Email)
      ∧ user.Phone = stored.Phone := by
  unfold updateUser at h
  split at h
  · simp at h
  · rename_i stored tr1 hf
    refine ⟨stored, tr1, hf, ?_⟩
    simp only at h
    split at h
    · simp at h
    · rename_i u3 tr3 he
      have h3 := updateUser_email_ok env tx upd _ tr1 tr3 u3 he
      split at h
      · simp at h
      · rename_i u4 hp
        obtain ⟨p1, p2, p3, p4, p5⟩ := updateUser_password_ok env upd u3 u4 hp
        split at h
        · simp at h
        · split at h
          · simp at h
          · simp only [Prod.mk.injEq, Except.ok.injEq] at h
            obtain ⟨hu, _⟩ := h
            subst hu
            rw [p1, p2, p3, p4, p5, h3]
            by_cases hs : upd.Surname.Set = true <;> by_cases hn : upd.Name.Set = true <;>
              simp [hs, hn]

theorem updateUser_error_code (env : Env) (tx : Tx) (id : Int) (upd : UserUpdate) (tr : Trace)
    (e : GoError) (tr2 : Trace) (h : updateUser env tx id upd tr = (.error e, tr2)) :
    ErrorCode (some e) ≠ ECONFLICT := by
  unfold updateUser at h
  split at h
  · rename_i err tr1 hf
    simp only [Prod.mk.injEq, Except.error.injEq] at h
    rw [← h.1]
    exact findUserByID_error_code env tx id tr tr1 err hf
  · simp only at h
    split at h
    · rename_i err tr3 he
      simp only [Prod.mk.injEq, Except.error.injEq] at h
      rw [← h.1]
      exact updateUser_email_error_code env tx upd _ _ tr3 err he
    · split at h
      · rename_i err hp
        simp only [Prod.mk.injEq, Except.error.injEq] at h
        rw [← h.1]
        exact updateUser_password_error_code env upd _ err hp
      · split at h
        · rename_i err hv
          simp only [Prod.mk.injEq, Except.error.injEq] at h
          rw [← h.1]
          exact User_Validate_error_code _ _ _ err hv
        · split at h
          · simp only [Prod.mk.injEq, Except.error.injEq] at h
            rw [← h.1]
            exact ErrorCode_Errorf_ne_conflict _ _ _ (by decide)
          · simp at h

theorem updateAdmin_email_ok (env : Env) (tx : Tx) (upd : AdminUpdate) (admin : Admin)
    (tr tr1 : Trace) (a : Admin) (h : updateAdmin_email env tx upd admin tr = (.ok a, tr1)) :
    a = { admin with Email := if upd.Email.Set then upd.Email.Value else admin.Email } := by
  unfold updateAdmin_email at h
  split at h
  · rename_i hset
    simp only [hset, if_true]
    split at h
    · simp at h
    · split at h
      · split at h
        · simp at h
        · split at h
          · simp at h
          · simp only [Prod.mk.injEq, Except.ok.injEq] at h
            exact h.1.symm
      · simp only [Prod.mk.injEq, Except.ok.injEq] at h
        exact h.1.symm
  · rename_i hset
    simp only [Prod.mk.injEq, Except.ok.injEq] at h
    simp [hset, ← h.1]

theorem updateAdmin_password_ok (env : Env) (upd : AdminUpdate) (admin a : Admin)
    (h : updateAdmin_password env upd admin = .ok a) :
    a.Name = admin.Name ∧ a.Surname = admin.Surname := by
  unfold updateAdmin_password at h
  split at h
  · split at h
    · simp at h
    · simp only [Except.ok.injEq] at h
      subst h
      exact ⟨rfl, rfl⟩
  · simp only [Except.ok.injEq] at h
    subst h
    exact ⟨rfl, rfl⟩

theorem updateAdmin_ok (env : Env) (tx : Tx) (id : Int) (upd : AdminUpdate) (tr : Trace)
    (admin : Admin) (tr2 : Trace) (h : updateAdmin env tx id upd tr = (.ok admin, tr2)) :
    ∃ (stored : Admin) (tr1 : Trace), findAdminByID env tx id tr = (.ok stored, tr1)
      ∧ admin.Name = (if upd.Name.Set then upd.Name.Value else stored.Name)
      ∧ admin.Surname = (if upd.Surname.Set then upd.Surname.Value else stored.Surname) := by
  unfold updateAdmin at h
  split at h
  · simp at h
  · rename_i stored tr1 hf
    refine ⟨stored, tr1, hf, ?_⟩
    simp only at h
    split at h
    · simp at h
    · rename_i a3 tr3 he
      have h3 := updateAdmin_email_ok env tx upd _ tr1 tr3 a3 he
      split at h
      · simp at h
      · rename_i a4 hp
        obtain ⟨p1, p2⟩ := updateAdmin_password_ok env upd a3 a4 hp
        split at h
        · simp at h
        · split at h
          · simp at h
          · simp only [Prod.mk.injEq, Except.ok.injEq] at h
            obtain ⟨hu, _⟩ := h
            subst hu
            rw [p1, p2, h3]
            by_cases hs : upd.Surname.Set = true <;> by_cases hn : upd.Name.Set = true <;>
              simp [hs, hn]

/-- C11: what a successful `updateUser` returns. The `Surname` patch is assigned
to the field `Name`: the name is the value of the `Surname` patch when that is
set, else the value of the `Name` patch when that is set, else the stored name,
and the surname is the stored surname whatever the patches are. The sibling
`updateAdmin` assigns each of the two patches to its own field. -/
theorem C11_updateUser_surname_patch_sets_name (env : Env) (tx : Tx) (id : Int) (tr : Trace) :
    (∀ (upd : UserUpdate) (user : User) (tr2 : Trace),
        updateUser env tx id upd tr = (.ok user, tr2) →
        ∃ (stored : User) (tr1 : Trace), findUserByID env tx id tr = (.ok stored, tr1)
          ∧ user.Name = (if upd.Surname.Set then upd.Surname.Value
              else if upd.Name.Set then upd.Name.Value else stored.Name)
          ∧ user.Surname = stored.Surname)
    ∧ (∀ (upd : AdminUpdate) (admin : Admin) (tr2 : Trace),
        updateAdmin env tx id upd tr = (.ok admin, tr2) →
        ∃ (stored : Admin) (tr1 : Trace), findAdminByID env tx id tr = (.ok stored, tr1)
          ∧ admin.Name = (if upd.Name.Set then upd.Name.Value else stored.Name)
          ∧ admin.Surname
              = (if upd.Surname.Set then upd.Surname.Value else stored.Surname)) := by
  refine ⟨?_, fun upd admin tr2 h => updateAdmin_ok env tx id upd tr admin tr2 h⟩
  intro upd user tr2 h
  obtain ⟨stored, tr1, hf, _, hn, hs, _, _⟩ := updateUser_ok env tx id upd tr user tr2 h
  exact ⟨stored, tr1, hf, hn, hs⟩

theorem C11_updateUser_surname_patch_sets_name_witness :
    (findUserByID (usersEnv [adaRow]) sampleTx 7 [.driver .BeginTx]).1
      = .ok { ID := 7, Name := str "Ada", Surname := str "Lovelace", Email := str "ada@x.com",
              Password := str "$2a$10$hash", Phone := 5551234 }
    ∧ (updateUser (usersEnv [adaRow]) sampleTx 7 surnameByron [.driver .BeginTx]).1
      = .ok { ID := 7, Name := str "Byron", Surname := str "Lovelace",
              Email := str "ada@x.com", Password := str "$2a$10$hash", Phone := 5551234 }
    ∧ ∃ (stored : User) (tr1 : Trace),
        findUserByID (usersEnv [adaRow]) sampleTx 7 [.driver .BeginTx] = (.ok stored, tr1)
        ∧ str "Byron" = (if surnameByron.Surname.Set then surnameByron.Surname.Value
            else if surnameByron.Name.Set then surnameByron.Name.Value else stored.Name)
        ∧ str "Lovelace" = stored.Surname :=
  ⟨by rfl, by rfl,
    (C11_updateUser_surname_patch_sets_name (usersEnv [adaRow]) sampleTx 7
      [.driver .BeginTx]).1 surnameByron
      { ID := 7, Name := str "Byron", Surname := str "Lovelace", Email := str "ada@x.com",
        Password := str "$2a$10$hash", Phone := 5551234 } _ (by rfl)⟩

/-- C12: `updateUser` never returns an error of kind conflict. Its email lookup
is `findAdmins`, on the table `admin`, and the count that `findAdmins` returns
is always 0, so the test `count > 0` never holds: an update that gets through
the lookup, the hashing and the validation goes on to the `UPDATE` statement
with the new email among its arguments, and when the storage accepts that
statement the user is returned with the new email. -/
theorem C12_updateUser_never_conflict (env : Env) (tx : Tx) (id : Int) (upd : UserUpdate)
    (tr : Trace) :
    ErrorCode (errorOf (updateUser env tx id upd tr).1) ≠ str "conflict"
    ∧ wordAfter (str "FROM")
        (findAdminsQuery env
          { ID := none, Email := some upd.Email.Value, Page := 0, Limit := 0 }).1
      = some (str "admin")
    ∧ (∀ (user : User) (tr2 : Trace), updateUser env tx id upd tr = (.ok user, tr2) →
        upd.Email.Set = true → user.Email = upd.Email.Value) := by
  refine ⟨?_, rfl, ?_⟩
  · rcases h : updateUser env tx id upd tr with ⟨r, tr2⟩
    cases r with
    | error e => exact updateUser_error_code env tx id upd tr e tr2 h
    | ok user => exact (by decide : str "" ≠ str "conflict")
  · intro user tr2 h hset
    obtain ⟨stored, tr1, _, _, _, _, he, _⟩ := updateUser_ok env tx id upd tr user tr2 h
    rw [he, hset]
    rfl

theorem C12_updateUser_never_conflict_witness :
    updateUser (usersEnv [bobRow, adaRow]) sampleTx 8 emailOfAda [.driver .BeginTx]
      = (.ok { ID := 8, Name := str "Bob", Surname := str "Babbage", Email := str "ada@x.com",
               Password := str "$2a$10$hash", Phone := 5555678 },
          [.driver .BeginTx,
            .driver (.Query 0
              (findUsersQuery (usersEnv [bobRow, adaRow])
                { ID := some 8, Email := none, Page := 0, Limit := 0 }).1 [.int 8]),
            .driver (.Query 0
              (findAdminsQuery (usersEnv [bobRow, adaRow])
                { ID := none, Email := some (str "ada@x.com"), Page := 0, Limit := 0 }).1
              [.text (str "ada@x.com")]),
            .driver (.Exec 0
              (str "\n\t\tUPDATE admins SET\n\t\t\tname = $2,\n\t\t\tsurname = $6,\n\t\t\temail = $3,\n\t\t\tpassword = $4,\n\t\t\tphone = $5,\n\t\tWHERE id = $1\n\t")
              [.int 8, .text (str "Bob"), .text (str "ada@x.com"), .text (str "$2a$10$hash"),
                .int 5555678, .text (str "Babbage")])])
    ∧ str "ada@x.com" = emailOfAda.Email.Value :=
  ⟨by rfl,
    (C12_updateUser_never_conflict (usersEnv [bobRow, adaRow]) sampleTx 8 emailOfAda
      [.driver .BeginTx]).2.2
      { ID := 8, Name := str "Bob", Surname := str "Babbage", Email := str "ada@x.com",
        Password := str "$2a$10$hash", Phone := 5555678 } _ (by rfl) rfl⟩

/-! ## Theorems: the statements that write -/

/-- C13: the statement that `createAdmin` sends and the admin it returns. The
statement lists the columns name, surname, email, password, active and the
values `$1` to `$5`, but the arguments are passed in the order name, email,
password hash, active, surname: the column surname receives the email, email
the password hash, password the value true and active the surname. The admin
returned has the input fields, the hash, `Active = true` and the id that the
storage answers. -/
theorem C13_createAdmin_argument_order (env : Env) (tx : Tx) (crt : AdminCreate) (tr : Trace)
    (p : GoString) (hh : env.GenerateFromPassword crt.Password = .ok p)
    (hv : Admin.Validate env.parseAddress (env.frames (str "app/admin.go"))
      { ID := 0, Name := crt.Name, Email := crt.Email, Surname := crt.Surname,
        Password := p, Active := true } = none) :
    (createAdmin env tx crt tr).2
      = tr ++ [.driver (.QueryRow tx.sqlTx createAdminStatement
          [.text crt.Name, .text crt.Email, .text p, .bool true, .text crt.Surname])]
    ∧ wordAfter (str "INTO") createAdminStatement = some (str "admin")
    ∧ insertBinding createAdminStatement
        [.text crt.Name, .text crt.Email, .text p, .bool true, .text crt.Surname]
      = [(str "name", some (.text crt.Name)), (str "surname", some (.text crt.Email)),
         (str "email", some (.text p)), (str "password", some (.bool true)),
         (str "active", some (.text crt.Surname))]
    ∧ (∀ admin : Admin, (createAdmin env tx crt tr).1 = .ok admin →
        admin = { ID := admin.ID, Name := crt.Name, Surname := crt.Surname,
                  Email := crt.Email, Password := p, Active := true }
        ∧ ∃ c0 : SqlValue,
            env.QueryRow tr tx.sqlTx createAdminStatement
              [.text crt.Name, .text crt.Email, .text p, .bool true, .text crt.Surname]
              = .ok [c0]
            ∧ env.convInt64 0 c0 = .ok admin.ID) := by
  have hq : createAdminStatement = str "\n\t\tINSERT INTO admin (name, surname, email, password, active)\n\t\tVALUES ($1, $2, $3, $4, $5)\n\t\tRETURNING id\n\t" := rfl
  refine ⟨?_, rfl, rfl, ?_⟩
  · simp only [createAdmin, HashPassword, hh, hv, hq]
    split <;> rfl
  · intro admin h
    simp only [createAdmin, HashPassword, hh, hv, ← hq] at h
    split at h
    · simp at h
    · rename_i id hs
      simp only [Except.ok.injEq] at h
      subst h
      refine ⟨rfl, ?_⟩
      split at hs
      · simp at hs
      · rename_i c0 hrow
        exact ⟨c0, hrow, hs⟩
      · simp at hs

theorem C13_createAdmin_argument_order_witness :
    (createAdmin sampleEnv sampleTx graceCreate [.driver .BeginTx]).2
      = [.driver .BeginTx] ++ [.driver (.QueryRow 0 createAdminStatement
          [.text (str "Grace"), .text (str "grace@x.com"), .text (str "$2a$10$secret"),
            .bool true, .text (str "Hopper")])]
    ∧ insertBinding createAdminStatement
        [.text (str "Grace"), .text (str "grace@x.com"), .text (str "$2a$10$secret"),
          .bool true, .text (str "Hopper")]
      = [(str "name", some (.text (str "Grace"))),
         (str "surname", some (.text (str "grace@x.com"))),
         (str "email", some (.text (str "$2a$10$secret"))),
         (str "password", some (.bool true)),
         (str "active", some (.text (str "Hopper")))] :=
  ⟨(C13_createAdmin_argument_order sampleEnv sampleTx graceCreate [.driver .BeginTx]
      (str "$2a$10$secret") rfl (by rfl)).1,
    (C13_createAdmin_argument_order sampleEnv sampleTx graceCreate [.driver .BeginTx]
      (str "$2a$10$secret") rfl (by rfl)).2.2.1⟩

theorem findUserByID_eq (env : Env) (tx : Tx) (id : Int) (tr : Trace) :
    findUserByID env tx id tr
      = (findUserByIDResult env (findUsersResult env
          (env.Query tr tx.sqlTx (findUsersQuery env (userByID id)).1
            (findUsersQuery env (userByID id)).2)),
        tr ++ [.driver (.Query tx.sqlTx (findUsersQuery env (userByID id)).1
          (findUsersQuery env (userByID id)).2)]) := by
  unfold findUserByID
  rw [show ({ ID := some id, Email := none, Page := 0, Limit := 0 } : UserFilter) = userByID id
    from rfl, findUsers_eq]
  unfold findUserByIDResult
  split
  · rename_i heq
    simp only [Prod.mk.injEq] at heq
    simp [heq.1, heq.2]
  · rename_i heq
    simp only [Prod.mk.injEq] at heq
    simp [heq.1, heq.2]
  · rename_i heq
    simp only [Prod.mk.injEq] at heq
    simp [heq.1, heq.2]

/-- C16: a `deleteUser` that returns no error has looked the user up in the
table `users` and then sent one statement, `DELETE FROM user`, which names the
table `user`. Whenever the storage then answers the lookup on `users` as it did
before, a second `deleteUser` finds the same user again and does not return an
error of kind not_found. -/
theorem C16_deleteUser_names_another_table (env : Env) (tx : Tx) (id : Int) (tr tr2 : Trace)
    (h : deleteUser env tx id tr = (none, tr2)) :
    ∃ user : User,
      (findUserByID env tx id tr).1 = .ok user
      ∧ tr2 = tr ++ [.driver (.Query tx.sqlTx (findUsersQuery env (userByID id)).1
            (findUsersQuery env (userByID id)).2),
          .driver (.Exec tx.sqlTx deleteUserStatement [.int user.ID])]
      ∧ wordAfter (str "FROM") deleteUserStatement = some (str "user")
      ∧ wordAfter (str "FROM") (findUsersQuery env (userByID id)).1 = some (str "users")
      ∧ ∀ (tx2 : Tx) (tr3 : Trace),
          env.Query tr3 tx2.sqlTx (findUsersQuery env (userByID id)).1
              (findUsersQuery env (userByID id)).2
            = env.Query tr tx.sqlTx (findUsersQuery env (userByID id)).1
              (findUsersQuery env (userByID id)).2 →
          (findUserByID env tx2 id tr3).1 = .ok user
          ∧ ErrorCode (deleteUser env tx2 id tr3).1 ≠ str "not_found" := by
  have hq : deleteUserStatement = str "\n\t\tDELETE FROM user\n\t\tWHERE id = $1\n\t" := rfl
  unfold deleteUser at h
  rw [findUserByID_eq] at h
  rcases hr : findUserByIDResult env (findUsersResult env
      (env.Query tr tx.sqlTx (findUsersQuery env (userByID id)).1
        (findUsersQuery env (userByID id)).2)) with e | user
  · rw [hr] at h
    simp at h
  · rw [hr] at h
    simp only at h
    refine ⟨user, by rw [findUserByID_eq, hr], ?_, rfl, rfl, ?_⟩
    · split at h
      · simp at h
      · simp only [Prod.mk.injEq, true_and] at h
        rw [← h, hq]
        simp
    · intro tx2 tr3 hsame
      have h2 : findUserByID env tx2 id tr3
          = (.ok user, tr3 ++ [.driver (.Query tx2.sqlTx (findUsersQuery env (userByID id)).1
              (findUsersQuery env (userByID id)).2)]) := by
        rw [findUserByID_eq, hsame, hr]
      refine ⟨by rw [h2], ?_⟩
      unfold deleteUser
      rw [h2]
      simp only
      split
      · exact ErrorCode_wrapStorage_ne_not_found env _ _ _ _
      · exact (by decide : str "" ≠ str "not_found")

theorem C16_deleteUser_names_another_table_witness :
    (ServiceOp.DeleteUser 7).run (usersEnv [adaRow]) sampleDB { tx := none } []
      = (none,
          [.driver .BeginTx,
            .driver (.Query 0 (findUsersQuery (usersEnv [adaRow]) (userByID 7)).1 [.int 7]),
            .driver (.Exec 0 deleteUserStatement [.int 7]),
            .call .Commit sampleTx, .driver (.Commit 0),
            .call .Rollback sampleTx, .driver (.Rollback 0)])
    ∧ ((ServiceOp.DeleteUser 7).run (usersEnv [adaRow]) sampleDB { tx := none }
        [.driver .BeginTx,
          .driver (.Query 0 (findUsersQuery (usersEnv [adaRow]) (userByID 7)).1 [.int 7]),
          .driver (.Exec 0 deleteUserStatement [.int 7]),
          .call .Commit sampleTx, .driver (.Commit 0),
          .call .Rollback sampleTx, .driver (.Rollback 0)]).1 = none
    ∧ (usersEnv [adaRow]).Query
        [.driver (.Exec 0 (str "DELETE FROM users WHERE id = $1") [.int 7])] 0
        (findUsersQuery (usersEnv [adaRow]) (userByID 7)).1 [.int 7]
      = .ok { rows := [], err := none }
    ∧ ∃ user : User,
        (findUserByID (usersEnv [adaRow]) sampleTx 7 [.driver .BeginTx]).1 = .ok user
        ∧ ∀ (tx2 : Tx) (tr3 : Trace),
            (usersEnv [adaRow]).Query tr3 tx2.sqlTx
                (findUsersQuery (usersEnv [adaRow]) (userByID 7)).1
                (findUsersQuery (usersEnv [adaRow]) (userByID 7)).2
              = (usersEnv [adaRow]).Query [.driver .BeginTx] sampleTx.sqlTx
                (findUsersQuery (usersEnv [adaRow]) (userByID 7)).1
                (findUsersQuery (usersEnv [adaRow]) (userByID 7)).2 →
            (findUserByID (usersEnv [adaRow]) tx2 7 tr3).1 = .ok user
            ∧ ErrorCode (deleteUser (usersEnv [adaRow]) tx2 7 tr3).1 ≠ str "not_found" := by
  refine ⟨by rfl, by rfl, by rfl, ?_⟩
  obtain ⟨user, h1, _, _, _, h5⟩ := C16_deleteUser_names_another_table (usersEnv [adaRow])
    sampleTx 7 [.driver .BeginTx]
    [.driver .BeginTx,
      .driver (.Query 0 (findUsersQuery (usersEnv [adaRow]) (userByID 7)).1 [.int 7]),
      .driver (.Exec 0 deleteUserStatement [.int 7])] (by rfl)
  exact ⟨user, h1, h5⟩

/-! ## Theorems: errors that are not classified -/

theorem ErrorCode_of_errorsAs_none (g : GoError) (h : errorsAs g = none) :
    ErrorCode (some g) = EINTERNAL := by
  simp [ErrorCode, h]

theorem ErrorCode_of_errorsAs_some (g : GoError) (e : Error) (h : errorsAs g = some e) :
    ErrorCode (some g) = e.Code := by
  simp [ErrorCode, h]

theorem ErrorMessage_of_errorsAs_some (g : GoError) (e : Error) (h : errorsAs g = some e) :
    ErrorMessage (some g) = e.Message := by
  simp [ErrorMessage, h]

theorem LogErr_level (stackCaller : Int → Caller) (logger : List LogRecord)
    (err : Option GoError) (addSkip : List Int) :
    ∃ r : LogRecord, LogErr stackCaller logger err addSkip = logger ++ [r]
      ∧ r.msg = ErrorMessage err
      ∧ r.lvl = (if ErrorCode err = EINTERNAL ∨ ErrorCode err = EINTERNAL_INVALID
          ∨ ErrorCode err = EUNKNOWN ∨ ErrorCode err = ECONFLICT
          ∨ ErrorCode err = ENOTINJECTED then Lvl.Error
        else if ErrorCode err = ENOTIMPLEMENTED ∨ ErrorCode err = ECANCELED
          ∨ ErrorCode err = EFORBIDDEN then Lvl.Warn
        else Lvl.Info) := by
  unfold LogErr
  simp only
  split_ifs with h1 h2
  · exact ⟨_, rfl, rfl, rfl⟩
  · exact ⟨_, rfl, rfl, rfl⟩
  · exact ⟨_, rfl, rfl, rfl⟩

/-- C21: for every non-nil error that neither is nor wraps an `*app.Error` (no
`*app.Error` in its unwrap chain), `ErrorCode` returns "internal",
`StatusCodeFromErr` returns 500, `LogErr` issues one log call, at Error
severity, and the envelope built by `NewErrorAPI` has the code "internal"; for
the nil error `ErrorCode` returns the empty string. -/
theorem C21_unclassified_error_is_internal (stackCaller : Int → Caller)
    (logger : List LogRecord) (addSkip : List Int) (details : Option GoString) (g : GoError)
    (h : errorsAs g = none) :
    ErrorCode (some g) = str "internal"
    ∧ StatusCodeFromErr (some g) = 500
    ∧ (∃ r : LogRecord, LogErr stackCaller logger (some g) addSkip = logger ++ [r]
        ∧ r.lvl = Lvl.Error)
    ∧ (NewErrorAPI (some g) details).Code = str "internal"
    ∧ ErrorCode none = str "" := by
  have hc := ErrorCode_of_errorsAs_none g h
  refine ⟨hc, ?_, ?_, hc, rfl⟩
  · unfold StatusCodeFromErr
    rw [hc]
    rfl
  · obtain ⟨r, hr, _, hl⟩ := LogErr_level stackCaller logger (some g) addSkip
    refine ⟨r, hr, ?_⟩
    rw [hl, hc]
    simp

theorem C21_unclassified_error_is_internal_witness :
    ErrorCode (some (GoError.wrap (str "reading config: disk failure") diskError))
      = str "internal"
    ∧ StatusCodeFromErr (some (GoError.wrap (str "reading config: disk failure") diskError))
      = 500
    ∧ (∃ r : LogRecord,
        LogErr sampleCaller [] (some (GoError.wrap (str "reading config: disk failure")
          diskError)) [] = [] ++ [r]
        ∧ r.lvl = Lvl.Error)
    ∧ (NewErrorAPI (some (GoError.wrap (str "reading config: disk failure") diskError))
        none).Code = str "internal"
    ∧ ErrorCode none = str "" :=
  C21_unclassified_error_is_internal sampleCaller [] [] none
    (.wrap (str "reading config: disk failure") diskError) rfl

/-! ## Theorems: what is shown and logged of a classified error -/

/-- C22 (amended): for every error that is or wraps an `*app.Error` of kind
internal or unknown, `MessageFromErr` returns the generic phrase whatever the
message of the error is, so two such errors produce the same external message.
For an `*app.Error` of kind internal_invalid or not_injected `MessageFromErr`
returns the message of the error, unless that is empty. -/
theorem C22_MessageFromErr_hides_internal_and_unknown (g : GoError) (e : Error)
    (h : errorsAs g = some e) :
    ((e.Code = str "internal" ∨ e.Code = str "unknown") →
      MessageFromErr (some g) = str "An error occurred"
      ∧ ∀ (g2 : GoError) (e2 : Error), errorsAs g2 = some e2 →
          (e2.Code = str "internal" ∨ e2.Code = str "unknown") →
          MessageFromErr (some g2) = MessageFromErr (some g))
    ∧ ((e.Code = str "internal_invalid" ∨ e.Code = str "not_injected") →
      MessageFromErr (some g)
        = if e.Message = str "" then str "An error occurred" else e.Message) := by
  have hidden : ∀ (g1 : GoError) (e1 : Error), errorsAs g1 = some e1 →
      (e1.Code = str "internal" ∨ e1.Code = str "unknown") →
      MessageFromErr (some g1) = str "An error occurred" := by
    intro g1 e1 h1 hk
    unfold MessageFromErr
    simp only [ErrorCode_of_errorsAs_some g1 e1 h1]
    have hk' : e1.Code = EINTERNAL ∨ e1.Code = EUNKNOWN := hk
    rw [if_pos (Or.inr hk')]
    rfl
  refine ⟨fun hk => ⟨hidden g e h hk, fun g2 e2 h2 hk2 => ?_⟩, fun hk => ?_⟩
  · rw [hidden g e h hk, hidden g2 e2 h2 hk2]
  · unfold MessageFromErr
    simp only [ErrorCode_of_errorsAs_some g e h, ErrorMessage_of_errorsAs_some g e h]
    have h1 : e.Code ≠ EINTERNAL := by
      rcases hk with hk | hk <;> rw [hk] <;> decide
    have h2 : e.Code ≠ EUNKNOWN := by
      rcases hk with hk | hk <;> rw [hk] <;> decide
    by_cases hm : e.Message = str ""
    · simp [hm, GenericErrorMessage]
    · simp [hm, h1, h2]

theorem C22_MessageFromErr_hides_internal_and_unknown_witness :
    MessageFromErr (some (appError (str "unknown") (str "nil pointer in handler")))
      = str "An error occurred"
    ∧ ∀ (g2 : GoError) (e2 : Error), errorsAs g2 = some e2 →
        (e2.Code = str "internal" ∨ e2.Code = str "unknown") →
        MessageFromErr (some g2)
          = MessageFromErr (some (appError (str "unknown") (str "nil pointer in handler"))) :=
  (C22_MessageFromErr_hides_internal_and_unknown
    (appError (str "unknown") (str "nil pointer in handler"))
    { Code := str "unknown", Message := str "nil pointer in handler",
      OriginFile := str "main.go:1", OriginFn := str "main" } rfl).1 (Or.inr rfl)

/-- C22 as stated fails for the kinds internal_invalid and not_injected: the
message of such an error is shown externally, and two errors of the same kind
with different messages produce different external messages. -/
theorem C22_internal_invalid_message_is_shown :
    MessageFromErr (some (appError (str "internal_invalid") (str "Nome file obbligatorio")))
      = str "Nome file obbligatorio"
    ∧ MessageFromErr (some (appError (str "internal_invalid") (str "MimeType obbligatorio")))
      = str "MimeType obbligatorio"
    ∧ MessageFromErr (some (appError (str "internal_invalid") (str "Nome file obbligatorio")))
      ≠ MessageFromErr (some (appError (str "internal_invalid") (str "MimeType obbligatorio")))
    ∧ MessageFromErr (some (appError (str "not_injected") (str "logger missing")))
      = str "logger missing" := by
  refine ⟨by rfl, by rfl, by decide, by rfl⟩

/-- C23 (amended): for every error whose kind is listed neither in the status
table `codes` nor in the severity lists of `LogErr` (exists,
email_already_in_use, the empty code of the nil error, any unrecognised code),
`StatusCodeFromErr` gives 500 and `LogErr` issues one log call, at Info
severity. -/
theorem C23_unlisted_kind_status_and_severity (stackCaller : Int → Caller)
    (logger : List LogRecord) (addSkip : List Int) (err : Option GoError)
    (hs : ErrorCode err ∉ [str "conflict", str "forbidden", str "invalid", str "not_found",
      str "not_implemented", str "unauthorized", str "not_authenticated",
      str "should_logout", str "internal", str "unavailable"])
    (hl : ErrorCode err ∉ [str "internal", str "internal_invalid", str "unknown",
      str "conflict", str "not_injected", str "not_implemented", str "canceled",
      str "forbidden"]) :
    StatusCodeFromErr err = 500
    ∧ ∃ r : LogRecord, LogErr stackCaller logger err addSkip = logger ++ [r]
        ∧ r.msg = ErrorMessage err ∧ r.lvl = Lvl.Info := by
  refine ⟨?_, ?_⟩
  · unfold StatusCodeFromErr
    simp only [mapIndex_codes_none (ErrorCode err) hs]
  · obtain ⟨r, hr, hm, hlvl⟩ := LogErr_level stackCaller logger err addSkip
    refine ⟨r, hr, hm, ?_⟩
    simp only [List.mem_cons, List.mem_singleton, List.not_mem_nil, or_false, not_or] at hl
    obtain ⟨h1, h2, h3, h4, h5, h6, h7, h8⟩ := hl
    rw [hlvl, if_neg, if_neg]
    · rintro (h | h | h)
      · exact h6 h
      · exact h7 h
      · exact h8 h
    · rintro (h | h | h | h | h)
      · exact h1 h
      · exact h2 h
      · exact h3 h
      · exact h4 h
      · exact h5 h

theorem C23_unlisted_kind_status_and_severity_witness :
    StatusCodeFromErr (some (appError (str "email_already_in_use") (str "Email taken"))) = 500
    ∧ ∃ r : LogRecord,
        LogErr sampleCaller [] (some (appError (str "email_already_in_use")
          (str "Email taken"))) [] = [] ++ [r]
        ∧ r.msg = ErrorMessage (some (appError (str "email_already_in_use")
          (str "Email taken")))
        ∧ r.lvl = Lvl.Info :=
  C23_unlisted_kind_status_and_severity sampleCaller [] []
    (some (appError (str "email_already_in_use") (str "Email taken"))) (by decide) (by decide)

/-- C23 as stated fails: an error of kind exists, listed neither in the status
table nor in the severity lists, gets the status 500 but is logged at Info
severity, not at Error severity. -/
theorem C23_unlisted_kind_is_logged_at_Info :
    StatusCodeFromErr (some (appError (str "exists") (str "User exists"))) = 500
    ∧ LogErr sampleCaller [] (some (appError (str "exists") (str "User exists"))) []
      = [{ lvl := Lvl.Info, msg := str "User exists",
           ctx := [str "code", str "exists", str "origin_file", str "main.go:1",
             str "origin_fn", str "main", str "log_file", formatInt 1, str "log_fn",
             str "handler"] }]
    ∧ Lvl.Info ≠ Lvl.Error := by
  refine ⟨by rfl, by rfl, by decide⟩

/-- C24: `ErrorMessage` returns the text of `err.Error()` for a non-nil error
with no `*app.Error` in its unwrap chain, not a fixed text; it returns the
message of the first `*app.Error` of the chain when there is one, and the empty
string for nil. -/
theorem C24_ErrorMessage_returns_error_text (g : GoError) :
    (errorsAs g = none → ErrorMessage (some g) = g.Error)
    ∧ (∀ e : Error, errorsAs g = some e → ErrorMessage (some g) = e.Message)
    ∧ ErrorMessage none = str ""
    ∧ ErrorMessage (some diskError) = str "disk failure"
    ∧ ErrorMessage (some diskError) ≠ str "Internal error" := by
  refine ⟨fun h => by simp [ErrorMessage, h],
    fun e h => ErrorMessage_of_errorsAs_some g e h, rfl, by rfl, by decide⟩

/-! ## Theorems: the password check -/

theorem ne_passwordRequired_of_head (m : GoString) (b : Nat) (h : m.head? = some b)
    (hb : b ≠ 80) : m ≠ str "Password is required" := by
  intro hm
  rw [hm] at h
  have h80 : (str "Password is required").head? = some 80 := rfl
  rw [h80] at h
  simp only [Option.some.injEq] at h
  exact hb h.symm

theorem site_message_head (env : Env) (s : GoString × Nat × GoString) (hs : s ∈ storageSites)
    (d : GoError) :
    (ErrorMessage (some (wrapStorage env s.1 s.2.1 s.2.2 d))).head? = some 69 := by
  simp only [storageSites, List.mem_cons, List.mem_singleton, List.not_mem_nil, or_false] at hs
  rcases hs with h | h | h | h | h | h | h | h | h | h | h | h <;> subst h <;> rfl

theorem site_message_ne_passwordRequired (env : Env) (e : GoError)
    (h : ∃ s ∈ storageSites, ∃ d, e = wrapStorage env s.1 s.2.1 s.2.2 d) :
    ErrorMessage (some e) ≠ str "Password is required" := by
  obtain ⟨s, hs, d, rfl⟩ := h
  exact ne_passwordRequired_of_head _ 69 (site_message_head env s hs d) (by decide)

theorem findUsers_error_site (env : Env) (tx : Tx) (filter : UserFilter) (tr tr1 : Trace)
    (e : GoError) (h : findUsers env tx filter tr = (.error e, tr1)) :
    ∃ s ∈ storageSites, ∃ d, e = wrapStorage env s.1 s.2.1 s.2.2 d := by
  rw [findUsers_eq] at h
  simp only [Prod.mk.injEq] at h
  obtain ⟨h1, _⟩ := h
  unfold findUsersResult at h1
  split at h1
  · rename_i d _
    simp only [Except.error.injEq] at h1
    exact ⟨(str "postgres/user.go", 201, str "Error querying user: "), by decide, d, h1.symm⟩
  · split at h1
    · rename_i hs
      simp only [Except.error.injEq] at h1
      subst h1
      obtain ⟨d, hd⟩ := scanUsers_error env _ _ _ _ hs
      exact ⟨(str "postgres/user.go", 220, str "Error scanning user: "), by decide, d, hd⟩
    · split at h1
      · rename_i d _
        simp only [Except.error.injEq] at h1
        exact ⟨(str "postgres/user.go", 227, str "Error iterating user: "), by decide, d,
          h1.symm⟩
      · simp at h1

theorem scanAdmins_error_site (env : Env) (rows : List (List SqlValue)) :
    ∀ (admins : List Admin) (e : GoError), scanAdmins env rows admins = .error e →
      ∃ d, e = wrapStorage env (str "postgres/admin.go") 204 (str "Error scanning admins: ")
        d := by
  induction rows with
  | nil => intro admins e h; simp [scanAdmins] at h
  | cons row rest ih =>
    intro admins e h
    unfold scanAdmins at h
    split at h
    · rename_i d _
      simp only [Except.error.injEq] at h
      exact ⟨d, h.symm⟩
    · exact ih _ _ h

theorem findAdmins_error_site (env : Env) (tx : Tx) (filter : AdminFilter) (tr tr1 : Trace)
    (e : GoError) (h : findAdmins env tx filter tr = (.error e, tr1)) :
    ∃ s ∈ storageSites, ∃ d, e = wrapStorage env s.1 s.2.1 s.2.2 d := by
  rw [findAdmins_eq] at h
  simp only [Prod.mk.injEq] at h
  obtain ⟨h1, _⟩ := h
  unfold findAdminsResult at h1
  split at h1
  · rename_i d _
    simp only [Except.error.injEq] at h1
    exact ⟨(str "postgres/admin.go", 186, str "Error querying admin: "), by decide, d,
      h1.symm⟩
  · split at h1
    · rename_i hs
      simp only [Except.error.injEq] at h1
      subst h1
      obtain ⟨d, hd⟩ := scanAdmins_error_site env _ _ _ hs
      exact ⟨(str "postgres/admin.go", 204, str "Error scanning admins: "), by decide, d, hd⟩
    · split at h1
      · rename_i d _
        simp only [Except.error.injEq] at h1
        exact ⟨(str "postgres/admin.go", 211, str "Error iterating admins: "), by decide, d,
          h1.symm⟩
      · simp at h1

theorem findUserByID_error_message (env : Env) (tx : Tx) (id : Int) (tr tr1 : Trace)
    (e : GoError) (h : findUserByID env tx id tr = (.error e, tr1)) :
    ErrorMessage (some e) ≠ str "Password is required" := by
  unfold findUserByID at h
  split at h
  · rename_i err tr2 hf
    simp only [Prod.mk.injEq, Except.error.injEq] at h
    rw [← h.1]
    exact site_message_ne_passwordRequired env err (findUsers_error_site env tx _ tr tr2 err hf)
  · simp only [Prod.mk.injEq, Except.error.injEq] at h
    rw [← h.1]
    show str "User not found" ≠ str "Password is required"
    decide
  · simp at h

theorem findAdminByID_error_message (env : Env) (tx : Tx) (id : Int) (tr tr1 : Trace)
    (e : GoError) (h : findAdminByID env tx id tr = (.error e, tr1)) :
    ErrorMessage (some e) ≠ str "Password is required" := by
  unfold findAdminByID at h
  split at h
  · rename_i err tr2 hf
    simp only [Prod.mk.injEq, Except.error.injEq] at h
    rw [← h.1]
    exact site_message_ne_passwordRequired env err
      (findAdmins_error_site env tx _ tr tr2 err hf)
  · simp only [Prod.mk.injEq, Except.error.injEq] at h
    rw [← h.1]
    show str "Admin not found" ≠ str "Password is required"
    decide
  · simp at h

theorem updateUser_email_error_message (env : Env) (tx : Tx) (upd : UserUpdate) (user : User)
    (tr tr1 : Trace) (e : GoError)
    (h : updateUser_email env tx upd user tr = (.error e, tr1)) :
    ErrorMessage (some e) ≠ str "Password is required" := by
  unfold updateUser_email at h
  split at h
  · split at h
    · rename_i err tr2 hf
      simp only [Prod.mk.injEq, Except.error.injEq] at h
      rw [← h.1]
      exact site_message_ne_passwordRequired env err
        (findAdmins_error_site env tx _ tr tr2 err hf)
    · rename_i a count tr2 hf
      have hz := findAdmins_count_zero env tx _ tr a count tr2 hf
      subst hz
      simp at h
  · simp at h

theorem updateAdmin_email_error_message (env : Env) (tx : Tx) (upd : AdminUpdate)
    (admin : Admin) (tr tr1 : Trace) (e : GoError)
    (h : updateAdmin_email env tx upd admin tr = (.error e, tr1)) :
    ErrorMessage (some e) ≠ str "Password is required" := by
  unfold updateAdmin_email at h
  split at h
  · split at h
    · rename_i err tr2 hf
      simp only [Prod.mk.injEq, Except.error.injEq] at h
      rw [← h.1]
      exact site_message_ne_passwordRequired env err
        (findAdmins_error_site env tx _ tr tr2 err hf)
    · rename_i a count tr2 hf
      have hz := findAdmins_count_zero env tx _ tr a count tr2 hf
      subst hz
      simp at h
  · simp at h

theorem User_Validate_message (parseAddress : GoString → Option GoError)
    (frame : Nat → Caller) (u : User) (hp : u.Password ≠ str "") :
    ErrorMessage (User.Validate parseAddress frame u) ≠ str "Password is required" := by
  unfold User.Validate
  split_ifs with h1 h2 h3 h4
  · show str "Name is required" ≠ str "Password is required"
    decide
  · show str "Surname is required" ≠ str "Password is required"
    decide
  · show str "Email is required" ≠ str "Password is required"
    decide
  · show str "Phone is required" ≠ str "Password is required"
    decide
  · show str "" ≠ str "Password is required"
    decide

theorem Admin_Validate_message (parseAddress : GoString → Option GoError)
    (frame : Nat → Caller) (a : Admin) (hp : a.Password ≠ str "") :
    ErrorMessage (Admin.Validate parseAddress frame a) ≠ str "Password is required" := by
  unfold Admin.Validate
  split_ifs with h1 h2 h3
  · show str "Name is required" ≠ str "Password is required"
    decide
  · show str "Surname is required" ≠ str "Password is required"
    decide
  · show str "Email is invalid" ≠ str "Password is required"
    decide
  · show str "" ≠ str "Password is required"
    decide

theorem User_Validate_none (parseAddress : GoString → Option GoError) (frame : Nat → Caller)
    (u : User) (h1 : u.Name ≠ str "") (h2 : u.Surname ≠ str "")
    (h3 : parseAddress u.Email = none) (h4 : u.Password ≠ str "") (h5 : u.Phone ≠ 0) :
    User.Validate parseAddress frame u = none := by
  simp [User.Validate, h1, h2, h3, h4, h5]

theorem Admin_Validate_none (parseAddress : GoString → Option GoError) (frame : Nat → Caller)
    (a : Admin) (h1 : a.Name ≠ str "") (h2 : a.Surname ≠ str "")
    (h3 : parseAddress a.Email = none) (h4 : a.Password ≠ str "") :
    Admin.Validate parseAddress frame a = none := by
  simp [Admin.Validate, h1, h2, h3, h4]

theorem createUser_message (env : Env) (tx : Tx) (crt : UserCreate) (tr : Trace)
    (p : GoString) (hh : env.GenerateFromPassword crt.Password = .ok p) (hp : p ≠ str "") :
    ErrorMessage (errorOf (createUser env tx crt tr).1) ≠ str "Password is required" := by
  unfold createUser
  simp only [HashPassword, hh]
  split
  · rename_i err hv
    show ErrorMessage (some err) ≠ _
    rw [← hv]
    exact User_Validate_message _ _ _ hp
  · split
    · exact ne_passwordRequired_of_head _ 69 rfl (by decide)
    · show str "" ≠ str "Password is required"
      decide

theorem createAdmin_message (env : Env) (tx : Tx) (crt : AdminCreate) (tr : Trace)
    (p : GoString) (hh : env.GenerateFromPassword crt.Password = .ok p) (hp : p ≠ str "") :
    ErrorMessage (errorOf (createAdmin env tx crt tr).1) ≠ str "Password is required" := by
  unfold createAdmin
  simp only [HashPassword, hh]
  split
  · rename_i err hv
    show ErrorMessage (some err) ≠ _
    rw [← hv]
    exact Admin_Validate_message _ _ _ hp
  · split
    · exact ne_passwordRequired_of_head _ 69 rfl (by decide)
    · show str "" ≠ str "Password is required"
      decide

theorem createUser_sends (env : Env) (tx : Tx) (crt : UserCreate) (tr : Trace) (p : GoString)
    (hh : env.GenerateFromPassword crt.Password = .ok p)
    (hv : User.Validate env.parseAddress (env.frames (str "app/user.go"))
      { ID := 0, Name := crt.Name, Email := crt.Email, Surname := crt.Surname,
        Password := p, Phone := crt.Phone } = none) :
    (createUser env tx crt tr).2
      = tr ++ [.driver (.QueryRow tx.sqlTx createUserStatement
          [.text crt.Name, .text crt.Surname, .text crt.Email, .text p, .int crt.Phone])] := by
  have hq : createUserStatement = str "\n\t\tINSERT INTO users (name, surname, email, password, phone)\n\t\tVALUES ($1, $2, $3, $4, $5)\n\t\tRETURNING id\n\t" := rfl
  simp only [createUser, HashPassword, hh, hv, hq]
  split <;> rfl

theorem createAdmin_sends (env : Env) (tx : Tx) (crt : AdminCreate) (tr : Trace)
    (p : GoString) (hh : env.GenerateFromPassword crt.Password = .ok p)
    (hv : Admin.Validate env.parseAddress (env.frames (str "app/admin.go"))
      { ID := 0, Name := crt.Name, Email := crt.Email, Surname := crt.Surname,
        Password := p, Active := true } = none) :
    (createAdmin env tx crt tr).2
      = tr ++ [.driver (.QueryRow tx.sqlTx createAdminStatement
          [.text crt.Name, .text crt.Email, .text p, .bool true, .text crt.Surname])] := by
  have hq : createAdminStatement = str "\n\t\tINSERT INTO admin (name, surname, email, password, active)\n\t\tVALUES ($1, $2, $3, $4, $5)\n\t\tRETURNING id\n\t" := rfl
  simp only [createAdmin, HashPassword, hh, hv, hq]
  split <;> rfl

theorem updateUser_password_set (env : Env) (upd : UserUpdate) (user : User) (p : GoString)
    (hset : upd.Password.Set = true)
    (hh : env.GenerateFromPassword upd.Password.Value = .ok p) :
    updateUser_password env upd user = .ok { user with Password := p } := by
  simp [updateUser_password, hset, HashPassword, hh]

theorem updateAdmin_password_set (env : Env) (upd : AdminUpdate) (admin : Admin)
    (p : GoString) (hset : upd.Password.Set = true)
    (hh : env.GenerateFromPassword upd.Password.Value = .ok p) :
    updateAdmin_password env upd admin = .ok { admin with Password := p } := by
  simp [updateAdmin_password, hset, HashPassword, hh]

theorem updateUser_message (env : Env) (tx : Tx) (id : Int) (upd : UserUpdate) (tr : Trace)
    (p : GoString) (hset : upd.Password.Set = true)
    (hh : env.GenerateFromPassword upd.Password.Value = .ok p) (hp : p ≠ str "") :
    ErrorMessage (errorOf (updateUser env tx id upd tr).1) ≠ str "Password is required"
    ∧ ∀ (user : User) (tr2 : Trace), updateUser env tx id upd tr = (.ok user, tr2) →
        user.Password = p := by
  unfold updateUser
  split
  · rename_i err tr1 hf
    refine ⟨findUserByID_error_message env tx id tr tr1 err hf, fun user tr2 h => ?_⟩
    simp at h
  · simp only
    split
    · rename_i err tr3 he
      refine ⟨updateUser_email_error_message env tx upd _ _ tr3 err he, fun user tr2 h => ?_⟩
      simp at h
    · rename_i user3 tr3 he
      rw [updateUser_password_set env upd user3 p hset hh]
      simp only
      split
      · rename_i err hv
        refine ⟨?_, fun user tr2 h => by simp at h⟩
        show ErrorMessage (some err) ≠ _
        rw [← hv]
        exact User_Validate_message _ _ _ hp
      · split
        · refine ⟨ne_passwordRequired_of_head _ 69 rfl (by decide),
            fun user tr2 h => by simp at h⟩
        · refine ⟨(by decide : str "" ≠ str "Password is required"), fun user tr2 h => ?_⟩
          simp only [Prod.mk.injEq, Except.ok.injEq] at h
          rw [← h.1]

theorem updateAdmin_message (env : Env) (tx : Tx) (id : Int) (upd : AdminUpdate) (tr : Trace)
    (p : GoString) (hset : upd.Password.Set = true)
    (hh : env.GenerateFromPassword upd.Password.Value = .ok p) (hp : p ≠ str "") :
    ErrorMessage (errorOf (updateAdmin env tx id upd tr).1) ≠ str "Password is required"
    ∧ ∀ (admin : Admin) (tr2 : Trace), updateAdmin env tx id upd tr = (.ok admin, tr2) →
        admin.Password = p := by
  unfold updateAdmin
  split
  · rename_i err tr1 hf
    refine ⟨findAdminByID_error_message env tx id tr tr1 err hf, fun admin tr2 h => ?_⟩
    simp at h
  · simp only
    split
    · rename_i err tr3 he
      refine ⟨updateAdmin_email_error_message env tx upd _ _ tr3 err he,
        fun admin tr2 h => ?_⟩
      simp at h
    · rename_i admin3 tr3 he
      rw [updateAdmin_password_set env upd admin3 p hset hh]
      simp only
      split
      · rename_i err hv
        refine ⟨?_, fun admin tr2 h => by simp at h⟩
        show ErrorMessage (some err) ≠ _
        rw [← hv]
        exact Admin_Validate_message _ _ _ hp
      · split
        · refine ⟨ne_passwordRequired_of_head _ 69 rfl (by decide),
            fun admin tr2 h => by simp at h⟩
        · refine ⟨(by decide : str "" ≠ str "Password is required"), fun admin tr2 h => ?_⟩
          simp only [Prod.mk.injEq, Except.ok.injEq] at h
          rw [← h.1]

/-- C25: `createUser` and `createAdmin` hash the password first and validate the
entity that carries the digest, so the check `Password == ""` is applied to the
digest. Whenever the hashing returns a non-empty digest `p`, whatever the
plaintext is (the empty string included), the creation is never rejected with
"Password is required", and when the other fields are valid the validation
passes and the `INSERT` is sent with `p` as the password. Likewise an update
whose `Password` patch is set, to any value, is never rejected with
"Password is required", and the entity it returns carries the digest. -/
theorem C25_password_check_on_digest (env : Env) (tx : Tx) (tr : Trace) (p : GoString)
    (hp : p ≠ str "") :
    (∀ crt : UserCreate, env.GenerateFromPassword crt.Password = .ok p →
        ErrorMessage (errorOf (createUser env tx crt tr).1) ≠ str "Password is required"
        ∧ (crt.Name ≠ str "" → crt.Surname ≠ str "" → env.parseAddress crt.Email = none →
            crt.Phone ≠ 0 →
            User.Validate env.parseAddress (env.frames (str "app/user.go"))
                { ID := 0, Name := crt.Name, Email := crt.Email, Surname := crt.Surname,
                  Password := p, Phone := crt.Phone } = none
            ∧ (createUser env tx crt tr).2
              = tr ++ [.driver (.QueryRow tx.sqlTx createUserStatement
                  [.text crt.Name, .text crt.Surname, .text crt.Email, .text p,
                    .int crt.Phone])]))
    ∧ (∀ crt : AdminCreate, env.GenerateFromPassword crt.Password = .ok p →
        ErrorMessage (errorOf (createAdmin env tx crt tr).1) ≠ str "Password is required"
        ∧ (crt.Name ≠ str "" → crt.Surname ≠ str "" → env.parseAddress crt.Email = none →
            Admin.Validate env.parseAddress (env.frames (str "app/admin.go"))
                { ID := 0, Name := crt.Name, Email := crt.Email, Surname := crt.Surname,
                  Password := p, Active := true } = none
            ∧ (createAdmin env tx crt tr).2
              = tr ++ [.driver (.QueryRow tx.sqlTx createAdminStatement
                  [.text crt.Name, .text crt.Email, .text p, .bool true,
                    .text crt.Surname])]))
    ∧ (∀ (id : Int) (upd : UserUpdate), upd.Password.Set = true →
        env.GenerateFromPassword upd.Password.Value = .ok p →
        ErrorMessage (errorOf (updateUser env tx id upd tr).1) ≠ str "Password is required"
        ∧ ∀ (user : User) (tr2 : Trace), updateUser env tx id upd tr = (.ok user, tr2) →
            user.Password = p)
    ∧ (∀ (id : Int) (upd : AdminUpdate), upd.Password.Set = true →
        env.GenerateFromPassword upd.Password.Value = .ok p →
        ErrorMessage (errorOf (updateAdmin env tx id upd tr).1) ≠ str "Password is required"
        ∧ ∀ (admin : Admin) (tr2 : Trace), updateAdmin env tx id upd tr = (.ok admin, tr2) →
            admin.Password = p) := by
  refine ⟨?_, ?_, fun id upd hset hh => updateUser_message env tx id upd tr p hset hh hp,
    fun id upd hset hh => updateAdmin_message env tx id upd tr p hset hh hp⟩
  · intro crt hh
    refine ⟨createUser_message env tx crt tr p hh hp, fun h1 h2 h3 h5 => ?_⟩
    have hv := User_Validate_none env.parseAddress (env.frames (str "app/user.go"))
      { ID := 0, Name := crt.Name, Email := crt.Email, Surname := crt.Surname,
        Password := p, Phone := crt.Phone } h1 h2 h3 hp h5
    exact ⟨hv, createUser_sends env tx crt tr p hh hv⟩
  · intro crt hh
    refine ⟨createAdmin_message env tx crt tr p hh hp, fun h1 h2 h3 => ?_⟩
    have hv := Admin_Validate_none env.parseAddress (env.frames (str "app/admin.go"))
      { ID := 0, Name := crt.Name, Email := crt.Email, Surname := crt.Surname,
        Password := p, Active := true } h1 h2 h3 hp
    exact ⟨hv, createAdmin_sends env tx crt tr p hh hv⟩

theorem C25_password_check_on_digest_witness :
    annNoPassword.Password = str ""
    ∧ createUser sampleEnv sampleTx annNoPassword [.driver .BeginTx]
      = (.ok { ID := 1, Name := str "Ann", Surname := str "Lee", Email := str "ann@x.com",
               Password := str "$2a$10$", Phone := 5550000 },
          [.driver .BeginTx,
            .driver (.QueryRow 0 createUserStatement
              [.text (str "Ann"), .text (str "Lee"), .text (str "ann@x.com"),
                .text (str "$2a$10$"), .int 5550000])])
    ∧ ErrorMessage (errorOf (createUser sampleEnv sampleTx annNoPassword
        [.driver .BeginTx]).1) ≠ str "Password is required" :=
  ⟨rfl, by rfl,
    ((C25_password_check_on_digest sampleEnv sampleTx [.driver .BeginTx] (str "$2a$10$")
      (by decide)).1 annNoPassword rfl).1⟩

end Prova
